import Mathlib

/-!
OpenTRV FHT8V wireless radiator valve support: the bit-stream codec.

A shallow embedding of the frame encoder and decoder of
`FHT8V_Wireless_Rad_Valve.cpp` (snapshot `20140120-r2454-V0p2-Arduino-KU-beta-13`).

* Byte buffers are a memory `Nat → Nat` addressed by pointer value; a function that
  writes through a pointer returns the updated memory and pointer.
* `uint8_t` quantities are `Nat`, with an explicit `% 256` wherever the C code
  stores into a byte.
* The build modelled is the one without `FHT8V_ADR_USED`: the command structure has
  no address field and the address unit is always sent as `0`.
* The unbounded leading-zero loop of the decoder runs on fuel computed from the
  window size; the decoder returns `none` only if that fuel runs out.

Definitions named `spec_...` follow the wording of the specification (the reference
wire format); all other definitions follow the source or are proof devices over it.
-/

set_option maxRecDepth 1000000

namespace OpenTRV

/-! ## Data model -/

/-- The `fht8v_msg_t` command structure (no address field). -/
structure fht8v_msg_t where
  hc1 : Nat
  hc2 : Nat
  command : Nat
  extension : Nat
deriving DecidableEq, Repr

/-- All four fields of a command are byte values (`uint8_t`). -/
def fht8v_msg_t.IsBytes (c : fht8v_msg_t) : Prop :=
  c.hc1 < 256 ∧ c.hc2 < 256 ∧ c.command < 256 ∧ c.extension < 256

instance (c : fht8v_msg_t) : Decidable c.IsBytes := by
  unfold fht8v_msg_t.IsBytes; infer_instance

/-- Store of one `uint8_t` through a pointer: `*p = v`. -/
def poke (buf : Nat → Nat) (p v : Nat) : Nat → Nat :=
  fun q => if q = p then v % 256 else buf q

/-! ## Encoder -/

/-- Embedding of `_FHT8VCreate200usAppendEncBit`: appends `1100` (logical 0) or
`111000` (logical 1) at `bptr`; the two low bits of the current byte say how
many bit pairs are still free.  Returns the updated buffer and pointer. -/
def _FHT8VCreate200usAppendEncBit (buf : Nat → Nat) (bptr : Nat) (is1 : Bool) :
    (Nat → Nat) × Nat :=
  let bitPairsLeft := buf bptr &&& 3
  if !is1 then
    match bitPairsLeft with
    | 3 => (poke buf bptr 0xcd, bptr)
    | 2 => (poke buf bptr ((buf bptr &&& 0xc0) ||| 0x30), bptr)
    | 1 => (poke (poke buf bptr ((buf bptr &&& 0xf0) ||| 0xc)) (bptr + 1) 0xff, bptr + 1)
    | _ => (poke (poke buf bptr (buf bptr ||| 3)) (bptr + 1) 0x3e, bptr + 1)
  else
    match bitPairsLeft with
    | 3 => (poke buf bptr 0xe0, bptr)
    | 2 => (poke (poke buf bptr ((buf bptr &&& 0xc0) ||| 0x38)) (bptr + 1) 0xff, bptr + 1)
    | 1 => (poke (poke buf bptr ((buf bptr &&& 0xf0) ||| 0xe)) (bptr + 1) 0x3e, bptr + 1)
    | _ => (poke (poke buf bptr (buf bptr ||| 3)) (bptr + 1) 0x8d, bptr + 1)

/-- The avr-libc helper `parity_even_bit` of `<util/parity.h>`: `1` when the byte
has an odd number of bits set, so that data plus parity bit has even weight. -/
def parity_even_bit (b : Nat) : Nat :=
  ((List.range 8).foldl (fun acc i => acc ^^^ ((b >>> i) &&& 1)) 0)

/-- The masks visited by `for(uint8_t mask = 0x80; mask != 0; mask >>= 1)`. -/
def byteMasks : List Nat := [0x80, 0x40, 0x20, 0x10, 0x08, 0x04, 0x02, 0x01]

/-- Embedding of `_FHT8VCreate200usAppendByteEP`: the eight data bits msb first,
then the even-parity bit. -/
def _FHT8VCreate200usAppendByteEP (buf : Nat → Nat) (bptr : Nat) (b : Nat) :
    (Nat → Nat) × Nat :=
  let s := byteMasks.foldl
    (fun (s : (Nat → Nat) × Nat) mask =>
      _FHT8VCreate200usAppendEncBit s.1 s.2 (decide (0 ≠ (b &&& mask))))
    (buf, bptr)
  _FHT8VCreate200usAppendEncBit s.1 s.2 (decide (parity_even_bit b ≠ 0))

/-- Embedding of `FHT8VCreate200usBitStreamBptr` (`FHT8V_ADR_USED` undefined).
Returns the buffer and the pointer to the terminating `0xff`. -/
def FHT8VCreate200usBitStreamBptr (buf : Nat → Nat) (bptr : Nat) (command : fht8v_msg_t) :
    (Nat → Nat) × Nat :=
  let buf := poke buf bptr 0xcc
  let buf := poke buf (bptr + 1) 0xcc
  let buf := poke buf (bptr + 2) 0xcc
  let buf := poke buf (bptr + 3) 0xcc
  let buf := poke buf (bptr + 4) 0xcc
  let buf := poke buf (bptr + 5) 0xcc
  let bptr := bptr + 6
  let buf := poke buf bptr 0xff
  let s := _FHT8VCreate200usAppendEncBit buf bptr true
  let s := _FHT8VCreate200usAppendByteEP s.1 s.2 command.hc1
  let s := _FHT8VCreate200usAppendByteEP s.1 s.2 command.hc2
  let s := _FHT8VCreate200usAppendByteEP s.1 s.2 0
  let s := _FHT8VCreate200usAppendByteEP s.1 s.2 command.command
  let s := _FHT8VCreate200usAppendByteEP s.1 s.2 command.extension
  let checksum := (0xc + command.hc1 + command.hc2 + command.command + command.extension) % 256
  let s := _FHT8VCreate200usAppendByteEP s.1 s.2 checksum
  let s := _FHT8VCreate200usAppendEncBit s.1 s.2 false
  let s := _FHT8VCreate200usAppendEncBit s.1 s.2 false
  (poke s.1 s.2 0xff, s.2)

/-- The bytes of a buffer from `start` (inclusive) to `stop` (exclusive). -/
def bytesBetween (buf : Nat → Nat) (start stop : Nat) : List Nat :=
  (List.range (stop - start)).map (fun i => buf (start + i))

/-- Zero-filled buffer. -/
def zeroBuf : Nat → Nat := fun _ => 0

/-! ## Decoder -/

/-- The `decode_state_t` structure: current byte pointer, pointer to the last
byte of the window, current bit-pair mask (`0` is read as `0xc0`), failure flag. -/
structure decode_state_t where
  bitStream : Nat
  lastByte : Nat
  mask : Nat
  failed : Bool
deriving DecidableEq, Repr

/-- Tail of `readOneBit` from "Third pair of bits must be 00" to `return(1)`. -/
def readOneBit_thirdPair (buf : Nat → Nat) (state : decode_state_t) : Nat × decode_state_t :=
  if 0 ≠ (state.mask &&& buf state.bitStream) then
    (0, { state with failed := true })
  else
    let state := { state with mask := state.mask >>> 2 }
    let state :=
      if 0 = state.mask then { state with bitStream := state.bitStream + 1 } else state
    (1, state)

/-- Middle of `readOneBit`: the `switch(secondPair)` and the advance that follows it. -/
def readOneBit_secondPair (buf : Nat → Nat) (state : decode_state_t) : Nat × decode_state_t :=
  let secondPair := state.mask &&& buf state.bitStream
  if secondPair = 0 then
    let state := { state with mask := state.mask >>> 2 }
    let state :=
      if 0 = state.mask then { state with bitStream := state.bitStream + 1 } else state
    (0, state)
  else if secondPair = 0x80 ∨ secondPair = 0x20 ∨ secondPair = 8 ∨ secondPair = 2 then
    let state := { state with mask := state.mask >>> 2 }
    if 0 = state.mask then
      let state := { state with mask := 0xc0, bitStream := state.bitStream + 1 }
      if state.bitStream > state.lastByte then (0, { state with failed := true })
      else readOneBit_thirdPair buf state
    else readOneBit_thirdPair buf state
  else
    (0, { state with failed := true })

/-- Embedding of `readOneBit`: decodes `1100` as 0 and `111000` as 1, two bits
at a time; returns the bit (0 on failure) and the updated state. -/
def readOneBit (buf : Nat → Nat) (state : decode_state_t) : Nat × decode_state_t :=
  let state :=
    if state.bitStream > state.lastByte then { state with failed := true } else state
  if state.failed then (0, state)
  else
    let state := if 0 = state.mask then { state with mask := 0xc0 } else state
    if state.mask ≠ (state.mask &&& buf state.bitStream) then
      (0, { state with failed := true })
    else
      let state := { state with mask := state.mask >>> 2 }
      if 0 = state.mask then
        let state := { state with mask := 0xc0, bitStream := state.bitStream + 1 }
        if state.bitStream > state.lastByte then (0, { state with failed := true })
        else readOneBit_secondPair buf state
      else readOneBit_secondPair buf state

/-- The loop `for(int i = 7; --i >= 0; )` of `readOneByteWithParity`, with `n`
iterations left; carries `result`, `parity` and the decode state. -/
def readOneByteWithParity_loop (buf : Nat → Nat) :
    Nat → Nat → Nat → decode_state_t → Nat × Nat × decode_state_t
  | 0, result, parity, state => (result, parity, state)
  | n + 1, result, parity, state =>
    let r := readOneBit buf state
    readOneByteWithParity_loop buf n (((result <<< 1) ||| r.1) % 256) (parity ^^^ r.1) r.2

/-- Embedding of `readOneByteWithParity`: eight data bits msb first, then the
parity bit, which must equal the xor of the data bits. -/
def readOneByteWithParity (buf : Nat → Nat) (state : decode_state_t) : Nat × decode_state_t :=
  if state.failed then (0, state)
  else
    let r := readOneBit buf state
    let b7 := r.1
    let l := readOneByteWithParity_loop buf 7 b7 b7 r.2
    let p := readOneBit buf l.2.2
    if l.2.1 ≠ p.1 then (l.1, { p.2 with failed := true }) else (l.1, p.2)

/-- The loop `while(0 == readOneBit(&state)) { if(state.failed) { return(false); } }`.
The outer `none` means the fuel ran out; `some none` means `return(false)` was
taken; `some (some s)` means the leading encoded 1 was absorbed, leaving state `s`. -/
def skipLeadingZeros (buf : Nat → Nat) : Nat → decode_state_t → Option (Option decode_state_t)
  | 0, _ => none
  | fuel + 1, state =>
    let r := readOneBit buf state
    if 0 = r.1 then
      if r.2.failed then some none else skipLeadingZeros buf fuel r.2
    else some (some r.2)

/-- Fuel that suffices for the leading-zero loop on the window `[bitStream, lastByte]`:
every iteration but the last consumes two bit pairs of the window. -/
def decodeFuel (bitStream lastByte : Nat) : Nat := 2 * (lastByte + 1 - bitStream) + 1

/-- Embedding of `FHT8VDecodeBitStream` (`FHT8V_ADR_USED` undefined): returns the
boolean result and the command structure as left by the call.  `none` only if the
leading-zero loop exceeded `decodeFuel`. -/
def FHT8VDecodeBitStream (buf : Nat → Nat) (bitStream lastByte : Nat) (command : fht8v_msg_t) :
    Option (Bool × fht8v_msg_t) :=
  let state : decode_state_t :=
    { bitStream := bitStream, lastByte := lastByte, mask := 0, failed := false }
  match skipLeadingZeros buf (decodeFuel bitStream lastByte) state with
  | none => none
  | some none => some (false, command)
  | some (some state) =>
    let r1 := readOneByteWithParity buf state
    let command := { command with hc1 := r1.1 }
    let r2 := readOneByteWithParity buf r1.2
    let command := { command with hc2 := r2.1 }
    let r3 := readOneByteWithParity buf r2.2
    let address := r3.1
    let r4 := readOneByteWithParity buf r3.2
    let command := { command with command := r4.1 }
    let r5 := readOneByteWithParity buf r4.2
    let command := { command with extension := r5.1 }
    let r6 := readOneByteWithParity buf r5.2
    let checksumRead := r6.1
    if r6.2.failed then some (false, command)
    else
      let checksum :=
        (0xc + command.hc1 + command.hc2 + address + command.command + command.extension) % 256
      if checksum ≠ checksumRead then some (false, command)
      else
        let r7 := readOneBit buf r6.2
        if 0 ≠ r7.1 then some (false, command)
        else some (!r7.2.failed, command)

/-- Encode `command` at address `start` of `buf`, then decode the window that
starts at `start` and whose last byte is `slack - 1` bytes past the returned
terminator pointer: `slack = 0` ends the window at the byte before the `0xff`,
`slack = 1` at the `0xff` itself.  `out` is the command structure handed to the decoder. -/
def encodeThenDecode (buf : Nat → Nat) (start slack : Nat) (command out : fht8v_msg_t) :
    Option (Bool × fht8v_msg_t) :=
  let e := FHT8VCreate200usBitStreamBptr buf start command
  FHT8VDecodeBitStream e.1 start (e.2 + slack - 1) out

/-! ## Reference wire format (from the specification) -/

/-- Line code of one logical bit: `0 -> 1100`, `1 -> 111000`. -/
def spec_lineCode : Bool → List Bool
  | false => [true, true, false, false]
  | true => [true, true, true, false, false, false]

/-- Concatenated line-code patterns of a sequence of logical bits. -/
def spec_encodeBits (bits : List Bool) : List Bool := bits.flatMap spec_lineCode

/-- The eight data bits of a byte, most significant first. -/
def spec_byteBits (b : Nat) : List Bool :=
  [b.testBit 7, b.testBit 6, b.testBit 5, b.testBit 4,
   b.testBit 3, b.testBit 2, b.testBit 1, b.testBit 0]

/-- Even-parity bit of a byte: set when the byte has an odd number of one bits. -/
def spec_parityBit (b : Nat) : Bool := decide ((spec_byteBits b).count true % 2 = 1)

/-- A byte-plus-parity unit: 8 data bits msb first, then the even-parity bit. -/
def spec_unitBits (b : Nat) : List Bool := spec_byteBits b ++ [spec_parityBit b]

/-- Checksum `(0x0C + hc1 + hc2 + address + command + extension) mod 256`, address 0. -/
def spec_checksum (c : fht8v_msg_t) : Nat :=
  (0x0C + c.hc1 + c.hc2 + 0 + c.command + c.extension) % 256

/-- The six body units of a command: hc1, hc2, address (0), command, extension, checksum. -/
def spec_bodyBits (c : fht8v_msg_t) : List Bool :=
  spec_unitBits c.hc1 ++ spec_unitBits c.hc2 ++ spec_unitBits 0 ++
    spec_unitBits c.command ++ spec_unitBits c.extension ++ spec_unitBits (spec_checksum c)

/-- Logical bits of a frame with the given body: 12 zero bits, one 1 bit, the body,
then two 0 bits. -/
def spec_frameOfBody (body : List Bool) : List Bool :=
  List.replicate 12 false ++ [true] ++ body ++ [false, false]

/-- Logical bits of the frame of a command. -/
def spec_frameBits (c : fht8v_msg_t) : List Bool := spec_frameOfBody (spec_bodyBits c)

/-- Value of a group of bits read most significant first. -/
def spec_bitsValue (bits : List Bool) : Nat := bits.foldl (fun acc b => 2 * acc + b.toNat) 0

/-- Naive MSB-first packing of a bit sequence into bytes; a final incomplete byte
is padded with zero bits. -/
def spec_pack : List Bool → List Nat
  | b7 :: b6 :: b5 :: b4 :: b3 :: b2 :: b1 :: b0 :: rest =>
    spec_bitsValue [b7, b6, b5, b4, b3, b2, b1, b0] :: spec_pack rest
  | [] => []
  | bits => [spec_bitsValue (bits ++ List.replicate (8 - bits.length) false)]

/-! ## Packing an arbitrary logical bit sequence with the encoder's append operation -/

/-- Repeated `_FHT8VCreate200usAppendEncBit` over a list of logical bits. -/
def appendEncBits (s : (Nat → Nat) × Nat) (bits : List Bool) : (Nat → Nat) × Nat :=
  bits.foldl (fun s b => _FHT8VCreate200usAppendEncBit s.1 s.2 b) s

/-- The logical bits `_FHT8VCreate200usAppendByteEP` appends for byte `b`. -/
def appendedUnitBits (b : Nat) : List Bool :=
  byteMasks.map (fun mask => decide (0 ≠ (b &&& mask))) ++ [decide (parity_even_bit b ≠ 0)]

/-- The body bits `FHT8VCreate200usBitStreamBptr` appends for a command. -/
def appendedBodyBits (c : fht8v_msg_t) : List Bool :=
  appendedUnitBits c.hc1 ++ appendedUnitBits c.hc2 ++ appendedUnitBits 0 ++
    appendedUnitBits c.command ++ appendedUnitBits c.extension ++
    appendedUnitBits ((0xc + c.hc1 + c.hc2 + c.command + c.extension) % 256)

/-- A frame built as `FHT8VCreate200usBitStreamBptr` builds it (six `0xcc` bytes,
the start bit, the two trailer bits and the `0xff` terminator), but around an
arbitrary sequence of logical body bits. -/
def packFrame (buf : Nat → Nat) (bptr : Nat) (body : List Bool) : (Nat → Nat) × Nat :=
  let buf := poke buf bptr 0xcc
  let buf := poke buf (bptr + 1) 0xcc
  let buf := poke buf (bptr + 2) 0xcc
  let buf := poke buf (bptr + 3) 0xcc
  let buf := poke buf (bptr + 4) 0xcc
  let buf := poke buf (bptr + 5) 0xcc
  let bptr := bptr + 6
  let buf := poke buf bptr 0xff
  let s := appendEncBits (buf, bptr) (true :: (body ++ [false, false]))
  (poke s.1 s.2 0xff, s.2)

/-- Logical bits already present in a byte under construction, read off the
value `_FHT8VCreate200usAppendEncBit` keeps there. -/
def pendingBits (c : Nat) : List Bool :=
  if c = 0x3e then [false, false]
  else if c = 0xcd then [true, true, false, false]
  else if c = 0x8d then [true, false, false, false]
  else if c = 0xe0 then [true, true, true, false, false, false]
  else if c = 0x30 then [false, false, true, true, false, false]
  else []

/-- The values a byte under construction can hold. -/
def IsPending (c : Nat) : Prop :=
  c = 0xff ∨ c = 0x3e ∨ c = 0xcd ∨ c = 0x8d ∨ c = 0xe0 ∨ c = 0x30

instance (c : Nat) : Decidable (IsPending c) := by unfold IsPending; infer_instance

/-- Representation invariant of the encoder: the completed bytes from `start` to
the pointer, followed by the pending bits of the current byte, spell `raw`. -/
structure Rep (start : Nat) (raw : List Bool) (s : (Nat → Nat) × Nat) : Prop where
  le : start ≤ s.2
  pending : IsPending (s.1 s.2)
  bits : raw = (bytesBetween s.1 start s.2).flatMap spec_byteBits ++ pendingBits (s.1 s.2)
  full : ∀ d ∈ bytesBetween s.1 start s.2, d < 255

/-! ## The decoder's view of a buffer window -/

/-- All bits of the window `[bitStream, lastByte]`, byte by byte, msb first. -/
def windowBits (buf : Nat → Nat) (bitStream lastByte : Nat) : List Bool :=
  (bytesBetween buf bitStream (lastByte + 1)).flatMap spec_byteBits

/-- Index (0..3) of the bit pair of the current byte selected by a decoder mask;
the initial mask `0` selects the top pair as `0xc0` does. -/
def maskIndex (mask : Nat) : Nat :=
  if mask = 0x30 then 1 else if mask = 0x0c then 2 else if mask = 0x03 then 3 else 0

/-- The masks a decode state can hold. -/
def ValidMask (mask : Nat) : Prop :=
  mask = 0 ∨ mask = 0xc0 ∨ mask = 0x30 ∨ mask = 0x0c ∨ mask = 0x03

instance (mask : Nat) : Decidable (ValidMask mask) := by unfold ValidMask; infer_instance

/-- The bits of the window that lie ahead of the decoder's current position. -/
def decode_state_t.ahead (buf : Nat → Nat) (st : decode_state_t) : List Bool :=
  (windowBits buf st.bitStream st.lastByte).drop (2 * maskIndex st.mask)

/-- A decode state ready to read: valid mask, not failed. -/
def decode_state_t.Ready (st : decode_state_t) : Prop :=
  ValidMask st.mask ∧ st.failed = false

/-- The accumulation `result = (result << 1) | bit; parity ^= bit` of
`readOneByteWithParity` over a list of decoded bits. -/
def accumulateBits (bits : List Bool) (result parity : Nat) : Nat × Nat :=
  bits.foldl (fun a b => (((a.1 <<< 1) ||| b.toNat) % 256, a.2 ^^^ b.toNat)) (result, parity)

/-- What `readOneByteWithParity` makes of the nine logical bits of a unit: the
byte value and whether the parity bit matches the xor of the data bits. -/
def decodedUnit (u : List Bool) : Nat × Bool :=
  let a := accumulateBits ((u.drop 1).take 7) (u.headD false).toNat (u.headD false).toNat
  (a.1, decide (a.2 = ((u.drop 8).headD false).toNat))

/-- Successive `readOneByteWithParity` calls: the values read and the final state. -/
def readUnits (buf : Nat → Nat) : Nat → decode_state_t → List Nat × decode_state_t
  | 0, st => ([], st)
  | n + 1, st =>
    let r := readOneByteWithParity buf st
    let t := readUnits buf n r.2
    (r.1 :: t.1, t.2)

/-- The part of `FHT8VDecodeBitStream` after the six units have been read. -/
def decodeFinish (buf : Nat → Nat) (v : List Nat) (st : decode_state_t) :
    Option (Bool × fht8v_msg_t) :=
  match v with
  | [v1, v2, v3, v4, v5, v6] =>
    let command : fht8v_msg_t := { hc1 := v1, hc2 := v2, command := v4, extension := v5 }
    if st.failed then some (false, command)
    else if (0xc + v1 + v2 + v3 + v4 + v5) % 256 ≠ v6 then some (false, command)
    else
      let r7 := readOneBit buf st
      if 0 ≠ r7.1 then some (false, command) else some (!r7.2.failed, command)
  | _ => none

/-- A bit sequence with the bit at index `k` inverted (unchanged if `k` is past the end). -/
def invertAt : Nat → List Bool → List Bool
  | _, [] => []
  | 0, b :: bs => (!b) :: bs
  | k + 1, b :: bs => b :: invertAt k bs

/-- The six 9-bit units of a 54-bit body. -/
def unitsOf (body : List Bool) : List (List Bool) :=
  [body.take 9, (body.drop 9).take 9, (body.drop 18).take 9, (body.drop 27).take 9,
    (body.drop 36).take 9, (body.drop 45).take 9]

/-! ## Scheduler, radio and hub: data model

Build modelled: `IGNORE_FHT_SYNC`, `DEBUG` and `RFM22_SYNC_ONLY_BCFH` undefined,
`ENABLE_BOILER_HUB` defined (hub mode itself is the run-time input `inHubMode`).
The statics of the source file are split into the scheduler's variables with the
TX buffer (`SchedulerState`) and the receiver's variables with the radio
(`RadioState`). -/

/-- Conversion of a C `int` value to `uint8_t`. -/
def toUint8 (x : Int) : Nat := (x % 256).toNat

/-- Commands issued to the RFM22 radio collaborator, as recorded in the trace. -/
inductive RadioOp where
  /-- Call of `RFM22ModeStandbyAndClearState()`. -/
  | standby
  /-- Call of `RFM22SetUpRX(maxFrameLength, true, true)`. -/
  | setUpRX (maxFrameLength : Nat)
  /-- Call of `RFM22QueueCmdToFF(bptr)`: the bytes from `bptr` up to the terminating `0xff`. -/
  | queueCmdToFF (frame : List Nat)
  /-- Call of `RFM22TXFIFO()`. -/
  | txFIFO
  /-- Call of `RFM22ReadStatusBoth()`. -/
  | readStatusBoth
  /-- Call of `RFM22RXFIFO(buffer, length)`. -/
  | rxFIFO (length : Nat)
deriving DecidableEq, Repr

/-- What one `RFM22ReadStatusBoth()` observes, with the FIFO content a following
`RFM22RXFIFO` would deliver. -/
structure RxInput where
  status : Nat
  fifo : Nat → Nat

/-- Build configuration and the external inputs read during one call: the macros
and collaborator functions that are not defined in the source file. -/
structure Env where
  /-- Whether `TWO_S_TICK_RTC_SUPPORT` is defined (selects `MAX_HSC`). -/
  TWO_S_TICK_RTC_SUPPORT : Bool
  /-- The macro `DEFAULT_MIN_VALVE_PC_REALLY_OPEN`, in [1,100]. -/
  FHT8V_MIN_VALVE_PC_REALLY_OPEN : Nat
  /-- Size of the TX and RX buffers. -/
  FHT8V_200US_BIT_STREAM_FRAME_BUF_SIZE : Nat
  /-- Frame length given to `RFM22SetUpRX`. -/
  MIN_FHT8V_200US_BIT_STREAM_BUF_SIZE : Nat
  /-- Result of `FHT8VGetHC1()` (EEPROM). -/
  FHT8VGetHC1 : Nat
  /-- Result of `FHT8VGetHC2()` (EEPROM). -/
  FHT8VGetHC2 : Nat
  /-- Result of `getTRVPercentOpen()`. -/
  getTRVPercentOpen : Nat
  /-- Result of `localFHT8VTRVEnabled()`. -/
  localFHT8VTRVEnabled : Bool
  /-- Result of `inHubMode()`. -/
  inHubMode : Bool
  /-- Whether `PIN_RFM_NIRQ` is defined and the pin does not read `LOW`. -/
  nIRQNotLow : Bool
  /-- Number of receiver polls made by `nap30AndPoll()`/`pollIO()` while
  `sleepUntilSubCycleTimeOptionalRX` waits in hub mode. -/
  waitPolls : Nat

/-- The scheduler's static variables and the shared TX buffer. -/
structure SchedulerState where
  syncedWithFHT8V : Bool
  FHT8V_isValveOpen : Bool
  syncStateFHT8V : Nat
  halfSecondsToNextFHT8VTX : Nat
  halfSecondCount : Nat
  FHT8VTXCommandArea : Nat → Nat

/-- The receiver's static variables and the radio: the trace of commands issued to
the radio (oldest first) and the observations its status reads will make. -/
structure RadioState where
  FHT8VRXHubArea : Nat → Nat
  eavesdropping : Bool
  lastCallForHeatHC : Nat
  ops : List RadioOp
  rx : List RxInput

/-- All statics of the source file. -/
structure World where
  sched : SchedulerState
  radio : RadioState

/-- The macro `MAX_HSC`: 3 with `TWO_S_TICK_RTC_SUPPORT`, else 1. -/
def MAX_HSC (env : Env) : Nat := if env.TWO_S_TICK_RTC_SUPPORT then 3 else 1

/-! ## Valve-set frame -/

/-- Embedding of `FHT8VCreateValveSetCmdFrame_r` (`RFM22_SYNC_ONLY_BCFH` undefined):
returns the buffer, the terminator pointer and the updated command. -/
def FHT8VCreateValveSetCmdFrame_r (buf : Nat → Nat) (bptr : Nat) (command : fht8v_msg_t)
    (TRVPercentOpen : Nat) : ((Nat → Nat) × Nat) × fht8v_msg_t :=
  let command := { command with command := 0x26 }
  let command := { command with extension := ((TRVPercentOpen * 255) / 100) % 256 }
  (FHT8VCreate200usBitStreamBptr buf bptr command, command)

/-- Embedding of `FHT8VCreateValveSetCmdFrame`: the valve-set frame for the stored
house codes and the current requested percentage, written to the TX buffer. -/
def FHT8VCreateValveSetCmdFrame (env : Env) (s : SchedulerState) : SchedulerState :=
  let command : fht8v_msg_t :=
    { hc1 := env.FHT8VGetHC1, hc2 := env.FHT8VGetHC2, command := 0, extension := 0 }
  { s with FHT8VTXCommandArea :=
      (FHT8VCreateValveSetCmdFrame_r s.FHT8VTXCommandArea 0 command
        env.getTRVPercentOpen).1.1 }

/-- Embedding of `getFHT8V_isValveOpen`. -/
def getFHT8V_isValveOpen (s : SchedulerState) : Bool :=
  s.syncedWithFHT8V && s.FHT8V_isValveOpen

/-- Embedding of `setFHT8V_isValveOpen`. -/
def setFHT8V_isValveOpen (env : Env) (s : SchedulerState) : SchedulerState :=
  { s with FHT8V_isValveOpen :=
      decide (env.getTRVPercentOpen ≥ env.FHT8V_MIN_VALVE_PC_REALLY_OPEN) }

/-- Embedding of `FHT8VSyncAndTXReset`. -/
def FHT8VSyncAndTXReset (s : SchedulerState) : SchedulerState :=
  { s with syncedWithFHT8V := false, syncStateFHT8V := 0, halfSecondsToNextFHT8VTX := 0,
           FHT8V_isValveOpen := false }

/-! ## Receiver (hub) -/

/-- Append a command to the radio trace. -/
def RadioState.issue (r : RadioState) (op : RadioOp) : RadioState :=
  { r with ops := r.ops ++ [op] }

/-- Embedding of `_SetupRFM22ToEavesdropOnFHT8V`. -/
def _SetupRFM22ToEavesdropOnFHT8V (env : Env) (r : RadioState) : RadioState :=
  (r.issue .standby).issue (.setUpRX env.MIN_FHT8V_200US_BIT_STREAM_BUF_SIZE)

/-- Embedding of `SetupToEavesdropOnFHT8V(force)`. -/
def SetupToEavesdropOnFHT8V (env : Env) (force : Bool) (r : RadioState) : RadioState :=
  if !force && r.eavesdropping then r
  else _SetupRFM22ToEavesdropOnFHT8V env { r with eavesdropping := true }

/-- Embedding of `StopEavesdropOnFHT8V(force)`. -/
def StopEavesdropOnFHT8V (force : Bool) (r : RadioState) : RadioState :=
  if !force && !r.eavesdropping then r
  else ({ r with eavesdropping := false }).issue .standby

/-- Embedding of `FHT8VCallForHeatHeard`. -/
def FHT8VCallForHeatHeard (r : RadioState) : Bool := decide (r.lastCallForHeatHC ≠ 0xFFFF)

/-- Embedding of `FHT8VCallForHeatHeardGetAndClear`. -/
def FHT8VCallForHeatHeardGetAndClear (r : RadioState) : Nat × RadioState :=
  (r.lastCallForHeatHC, { r with lastCallForHeatHC := 0xFFFF })

/-- Embedding of `FHT8VHubListenCount` (stub in the source). -/
def FHT8VHubListenCount : Nat := 0

/-- Embedding of `FHT8VHubAcceptedHouseCode` (stub in the source). -/
def FHT8VHubAcceptedHouseCode (_hc1 _hc2 : Nat) : Bool := true

/-- The preamble loop of `FHT8VCallForHeatPoll`,
`for(pos = 0; pos < 6; ++pos) { if(0xcc != area[pos]) { ... break; } }`, with `n`
iterations left: the position at which it stops. -/
def preambleScan (area : Nat → Nat) : Nat → Nat → Nat
  | 0, pos => pos
  | n + 1, pos => if 0xcc ≠ area pos then pos else preambleScan area n (pos + 1)

/-- Embedding of `FHT8VCallForHeatPoll`.  The result is `none` where control
reaches the end of the function without a `return` (status with neither bit set). -/
def FHT8VCallForHeatPoll (env : Env) (r : RadioState) : Option Bool × RadioState :=
  if !r.eavesdropping then (some false, r)
  else if env.nIRQNotLow then (some false, r)
  else if FHT8VCallForHeatHeard r then (some false, r)
  else
    let inp : RxInput := r.rx.headD { status := 0, fifo := fun _ => 0 }
    let r := { r.issue .readStatusBoth with rx := r.rx.tail }
    if inp.status &&& 0x1000 ≠ 0 then
      let size := env.FHT8V_200US_BIT_STREAM_FRAME_BUF_SIZE
      let area : Nat → Nat :=
        fun i => if i < size then inp.fifo i % 256 else r.FHT8VRXHubArea i
      let r := { r.issue (.rxFIFO size) with FHT8VRXHubArea := area }
      let pos := preambleScan area 6 0
      if pos < 2 then (some false, _SetupRFM22ToEavesdropOnFHT8V env r)
      else
        match FHT8VDecodeBitStream area pos (size - 1) ⟨0, 0, 0, 0⟩ with
        | some (true, command) =>
          if 0x26 = command.command ∧
              command.extension ≥ env.FHT8V_MIN_VALVE_PC_REALLY_OPEN then
            let compoundHC := ((command.hc1 <<< 8) ||| command.hc2) % 65536
            if FHT8VHubAcceptedHouseCode command.hc1 command.hc2 then
              (some true, StopEavesdropOnFHT8V false { r with lastCallForHeatHC := compoundHC })
            else (some true, r)
          else (some true, r)
        | some (false, _) => (some false, _SetupRFM22ToEavesdropOnFHT8V env r)
        | none => (none, r)
    else if inp.status &&& 0x8000 ≠ 0 then
      (some false, _SetupRFM22ToEavesdropOnFHT8V env r)
    else (none, r)

/-- Repeated receiver polls, results discarded. -/
def pollRepeatedly (env : Env) : Nat → RadioState → RadioState
  | 0, r => r
  | n + 1, r => pollRepeatedly env n (FHT8VCallForHeatPoll env r).2

/-! ## Transmission -/

/-- The bytes `RFM22QueueCmdToFF` takes from a buffer: those before the first `0xff`. -/
def frameToFF (area : Nat → Nat) (size : Nat) : List Nat :=
  ((List.range size).map area).takeWhile (fun b => b ≠ 0xff)

/-- Embedding of `FHT8VTXFHTQueueAndSendCmd(bptr, doubleTX)` for the buffer `area`. -/
def FHT8VTXFHTQueueAndSendCmd (env : Env) (area : Nat → Nat) (doubleTX : Bool)
    (r : RadioState) : RadioState :=
  if 0xff = area 0 then r
  else
    let hubMode := env.inHubMode
    let r := if hubMode then (FHT8VCallForHeatPoll env r).2 else r
    let r := StopEavesdropOnFHT8V false r
    let r := r.issue (.queueCmdToFF (frameToFF area env.FHT8V_200US_BIT_STREAM_FRAME_BUF_SIZE))
    let r := r.issue .txFIFO
    let r := if doubleTX then r.issue .txFIFO else r
    if hubMode then SetupToEavesdropOnFHT8V env false r else r.issue .standby

/-- Embedding of `valveSettingTX`. -/
def valveSettingTX (env : Env) (allowDoubleTX : Bool) (w : World) : World :=
  { sched := setFHT8V_isValveOpen env w.sched,
    radio := FHT8VTXFHTQueueAndSendCmd env w.sched.FHT8VTXCommandArea allowDoubleTX w.radio }

/-- Embedding of `sleepUntilSubCycleTimeOptionalRX`: the passage of time is not
modelled; in hub mode the receiver is polled while waiting (`nap30AndPoll()` and
`pollIO()` are taken to poll it, `waitPolls` times in all) and once at the end. -/
def sleepUntilSubCycleTimeOptionalRX (env : Env) (r : RadioState) : RadioState :=
  if env.inHubMode then
    (FHT8VCallForHeatPoll env (pollRepeatedly env env.waitPolls r)).2
  else r

/-- Embedding of the one-argument `FHT8VTXGapHalfSeconds(hc2)`. -/
def FHT8VTXGapHalfSeconds (hc2 : Nat) : Nat := toUint8 (((hc2 &&& 7 : Nat) : Int) + 230)

/-- Embedding of the two-argument overload
`FHT8VTXGapHalfSeconds(hc2, halfSecondCountInMinorCycle)`. -/
def FHT8VTXGapHalfSeconds2 (env : Env) (hc2 halfSecondCountInMinorCycle : Nat) : Nat :=
  toUint8 ((FHT8VTXGapHalfSeconds hc2 : Int)
    - ((MAX_HSC env : Int) - (halfSecondCountInMinorCycle : Int)))

/-! ## Scheduler -/

/-- Embedding of `doSync`. -/
def doSync (env : Env) (allowDoubleTX : Bool) (w : World) : Bool × World :=
  if !env.localFHT8VTRVEnabled then
    (false, { w with sched := { w.sched with syncedWithFHT8V := false } })
  else
    let w : World :=
      if 0 = w.sched.syncStateFHT8V then
        { w with sched := { w.sched with syncStateFHT8V := 241 } }
      else w
    if w.sched.syncStateFHT8V ≥ 2 then
      let w : World :=
        if w.sched.syncStateFHT8V &&& 1 ≠ 0 then
          let command : fht8v_msg_t :=
            { hc1 := env.FHT8VGetHC1, hc2 := env.FHT8VGetHC2, command := 0x2c,
              extension := w.sched.syncStateFHT8V }
          let w : World := { w with sched := { w.sched with
            FHT8VTXCommandArea :=
              (FHT8VCreate200usBitStreamBptr w.sched.FHT8VTXCommandArea 0 command).1 } }
          let w : World :=
            if w.sched.halfSecondCount > 0 then
              { w with radio := sleepUntilSubCycleTimeOptionalRX env w.radio }
            else w
          { w with radio :=
              FHT8VTXFHTQueueAndSendCmd env w.sched.FHT8VTXCommandArea allowDoubleTX w.radio }
        else w
      let w : World := { w with sched := { w.sched with
        syncStateFHT8V := toUint8 ((w.sched.syncStateFHT8V : Int) - 1) } }
      if 1 = w.sched.syncStateFHT8V then
        let w : World := { w with sched := { w.sched with
          halfSecondsToNextFHT8VTX := toUint8 (((env.FHT8VGetHC2 &&& 7 : Nat) : Int) + 8) } }
        let w : World := { w with sched := { w.sched with
          halfSecondsToNextFHT8VTX := toUint8 ((w.sched.halfSecondsToNextFHT8VTX : Int)
            - ((MAX_HSC env : Int) - (w.sched.halfSecondCount : Int))) } }
        (false, w)
      else (true, w)
    else
      let w : World := { w with sched := { w.sched with
        halfSecondsToNextFHT8VTX := toUint8 ((w.sched.halfSecondsToNextFHT8VTX : Int) - 1) } }
      if w.sched.halfSecondsToNextFHT8VTX = 0 then
        let command : fht8v_msg_t :=
          { hc1 := env.FHT8VGetHC1, hc2 := env.FHT8VGetHC2, command := 0x20, extension := 0 }
        let w : World := { w with sched := { w.sched with FHT8V_isValveOpen := false } }
        let w : World := { w with sched := { w.sched with
          FHT8VTXCommandArea :=
            (FHT8VCreate200usBitStreamBptr w.sched.FHT8VTXCommandArea 0 command).1 } }
        let w : World :=
          if w.sched.halfSecondCount > 0 then
            { w with radio := sleepUntilSubCycleTimeOptionalRX env w.radio }
          else w
        let w : World := { w with radio :=
          FHT8VTXFHTQueueAndSendCmd env w.sched.FHT8VTXCommandArea allowDoubleTX w.radio }
        let w : World := { w with sched := { w.sched with syncedWithFHT8V := true } }
        let w : World := { w with sched := FHT8VCreateValveSetCmdFrame env w.sched }
        let w : World := { w with sched := { w.sched with
          halfSecondsToNextFHT8VTX :=
            FHT8VTXGapHalfSeconds2 env command.hc2 w.sched.halfSecondCount } }
        (false, w)
      else (true, w)

/-- Embedding of `FHT8VPollSyncAndTX_First`. -/
def FHT8VPollSyncAndTX_First (env : Env) (allowDoubleTX : Bool) (w : World) : Bool × World :=
  let w : World := { w with sched := { w.sched with halfSecondCount := 0 } }
  if !w.sched.syncedWithFHT8V then doSync env allowDoubleTX w
  else if w.sched.halfSecondsToNextFHT8VTX > MAX_HSC env + 1 then
    (false, { w with sched := { w.sched with
      halfSecondsToNextFHT8VTX :=
        toUint8 ((w.sched.halfSecondsToNextFHT8VTX : Int) - ((MAX_HSC env : Int) + 1)) } })
  else
    let w : World := { w with sched := { w.sched with
      halfSecondsToNextFHT8VTX := toUint8 ((w.sched.halfSecondsToNextFHT8VTX : Int) - 1) } }
    if 0 = w.sched.halfSecondsToNextFHT8VTX then
      let w := valveSettingTX env allowDoubleTX w
      (false, { w with sched := { w.sched with
        halfSecondsToNextFHT8VTX := FHT8VTXGapHalfSeconds2 env env.FHT8VGetHC2 0 } })
    else (true, w)

/-- Embedding of `FHT8VPollSyncAndTX_Next`. -/
def FHT8VPollSyncAndTX_Next (env : Env) (allowDoubleTX : Bool) (w : World) : Bool × World :=
  let w : World := { w with sched := { w.sched with
    halfSecondCount := toUint8 ((w.sched.halfSecondCount : Int) + 1) } }
  if !w.sched.syncedWithFHT8V then doSync env allowDoubleTX w
  else
    let w : World := { w with sched := { w.sched with
      halfSecondsToNextFHT8VTX := toUint8 ((w.sched.halfSecondsToNextFHT8VTX : Int) - 1) } }
    if 0 = w.sched.halfSecondsToNextFHT8VTX then
      let w : World := { w with radio := sleepUntilSubCycleTimeOptionalRX env w.radio }
      let w := valveSettingTX env allowDoubleTX w
      (false, { w with sched := { w.sched with
        halfSecondsToNextFHT8VTX :=
          FHT8VTXGapHalfSeconds2 env env.FHT8VGetHC2 w.sched.halfSecondCount } })
    else (true, w)

/-- Embedding of `FHT8VDoSafeExtraTXToHub`. -/
def FHT8VDoSafeExtraTXToHub (env : Env) (w : World) : Bool × World :=
  if !w.sched.syncedWithFHT8V then (false, w)
  else if w.sched.halfSecondsToNextFHT8VTX < 20 ∨ w.sched.halfSecondsToNextFHT8VTX > 210 then
    (false, w)
  else if env.getTRVPercentOpen < env.FHT8V_MIN_VALVE_PC_REALLY_OPEN then (false, w)
  else
    (true, { w with radio :=
      FHT8VTXFHTQueueAndSendCmd env w.sched.FHT8VTXCommandArea false w.radio })

/-! ## The polling protocol -/

/-- The frames handed to the radio for transmission, oldest first (a frame sent
twice in a row by a double TX is listed once). -/
def framesSent (r : RadioState) : List (List Nat) :=
  r.ops.filterMap (fun op => match op with
    | .queueCmdToFF frame => some frame
    | _ => none)

/-- One half-second slot of the polling protocol stated in the source comments:
slot 0 of a minor cycle calls `FHT8VPollSyncAndTX_First`; a later slot calls
`FHT8VPollSyncAndTX_Next` iff the previous call of the cycle returned true. -/
def pollSlot (env : Env) (allowDoubleTX : Bool) (slot : Nat) (s : Bool × World) :
    Bool × World :=
  if slot = 0 then FHT8VPollSyncAndTX_First env allowDoubleTX s.2
  else if s.1 then FHT8VPollSyncAndTX_Next env allowDoubleTX s.2
  else s

/-- The polling protocol over `n` consecutive half-second slots, the first of
which is slot number `t` counted from the start of a minor cycle. -/
def pollSlots (env : Env) (allowDoubleTX : Bool) : Nat → Nat → Bool × World → Bool × World
  | 0, _, s => s
  | n + 1, t, s =>
    pollSlots env allowDoubleTX n (t + 1) (pollSlot env allowDoubleTX (t % (MAX_HSC env + 1)) s)

/-- The frame the encoder produces for a command: the bytes before the terminator. -/
def txFrame (c : fht8v_msg_t) : List Nat :=
  bytesBetween (FHT8VCreate200usBitStreamBptr zeroBuf 0 c).1 0
    (FHT8VCreate200usBitStreamBptr zeroBuf 0 c).2

/-! ## Example configuration -/

/-- A configuration for evaluation: 2 s ticks (`MAX_HSC` = 3), house code
0x12/0x34, requested opening 50 %, threshold 10 %, 46-byte buffers, local valve
enabled, not a hub. -/
def exampleEnv : Env :=
  { TWO_S_TICK_RTC_SUPPORT := true,
    FHT8V_MIN_VALVE_PC_REALLY_OPEN := 10,
    FHT8V_200US_BIT_STREAM_FRAME_BUF_SIZE := 46,
    MIN_FHT8V_200US_BIT_STREAM_BUF_SIZE := 46,
    FHT8VGetHC1 := 0x12,
    FHT8VGetHC2 := 0x34,
    getTRVPercentOpen := 50,
    localFHT8VTRVEnabled := true,
    inHubMode := false,
    nIRQNotLow := false,
    waitPolls := 0 }

/-- A world for evaluation with the given scheduler variables, a zero-filled TX
buffer, and an idle radio with an empty trace. -/
def exampleWorld (synced isValveOpen : Bool) (syncState halfSeconds halfSecondCount : Nat) :
    World :=
  { sched :=
      { syncedWithFHT8V := synced,
        FHT8V_isValveOpen := isValveOpen,
        syncStateFHT8V := syncState,
        halfSecondsToNextFHT8VTX := halfSeconds,
        halfSecondCount := halfSecondCount,
        FHT8VTXCommandArea := zeroBuf },
    radio :=
      { FHT8VRXHubArea := zeroBuf,
        eavesdropping := false,
        lastCallForHeatHC := 0xFFFF,
        ops := [],
        rx := [] } }

/-- Under the polling protocol, the number of slots from slot `t` up to and
including the slot in which the half-second counter of state `s` runs out: the
counter itself, plus the rest of the duty cycle when that is being skipped (the
last call returned false). -/
def slotsToNextTX (env : Env) (t : Nat) (s : Bool × World) : Nat :=
  s.2.sched.halfSecondsToNextFHT8VTX
    + (if t % (MAX_HSC env + 1) ≠ 0 ∧ s.1 = false
        then MAX_HSC env + 1 - t % (MAX_HSC env + 1) else 0)

/-- The example configuration with the local valve disabled. -/
def exampleEnvDisabled : Env := { exampleEnv with localFHT8VTRVEnabled := false }

/-- Rounding to nearest (half up) of percent * 255 / 100, as the specification
words the extension of a valve-set frame. -/
def spec_roundPercent (p : Nat) : Nat := (p * 255 + 50) / 100

/-- Number of `RFM22TXFIFO()` calls in the radio trace: transmissions on the air. -/
def txFIFOCount (r : RadioState) : Nat := r.ops.count RadioOp.txFIFO

/-- The RX buffer of `FHT8VCallForHeatPoll` after it has been zeroed and filled by
`RFM22RXFIFO` from the observation `inp`. -/
def receivedArea (env : Env) (r : RadioState) (inp : RxInput) : Nat → Nat :=
  fun i =>
    if i < env.FHT8V_200US_BIT_STREAM_FRAME_BUF_SIZE then inp.fifo i % 256
    else r.FHT8VRXHubArea i

/-- The radio state of `FHT8VCallForHeatPoll` after the status read and the FIFO
read, with `rest` the observations still to come. -/
def afterRXFIFO (env : Env) (r : RadioState) (inp : RxInput) (rest : List RxInput) :
    RadioState :=
  { FHT8VRXHubArea := receivedArea env r inp,
    eavesdropping := r.eavesdropping,
    lastCallForHeatHC := r.lastCallForHeatHC,
    ops := r.ops ++ [RadioOp.readStatusBoth,
      RadioOp.rxFIFO env.FHT8V_200US_BIT_STREAM_FRAME_BUF_SIZE],
    rx := rest }

/-- The radio state of `FHT8VCallForHeatPoll` after the status read alone. -/
def afterReadStatus (r : RadioState) (rest : List RxInput) : RadioState :=
  { FHT8VRXHubArea := r.FHT8VRXHubArea,
    eavesdropping := r.eavesdropping,
    lastCallForHeatHC := r.lastCallForHeatHC,
    ops := r.ops ++ [RadioOp.readStatusBoth],
    rx := rest }

/-- An observation for evaluation: the given status, and a FIFO holding the frame
the encoder produces for command `c` (the bytes before the terminator, which is
not transmitted) followed by zero bytes. -/
def exampleRxInput (status : Nat) (c : fht8v_msg_t) : RxInput :=
  { status := status,
    fifo := fun i =>
      if i < (FHT8VCreate200usBitStreamBptr zeroBuf 0 c).2
        then (FHT8VCreate200usBitStreamBptr zeroBuf 0 c).1 i else 0 }

/-- A hub radio state for evaluation: eavesdropping, with the given latch content
and pending observations, an empty trace and a zero-filled RX buffer. -/
def exampleHubRadio (latch : Nat) (rx : List RxInput) : RadioState :=
  { FHT8VRXHubArea := zeroBuf,
    eavesdropping := true,
    lastCallForHeatHC := latch,
    ops := [],
    rx := rx }

/-! ## Supply voltage (Power_Management.cpp) -/

/-- The data members of class `SupplyVoltageMilliVolts` written by `read`. -/
structure SupplyVoltageMilliVolts where
  rawInv : Nat
  mV : Nat
  isLow : Bool

/-- The macro `BATTERY_LOW_MV`: 2000, raised to `SENSOR_SHT21_MINMV` = 2199 when
`SENSOR_SHT21_ENABLE` is defined. -/
def BATTERY_LOW_MV (SENSOR_SHT21_ENABLE : Bool) : Nat :=
  if SENSOR_SHT21_ENABLE then (if 2000 < 2199 then 2199 else 2000) else 2000

/-- Embedding of `SupplyVoltageMilliVolts::read`, with `raw` the value returned by
`read1V1wrtBattery()` (an ADC reading).  The arithmetic is `unsigned int`, 16 bits
on the AVR target, and the result is stored in a `uint16_t` (with a wider `int` the
conversion to `uint16_t` gives the same value).  Division by zero has no result. -/
def SupplyVoltageMilliVolts.read (SENSOR_SHT21_ENABLE : Bool) (raw : Nat)
    (_self : SupplyVoltageMilliVolts) : Option (Nat × SupplyVoltageMilliVolts) :=
  if raw = 0 then none
  else
    let result := ((((1023 <<< 6) % 65536) / raw) * (1100 >>> 6)) % 65536
    some (result,
      { rawInv := raw, mV := result,
        isLow := decide (result < BATTERY_LOW_MV SENSOR_SHT21_ENABLE) })

/-- The example configuration in hub mode. -/
def exampleEnvHub : Env := { exampleEnv with inHubMode := true }

/-! ## Predicates used in the proofs -/

/-- Two buffers agree on the byte window `[lo, hi]`. -/
def agreeOn (f g : Nat → Nat) (lo hi : Nat) : Prop := ∀ i, lo ≤ i → i ≤ hi → f i = g i

/-- A decode state of the window `[lo, hi]`: its pointer is not before `lo` and its
last byte is `hi`. -/
def decode_state_t.InWindow (lo hi : Nat) (st : decode_state_t) : Prop :=
  lo ≤ st.bitStream ∧ st.lastByte = hi

/-- Invariant of the scheduler under the polling protocol at the boundary before
slot `t` (counted from the start of a minor cycle), for the pair of the last
result and the state: while calls of the cycle are still being made the slot
counter is the number of the last slot; and when synchronised the gap counter is
in [1,237] and, while calls are still being made, runs out within the cycle. -/
def GapInvariant (env : Env) (t : Nat) (s : Bool × World) : Prop :=
  (t % (MAX_HSC env + 1) ≠ 0 → s.1 = true →
      s.2.sched.halfSecondCount + 1 = t % (MAX_HSC env + 1)) ∧
  (s.2.sched.syncedWithFHT8V = true →
      1 ≤ s.2.sched.halfSecondsToNextFHT8VTX ∧ s.2.sched.halfSecondsToNextFHT8VTX ≤ 237 ∧
      (t % (MAX_HSC env + 1) ≠ 0 → s.1 = true →
        s.2.sched.halfSecondsToNextFHT8VTX + t % (MAX_HSC env + 1) ≤ MAX_HSC env + 1))

/-! ## Further example configurations, and the FIFO content of a received frame -/

/-- A synchronised world for evaluation: as `exampleWorld`, with the valve-set
frame of the example configuration (house code 0x12/0x34, 50 %) in the TX buffer. -/
def exampleSyncedWorld (halfSeconds halfSecondCount : Nat) : World :=
  { sched :=
      FHT8VCreateValveSetCmdFrame exampleEnv
        (exampleWorld true false 1 halfSeconds halfSecondCount).sched,
    radio := (exampleWorld true false 1 halfSeconds halfSecondCount).radio }

theorem poke_same (buf : Nat → Nat) (p v : Nat) : poke buf p v p = v % 256 := by
  simp [poke]

theorem poke_other (buf : Nat → Nat) (p v q : Nat) (h : q ≠ p) : poke buf p v q = buf q := by
  simp [poke, h]

theorem bytesBetween_length (buf : Nat → Nat) (a b : Nat) :
    (bytesBetween buf a b).length = b - a := by
  simp [bytesBetween]

theorem bytesBetween_poke (buf : Nat → Nat) (a b p v : Nat) (h : b ≤ p) :
    bytesBetween (poke buf p v) a b = bytesBetween buf a b := by
  unfold bytesBetween
  apply List.map_congr_left
  intro i hi
  have : i < b - a := by simpa using hi
  apply poke_other
  omega

theorem bytesBetween_succ (buf : Nat → Nat) (a b : Nat) (h : a ≤ b) :
    bytesBetween buf a (b + 1) = bytesBetween buf a b ++ [buf b] := by
  unfold bytesBetween
  have e : b + 1 - a = (b - a) + 1 := by omega
  rw [e, List.range_succ, List.map_append]
  simp
  congr 1
  omega

theorem Rep.stay {start : Nat} {raw pat : List Bool} {buf : Nat → Nat} {p : Nat} (v : Nat)
    (h : Rep start raw (buf, p)) (hv : IsPending (v % 256))
    (hb : pendingBits (buf p) ++ pat = pendingBits (v % 256)) :
    Rep start (raw ++ pat) (poke buf p v, p) := by
  refine ⟨h.le, ?_, ?_, ?_⟩
  · simpa [poke_same] using hv
  · simp only [poke_same]
    rw [bytesBetween_poke _ _ _ _ _ (le_refl p), h.bits, List.append_assoc, hb]
  · intro d hd
    rw [bytesBetween_poke _ _ _ _ _ (le_refl p)] at hd
    exact h.full d hd

theorem Rep.advance {start : Nat} {raw pat : List Bool} {buf : Nat → Nat} {p : Nat} (v n : Nat)
    (h : Rep start raw (buf, p)) (hv : v % 256 < 255) (hn : IsPending (n % 256))
    (hb : pendingBits (buf p) ++ pat = spec_byteBits (v % 256) ++ pendingBits (n % 256)) :
    Rep start (raw ++ pat) (poke (poke buf p v) (p + 1) n, p + 1) := by
  have hle : start ≤ p := h.le
  have e1 : bytesBetween (poke (poke buf p v) (p + 1) n) start (p + 1)
      = bytesBetween buf start p ++ [v % 256] := by
    rw [bytesBetween_poke _ _ _ _ _ (le_refl (p + 1)), bytesBetween_succ _ _ _ hle,
      bytesBetween_poke _ _ _ _ _ (le_refl p), poke_same]
  refine ⟨Nat.le_succ_of_le hle, ?_, ?_, ?_⟩
  · simpa [poke_same] using hn
  · simp only [poke_same]
    rw [e1, h.bits, List.flatMap_append, List.append_assoc, hb]
    simp [List.flatMap]
  · intro d hd
    rw [e1] at hd
    rcases List.mem_append.mp hd with hd | hd
    · exact h.full d hd
    · simp at hd
      omega

/-- One `_FHT8VCreate200usAppendEncBit` extends the represented bit sequence by
the line code of the appended bit. -/
theorem Rep.step {start : Nat} {raw : List Bool} {s : (Nat → Nat) × Nat}
    (h : Rep start raw s) (b : Bool) :
    Rep start (raw ++ spec_lineCode b) (_FHT8VCreate200usAppendEncBit s.1 s.2 b) := by
  obtain ⟨buf, p⟩ := s
  simp only at h ⊢
  have hp := h.pending
  simp only at hp
  rcases hp with hc | hc | hc | hc | hc | hc <;> cases b
  · have e : _FHT8VCreate200usAppendEncBit buf p false = (poke buf p 0xcd, p) := by
      simp only [_FHT8VCreate200usAppendEncBit, hc]; rfl
    rw [e]; exact Rep.stay _ h (by decide) (by rw [hc]; decide)
  · have e : _FHT8VCreate200usAppendEncBit buf p true = (poke buf p 0xe0, p) := by
      simp only [_FHT8VCreate200usAppendEncBit, hc]; rfl
    rw [e]; exact Rep.stay _ h (by decide) (by rw [hc]; decide)
  · have e : _FHT8VCreate200usAppendEncBit buf p false = (poke buf p 0x30, p) := by
      simp only [_FHT8VCreate200usAppendEncBit, hc]; rfl
    rw [e]; exact Rep.stay _ h (by decide) (by rw [hc]; decide)
  · have e : _FHT8VCreate200usAppendEncBit buf p true
        = (poke (poke buf p 0x38) (p + 1) 0xff, p + 1) := by
      simp only [_FHT8VCreate200usAppendEncBit, hc]; rfl
    rw [e]; exact Rep.advance _ _ h (by decide) (by decide) (by rw [hc]; decide)
  · have e : _FHT8VCreate200usAppendEncBit buf p false
        = (poke (poke buf p 0xcc) (p + 1) 0xff, p + 1) := by
      simp only [_FHT8VCreate200usAppendEncBit, hc]; rfl
    rw [e]; exact Rep.advance _ _ h (by decide) (by decide) (by rw [hc]; decide)
  · have e : _FHT8VCreate200usAppendEncBit buf p true
        = (poke (poke buf p 0xce) (p + 1) 0x3e, p + 1) := by
      simp only [_FHT8VCreate200usAppendEncBit, hc]; rfl
    rw [e]; exact Rep.advance _ _ h (by decide) (by decide) (by rw [hc]; decide)
  · have e : _FHT8VCreate200usAppendEncBit buf p false
        = (poke (poke buf p 0x8c) (p + 1) 0xff, p + 1) := by
      simp only [_FHT8VCreate200usAppendEncBit, hc]; rfl
    rw [e]; exact Rep.advance _ _ h (by decide) (by decide) (by rw [hc]; decide)
  · have e : _FHT8VCreate200usAppendEncBit buf p true
        = (poke (poke buf p 0x8e) (p + 1) 0x3e, p + 1) := by
      simp only [_FHT8VCreate200usAppendEncBit, hc]; rfl
    rw [e]; exact Rep.advance _ _ h (by decide) (by decide) (by rw [hc]; decide)
  · have e : _FHT8VCreate200usAppendEncBit buf p false
        = (poke (poke buf p 0xe3) (p + 1) 0x3e, p + 1) := by
      simp only [_FHT8VCreate200usAppendEncBit, hc]; rfl
    rw [e]; exact Rep.advance _ _ h (by decide) (by decide) (by rw [hc]; decide)
  · have e : _FHT8VCreate200usAppendEncBit buf p true
        = (poke (poke buf p 0xe3) (p + 1) 0x8d, p + 1) := by
      simp only [_FHT8VCreate200usAppendEncBit, hc]; rfl
    rw [e]; exact Rep.advance _ _ h (by decide) (by decide) (by rw [hc]; decide)
  · have e : _FHT8VCreate200usAppendEncBit buf p false
        = (poke (poke buf p 0x33) (p + 1) 0x3e, p + 1) := by
      simp only [_FHT8VCreate200usAppendEncBit, hc]; rfl
    rw [e]; exact Rep.advance _ _ h (by decide) (by decide) (by rw [hc]; decide)
  · have e : _FHT8VCreate200usAppendEncBit buf p true
        = (poke (poke buf p 0x33) (p + 1) 0x8d, p + 1) := by
      simp only [_FHT8VCreate200usAppendEncBit, hc]; rfl
    rw [e]; exact Rep.advance _ _ h (by decide) (by decide) (by rw [hc]; decide)

/-- Appending a list of logical bits extends the represented sequence by their line code. -/
theorem Rep.steps {start : Nat} (bits : List Bool) :
    ∀ {raw : List Bool} {s : (Nat → Nat) × Nat}, Rep start raw s →
      Rep start (raw ++ spec_encodeBits bits) (appendEncBits s bits) := by
  induction bits with
  | nil => intro raw s h; simpa [spec_encodeBits, appendEncBits] using h
  | cons b bits ih =>
    intro raw s h
    have h2 := ih (h.step b)
    simpa [spec_encodeBits, appendEncBits, List.append_assoc] using h2

theorem spec_bitsValue_byteBits : ∀ d, d < 256 → spec_bitsValue (spec_byteBits d) = d := by
  decide

theorem length_flatMap_byteBits (l : List Nat) :
    (l.flatMap spec_byteBits).length = 8 * l.length := by
  induction l with
  | nil => rfl
  | cons d l ih => simp [List.flatMap_cons, spec_byteBits, ih]; omega

theorem spec_pack_byteBits (d : Nat) (rest : List Bool) :
    spec_pack (spec_byteBits d ++ rest) = spec_bitsValue (spec_byteBits d) :: spec_pack rest := by
  simp [spec_byteBits, spec_pack]

theorem spec_pack_bytes (done : List Nat) (tail : List Bool) (h : ∀ d ∈ done, d < 256) :
    spec_pack (done.flatMap spec_byteBits ++ tail) = done ++ spec_pack tail := by
  induction done with
  | nil => rfl
  | cons d l ih =>
    have hd : d < 256 := h d (List.mem_cons_self _ _)
    have hl : ∀ x ∈ l, x < 256 := fun x hx => h x (List.mem_cons_of_mem _ hx)
    rw [List.flatMap_cons, List.append_assoc, spec_pack_byteBits, ih hl,
      spec_bitsValue_byteBits d hd]
    rfl

theorem pendingBits_length_lt (c : Nat) : (pendingBits c).length < 8 := by
  unfold pendingBits
  split_ifs <;> simp

/-- What the representation invariant says about the finished stream. -/
theorem Rep.result {start : Nat} {raw : List Bool} {s : (Nat → Nat) × Nat}
    (h : Rep start raw s) :
    s.2 = start + raw.length / 8 ∧
      bytesBetween s.1 start s.2 = (spec_pack raw).take (raw.length / 8) ∧
      ∀ d ∈ bytesBetween s.1 start s.2, d < 255 := by
  have hlen : raw.length = 8 * (s.2 - start) + (pendingBits (s.1 s.2)).length := by
    rw [h.bits, List.length_append, length_flatMap_byteBits, bytesBetween_length]
  have hlt := pendingBits_length_lt (s.1 s.2)
  have hle := h.le
  have hdiv : raw.length / 8 = s.2 - start := by omega
  refine ⟨by omega, ?_, h.full⟩
  rw [hdiv]
  have hp : spec_pack raw = bytesBetween s.1 start s.2 ++ spec_pack (pendingBits (s.1 s.2)) := by
    rw [h.bits]
    exact spec_pack_bytes _ _ (fun d hd => Nat.lt_succ_of_lt (h.full d hd))
  rw [hp, List.take_append_eq_append_take, bytesBetween_length]
  simp [List.take_of_length_le, bytesBetween_length]

/-- Invariant at the end of `packFrame`, before the terminator is written. -/
theorem packFrame_rep (buf : Nat → Nat) (bptr : Nat) (body : List Bool) :
    ∃ s, packFrame buf bptr body = (poke s.1 s.2 0xff, s.2) ∧
      Rep bptr (spec_encodeBits (spec_frameOfBody body)) s := by
  refine ⟨_, rfl, ?_⟩
  have h0 : Rep bptr (spec_encodeBits (List.replicate 12 false))
      (poke (poke (poke (poke (poke (poke (poke buf bptr 0xcc) (bptr + 1) 0xcc) (bptr + 2) 0xcc)
        (bptr + 3) 0xcc) (bptr + 4) 0xcc) (bptr + 5) 0xcc) (bptr + 6) 0xff, bptr + 6) := by
    have hb : bytesBetween (poke (poke (poke (poke (poke (poke (poke buf bptr 0xcc) (bptr + 1) 0xcc)
        (bptr + 2) 0xcc) (bptr + 3) 0xcc) (bptr + 4) 0xcc) (bptr + 5) 0xcc) (bptr + 6) 0xff)
        bptr (bptr + 6) = [0xcc, 0xcc, 0xcc, 0xcc, 0xcc, 0xcc] := by
      have e : bptr + 6 - bptr = 6 := by omega
      simp [bytesBetween, e, List.range, List.range.loop, poke]
    refine ⟨by simp, ?_, ?_, ?_⟩
    · left; simp [poke]
    · simp only [hb, poke_same]; decide
    · simp only [hb]; decide
  have h1 := h0.steps (true :: (body ++ [false, false]))
  have e : spec_encodeBits (List.replicate 12 false) ++
      spec_encodeBits (true :: (body ++ [false, false]))
      = spec_encodeBits (spec_frameOfBody body) := by
    simp [spec_encodeBits, spec_frameOfBody, List.flatMap_append]
  rw [e] at h1
  exact h1

/-- The finished frame: returned pointer, bytes before the terminator, terminator,
and absence of `0xff` before it, in terms of the reference wire format. -/
theorem packFrame_spec (buf : Nat → Nat) (bptr : Nat) (body : List Bool) :
    (packFrame buf bptr body).2
        = bptr + (spec_encodeBits (spec_frameOfBody body)).length / 8 ∧
      bytesBetween (packFrame buf bptr body).1 bptr (packFrame buf bptr body).2
        = (spec_pack (spec_encodeBits (spec_frameOfBody body))).take
            ((spec_encodeBits (spec_frameOfBody body)).length / 8) ∧
      (packFrame buf bptr body).1 (packFrame buf bptr body).2 = 0xff ∧
      ∀ d ∈ bytesBetween (packFrame buf bptr body).1 bptr (packFrame buf bptr body).2,
        d < 255 := by
  obtain ⟨s, hs, hr⟩ := packFrame_rep buf bptr body
  obtain ⟨h1, h2, h3⟩ := hr.result
  rw [hs]
  simp only [bytesBetween_poke _ _ _ _ _ (le_refl s.2), poke_same]
  exact ⟨h1, h2, by decide, h3⟩

theorem appendedUnitBits_eq_spec : ∀ b, b < 256 → appendedUnitBits b = spec_unitBits b := by
  decide

/-- The encoder is `packFrame` applied to the body bits it appends. -/
theorem FHT8VCreate200usBitStreamBptr_eq_packFrame (buf : Nat → Nat) (bptr : Nat)
    (c : fht8v_msg_t) :
    FHT8VCreate200usBitStreamBptr buf bptr c = packFrame buf bptr (appendedBodyBits c) := by
  simp only [FHT8VCreate200usBitStreamBptr, packFrame, appendEncBits, appendedBodyBits,
    _FHT8VCreate200usAppendByteEP, appendedUnitBits, List.foldl_cons, List.foldl_append,
    List.foldl_map, List.foldl_nil]

theorem appendedBodyBits_eq_spec (c : fht8v_msg_t) (h : c.IsBytes) :
    appendedBodyBits c = spec_bodyBits c := by
  obtain ⟨h1, h2, h3, h4⟩ := h
  have hk : (0xc + c.hc1 + c.hc2 + c.command + c.extension) % 256 < 256 :=
    Nat.mod_lt _ (by decide)
  simp only [appendedBodyBits, spec_bodyBits, spec_checksum, Nat.add_zero,
    appendedUnitBits_eq_spec _ h1, appendedUnitBits_eq_spec _ h2, appendedUnitBits_eq_spec _ h3,
    appendedUnitBits_eq_spec _ h4, appendedUnitBits_eq_spec _ hk,
    appendedUnitBits_eq_spec 0 (by decide)]

theorem bytesBetween_getElem? (buf : Nat → Nat) (a b i : Nat) (h : i < b - a) :
    (bytesBetween buf a b)[i]? = some (buf (a + i)) := by
  simp [bytesBetween, List.getElem?_map, List.getElem?_range h]

theorem spec_encodeBits_length (bits : List Bool) :
    (spec_encodeBits bits).length = 4 * bits.length + 2 * bits.count true := by
  induction bits with
  | nil => rfl
  | cons b bits ih =>
    have e : spec_encodeBits (b :: bits) = spec_lineCode b ++ spec_encodeBits bits := by
      simp [spec_encodeBits]
    rw [e, List.length_append, ih]
    cases b <;> simp [spec_lineCode, List.count_cons] <;> omega

theorem spec_unitBits_length (b : Nat) : (spec_unitBits b).length = 9 := by
  simp [spec_unitBits, spec_byteBits]

theorem spec_unitBits_count_le : ∀ b, b < 256 → (spec_unitBits b).count true ≤ 8 := by
  decide

theorem spec_unitBits_count_pos :
    ∀ b, b < 256 → b ≠ 0 → 2 ≤ (spec_unitBits b).count true := by
  decide

/-- Raw length of the frame of a command, in terms of the number of one bits of its body. -/
theorem spec_frameBits_length (c : fht8v_msg_t) :
    (spec_encodeBits (spec_frameBits c)).length = 278 + 2 * (spec_bodyBits c).count true := by
  rw [spec_encodeBits_length]
  simp only [spec_frameBits, spec_frameOfBody, spec_bodyBits, List.length_append,
    List.count_append, spec_unitBits_length, List.length_replicate, List.length_cons,
    List.length_nil, List.count_replicate, List.count_cons, List.count_nil]
  simp
  omega

/-- Number of one bits in the body of a byte-valued command: between 2 and 40. -/
theorem spec_bodyBits_count (c : fht8v_msg_t) (h : c.IsBytes) :
    2 ≤ (spec_bodyBits c).count true ∧ (spec_bodyBits c).count true ≤ 40 := by
  obtain ⟨h1, h2, h3, h4⟩ := h
  have hk : spec_checksum c < 256 := Nat.mod_lt _ (by decide)
  have u1 := spec_unitBits_count_le _ h1
  have u2 := spec_unitBits_count_le _ h2
  have u3 := spec_unitBits_count_le _ h3
  have u4 := spec_unitBits_count_le _ h4
  have u5 := spec_unitBits_count_le _ hk
  have u0 : (spec_unitBits 0).count true = 0 := by decide
  simp only [spec_bodyBits, List.count_append, u0]
  refine ⟨?_, by omega⟩
  by_cases z1 : c.hc1 = 0
  · by_cases z2 : c.hc2 = 0
    · by_cases z3 : c.command = 0
      · by_cases z4 : c.extension = 0
        · have e : spec_checksum c = 12 := by simp [spec_checksum, z1, z2, z3, z4]
          have := spec_unitBits_count_pos _ hk (by omega)
          omega
        · have := spec_unitBits_count_pos _ h4 z4
          omega
      · have := spec_unitBits_count_pos _ h3 z3
        omega
    · have := spec_unitBits_count_pos _ h2 z2
      omega
  · have := spec_unitBits_count_pos _ h1 z1
    omega

/-- The encoder against the reference wire format, for a byte-valued command. -/
theorem FHT8VCreate200usBitStreamBptr_spec (buf : Nat → Nat) (bptr : Nat) (c : fht8v_msg_t)
    (h : c.IsBytes) :
    (FHT8VCreate200usBitStreamBptr buf bptr c).2
        = bptr + (spec_encodeBits (spec_frameBits c)).length / 8 ∧
      bytesBetween (FHT8VCreate200usBitStreamBptr buf bptr c).1 bptr
          (FHT8VCreate200usBitStreamBptr buf bptr c).2
        = (spec_pack (spec_encodeBits (spec_frameBits c))).take
            ((spec_encodeBits (spec_frameBits c)).length / 8) := by
  rw [FHT8VCreate200usBitStreamBptr_eq_packFrame, appendedBodyBits_eq_spec c h]
  obtain ⟨h1, h2, _, _⟩ := packFrame_spec buf bptr (spec_bodyBits c)
  exact ⟨h1, h2⟩

/-- One append writes only at the current byte and, when the pointer advances, at
the byte it advances to. -/
theorem appendEncBit_untouched (buf : Nat → Nat) (p : Nat) (b : Bool) :
    p ≤ (_FHT8VCreate200usAppendEncBit buf p b).2 ∧
      ∀ q, q < p ∨ (_FHT8VCreate200usAppendEncBit buf p b).2 < q →
        (_FHT8VCreate200usAppendEncBit buf p b).1 q = buf q := by
  unfold _FHT8VCreate200usAppendEncBit
  cases b <;> simp only [Bool.not_false, Bool.not_true, if_true, Bool.false_eq_true, if_false] <;>
    split <;> refine ⟨by simp, ?_⟩ <;> intro q hq <;> simp only [poke] <;>
    simp only at hq <;> split_ifs <;> first | rfl | omega

theorem appendEncBits_untouched (bits : List Bool) :
    ∀ (buf : Nat → Nat) (p : Nat), p ≤ (appendEncBits (buf, p) bits).2 ∧
      ∀ q, q < p ∨ (appendEncBits (buf, p) bits).2 < q →
        (appendEncBits (buf, p) bits).1 q = buf q := by
  induction bits with
  | nil => intro buf p; exact ⟨le_refl _, fun _ _ => rfl⟩
  | cons b bits ih =>
    intro buf p
    obtain ⟨h1, h2⟩ := appendEncBit_untouched buf p b
    obtain ⟨i1, i2⟩ := ih (_FHT8VCreate200usAppendEncBit buf p b).1
      (_FHT8VCreate200usAppendEncBit buf p b).2
    have e : appendEncBits (buf, p) (b :: bits)
        = appendEncBits ((_FHT8VCreate200usAppendEncBit buf p b).1,
            (_FHT8VCreate200usAppendEncBit buf p b).2) bits := rfl
    rw [e]
    refine ⟨le_trans h1 i1, ?_⟩
    intro q hq
    rw [i2 q (by omega), h2 q (by omega)]

/-- Building a frame leaves every byte below the start and above the returned
pointer as it was. -/
theorem packFrame_untouched (buf : Nat → Nat) (bptr : Nat) (body : List Bool) (q : Nat)
    (hq : q < bptr ∨ (packFrame buf bptr body).2 < q) :
    (packFrame buf bptr body).1 q = buf q := by
  unfold packFrame at hq ⊢
  simp only at hq ⊢
  generalize hb : poke (poke (poke (poke (poke (poke (poke buf bptr 0xcc) (bptr + 1) 0xcc)
    (bptr + 2) 0xcc) (bptr + 3) 0xcc) (bptr + 4) 0xcc) (bptr + 5) 0xcc) (bptr + 6) 0xff = b7
    at hq ⊢
  obtain ⟨h1, h2⟩ := appendEncBits_untouched (true :: (body ++ [false, false])) b7 (bptr + 6)
  have hne : q ≠ (appendEncBits (b7, bptr + 6) (true :: (body ++ [false, false]))).2 := by omega
  rw [poke_other _ _ _ _ hne, h2 q (by omega), ← hb]
  simp only [poke]
  split_ifs <;> first | rfl | omega

/-- The length 45 quoted in the source comment is that of the frame whose five
data units (address included) are all `0xFF`, with checksum `0x07`. -/
theorem packFrame_all_ones_with_address :
    (packFrame zeroBuf 0 (spec_unitBits 0xFF ++ spec_unitBits 0xFF ++ spec_unitBits 0xFF ++
      spec_unitBits 0xFF ++ spec_unitBits 0xFF ++ spec_unitBits 0x07)).2 = 45 := by
  decide


/-! ## Decoder lemmas -/

theorem land_low_byte (m B : Nat) (hm : m < 256) : m &&& B = m &&& (B % 256) := by
  apply Nat.eq_of_testBit_eq
  intro k
  have e : (256 : Nat) = 2 ^ 8 := by norm_num
  rw [Nat.testBit_and, Nat.testBit_and, e, Nat.testBit_mod_two_pow]
  by_cases hk : k < 8
  · simp [hk]
  · have : m.testBit k = false := by
      apply Nat.testBit_lt_two_pow
      calc m < 2 ^ 8 := by omega
        _ ≤ 2 ^ k := Nat.pow_le_pow_right (by decide) (by omega)
    simp [this]

theorem testBit_low_byte (B k : Nat) (hk : k < 8) : (B % 256).testBit k = B.testBit k := by
  have e : (256 : Nat) = 2 ^ 8 := by norm_num
  rw [e, Nat.testBit_mod_two_pow]
  simp [hk]

theorem land_192 (B : Nat) :
    192 &&& B = 128 * (B.testBit 7).toNat + 64 * (B.testBit 6).toNat := by
  have h : ∀ b, b < 256 → 192 &&& b = 128 * (b.testBit 7).toNat + 64 * (b.testBit 6).toNat := by
    decide
  rw [land_low_byte 192 B (by decide), h _ (Nat.mod_lt _ (by decide)),
    testBit_low_byte B 7 (by decide), testBit_low_byte B 6 (by decide)]

theorem land_48 (B : Nat) :
    48 &&& B = 32 * (B.testBit 5).toNat + 16 * (B.testBit 4).toNat := by
  have h : ∀ b, b < 256 → 48 &&& b = 32 * (b.testBit 5).toNat + 16 * (b.testBit 4).toNat := by
    decide
  rw [land_low_byte 48 B (by decide), h _ (Nat.mod_lt _ (by decide)),
    testBit_low_byte B 5 (by decide), testBit_low_byte B 4 (by decide)]

theorem land_12 (B : Nat) :
    12 &&& B = 8 * (B.testBit 3).toNat + 4 * (B.testBit 2).toNat := by
  have h : ∀ b, b < 256 → 12 &&& b = 8 * (b.testBit 3).toNat + 4 * (b.testBit 2).toNat := by
    decide
  rw [land_low_byte 12 B (by decide), h _ (Nat.mod_lt _ (by decide)),
    testBit_low_byte B 3 (by decide), testBit_low_byte B 2 (by decide)]

theorem land_3 (B : Nat) :
    3 &&& B = 2 * (B.testBit 1).toNat + (B.testBit 0).toNat := by
  have h : ∀ b, b < 256 → 3 &&& b = 2 * (b.testBit 1).toNat + (b.testBit 0).toNat := by
    decide
  rw [land_low_byte 3 B (by decide), h _ (Nat.mod_lt _ (by decide)),
    testBit_low_byte B 1 (by decide), testBit_low_byte B 0 (by decide)]

theorem bytesBetween_cons (buf : Nat → Nat) (a b : Nat) (h : a < b) :
    bytesBetween buf a b = buf a :: bytesBetween buf (a + 1) b := by
  unfold bytesBetween
  have e : b - a = (b - (a + 1)) + 1 := by omega
  rw [e, List.range_succ_eq_map, List.map_cons, List.map_map]
  refine congrArg₂ _ rfl ?_
  apply List.map_congr_left
  intro k _
  show buf (a + (k + 1)) = buf (a + 1 + k)
  congr 1
  omega

theorem windowBits_of_le (buf : Nat → Nat) (i last : Nat) (h : i ≤ last) :
    windowBits buf i last = spec_byteBits (buf i) ++ windowBits buf (i + 1) last := by
  unfold windowBits
  rw [bytesBetween_cons buf i (last + 1) (by omega), List.flatMap_cons]

theorem windowBits_of_gt (buf : Nat → Nat) (i last : Nat) (h : last < i) :
    windowBits buf i last = [] := by
  unfold windowBits bytesBetween
  have e : last + 1 - i = 0 := by omega
  simp [e]

theorem readOneBit_ahead (buf : Nat → Nat) (st : decode_state_t) (b : Bool) (rest : List Bool)
    (hr : st.Ready) (h : spec_lineCode b ++ rest <+: st.ahead buf) :
    (readOneBit buf st).1 = b.toNat ∧ (readOneBit buf st).2.Ready ∧
      (readOneBit buf st).2.lastByte = st.lastByte ∧
      rest <+: (readOneBit buf st).2.ahead buf := by
  obtain ⟨i, last, mask, failed⟩ := st
  obtain ⟨hv, hf⟩ := hr
  simp only at hv hf
  subst hf
  unfold decode_state_t.ahead at h
  simp only at h
  by_cases hi : i ≤ last
  · rw [windowBits_of_le buf i last hi] at h
    by_cases hi2 : i + 1 ≤ last
    · rw [windowBits_of_le buf (i + 1) last hi2] at h
      rcases hv with rfl | rfl | rfl | rfl | rfl <;> cases b <;>
        simp [maskIndex, spec_lineCode, spec_byteBits] at h <;>
        simp [readOneBit, readOneBit_secondPair, readOneBit_thirdPair, land_192, land_48,
          land_12, land_3, h, Nat.not_lt.mpr hi, Nat.not_lt.mpr hi2, decode_state_t.ahead,
          decode_state_t.Ready, ValidMask, maskIndex, windowBits_of_le buf i last hi,
          windowBits_of_le buf (i + 1) last hi2, spec_byteBits]
    · rw [windowBits_of_gt buf (i + 1) last (by omega)] at h
      rcases hv with rfl | rfl | rfl | rfl | rfl <;> cases b <;>
        simp [maskIndex, spec_lineCode, spec_byteBits] at h <;>
        simp [readOneBit, readOneBit_secondPair, readOneBit_thirdPair, land_192, land_48,
          land_12, land_3, h, Nat.not_lt.mpr hi, decode_state_t.ahead,
          decode_state_t.Ready, ValidMask, maskIndex, windowBits_of_le buf i last hi,
          windowBits_of_gt buf (i + 1) last (by omega), spec_byteBits]
  · rw [windowBits_of_gt buf i last (by omega)] at h
    cases b <;> simp [spec_lineCode] at h

theorem spec_encodeBits_cons (b : Bool) (bits : List Bool) :
    spec_encodeBits (b :: bits) = spec_lineCode b ++ spec_encodeBits bits := by
  simp [spec_encodeBits]

theorem spec_encodeBits_append (a b : List Bool) :
    spec_encodeBits (a ++ b) = spec_encodeBits a ++ spec_encodeBits b := by
  simp [spec_encodeBits]

theorem readOneByteWithParity_loop_ahead (buf : Nat → Nat) (mid : List Bool) :
    ∀ (result parity : Nat) (st : decode_state_t) (rest : List Bool), st.Ready →
      spec_encodeBits mid ++ rest <+: st.ahead buf →
      (readOneByteWithParity_loop buf mid.length result parity st).1
          = (accumulateBits mid result parity).1 ∧
        (readOneByteWithParity_loop buf mid.length result parity st).2.1
          = (accumulateBits mid result parity).2 ∧
        (readOneByteWithParity_loop buf mid.length result parity st).2.2.Ready ∧
        (readOneByteWithParity_loop buf mid.length result parity st).2.2.lastByte
          = st.lastByte ∧
        rest <+: (readOneByteWithParity_loop buf mid.length result parity st).2.2.ahead buf := by
  induction mid with
  | nil =>
    intro result parity st rest hr h
    exact ⟨rfl, rfl, hr, rfl, by simpa [spec_encodeBits] using h⟩
  | cons b mid ih =>
    intro result parity st rest hr h
    rw [spec_encodeBits_cons, List.append_assoc] at h
    obtain ⟨h1, h2, h3, h4⟩ := readOneBit_ahead buf st b _ hr h
    have := ih (((result <<< 1) ||| b.toNat) % 256) (parity ^^^ b.toNat)
      (readOneBit buf st).2 rest h2 h4
    simp only [List.length_cons, readOneByteWithParity_loop, h1, accumulateBits,
      List.foldl_cons] at this ⊢
    rw [h3] at this
    exact this

theorem readOneByteWithParity_of_not_failed (buf : Nat → Nat) (st : decode_state_t)
    (hf : st.failed = false) :
    readOneByteWithParity buf st =
      if (readOneByteWithParity_loop buf 7 (readOneBit buf st).1 (readOneBit buf st).1
            (readOneBit buf st).2).2.1
          ≠ (readOneBit buf (readOneByteWithParity_loop buf 7 (readOneBit buf st).1
              (readOneBit buf st).1 (readOneBit buf st).2).2.2).1 then
        ((readOneByteWithParity_loop buf 7 (readOneBit buf st).1 (readOneBit buf st).1
            (readOneBit buf st).2).1,
          { (readOneBit buf (readOneByteWithParity_loop buf 7 (readOneBit buf st).1
              (readOneBit buf st).1 (readOneBit buf st).2).2.2).2 with failed := true })
      else
        ((readOneByteWithParity_loop buf 7 (readOneBit buf st).1 (readOneBit buf st).1
            (readOneBit buf st).2).1,
          (readOneBit buf (readOneByteWithParity_loop buf 7 (readOneBit buf st).1
              (readOneBit buf st).1 (readOneBit buf st).2).2.2).2) := by
  simp [readOneByteWithParity, hf]

theorem readOneByteWithParity_ahead (buf : Nat → Nat) (st : decode_state_t)
    (u rest : List Bool) (hu : u.length = 9) (hr : st.Ready)
    (h : spec_encodeBits u ++ rest <+: st.ahead buf) :
    (readOneByteWithParity buf st).1 = (decodedUnit u).1 ∧
      (readOneByteWithParity buf st).2.failed = !(decodedUnit u).2 ∧
      ValidMask (readOneByteWithParity buf st).2.mask ∧
      (readOneByteWithParity buf st).2.lastByte = st.lastByte ∧
      rest <+: (readOneByteWithParity buf st).2.ahead buf := by
  match u, hu with
  | [b7, b6, b5, b4, b3, b2, b1, b0, p], _ =>
    have e : spec_encodeBits [b7, b6, b5, b4, b3, b2, b1, b0, p] ++ rest
        = spec_lineCode b7 ++ (spec_encodeBits [b6, b5, b4, b3, b2, b1, b0]
            ++ (spec_lineCode p ++ rest)) := by
      simp [spec_encodeBits]
    rw [e] at h
    obtain ⟨a1, a2, a3, a4⟩ := readOneBit_ahead buf st b7 _ hr h
    have hl : (readOneByteWithParity_loop buf 7 b7.toNat b7.toNat (readOneBit buf st).2).1
          = (accumulateBits [b6, b5, b4, b3, b2, b1, b0] b7.toNat b7.toNat).1 ∧
        (readOneByteWithParity_loop buf 7 b7.toNat b7.toNat (readOneBit buf st).2).2.1
          = (accumulateBits [b6, b5, b4, b3, b2, b1, b0] b7.toNat b7.toNat).2 ∧
        (readOneByteWithParity_loop buf 7 b7.toNat b7.toNat (readOneBit buf st).2).2.2.Ready ∧
        (readOneByteWithParity_loop buf 7 b7.toNat b7.toNat (readOneBit buf st).2).2.2.lastByte
          = (readOneBit buf st).2.lastByte ∧
        spec_lineCode p ++ rest <+:
          (readOneByteWithParity_loop buf 7 b7.toNat b7.toNat
            (readOneBit buf st).2).2.2.ahead buf :=
      readOneByteWithParity_loop_ahead buf [b6, b5, b4, b3, b2, b1, b0] b7.toNat b7.toNat
        (readOneBit buf st).2 _ a2 a4
    obtain ⟨l1, l2, l3, l4, l5⟩ := hl
    obtain ⟨p1, p2, p3, p4⟩ := readOneBit_ahead buf _ p rest l3 l5
    rw [readOneByteWithParity_of_not_failed buf st hr.2, a1]
    have hd1 : (decodedUnit [b7, b6, b5, b4, b3, b2, b1, b0, p]).1
        = (accumulateBits [b6, b5, b4, b3, b2, b1, b0] b7.toNat b7.toNat).1 := rfl
    have hd2 : (decodedUnit [b7, b6, b5, b4, b3, b2, b1, b0, p]).2
        = decide ((accumulateBits [b6, b5, b4, b3, b2, b1, b0] b7.toNat b7.toNat).2
            = p.toNat) := rfl
    rw [hd1, hd2, ← l1, ← l2, ← p1]
    rw [l4, a3] at p3
    generalize readOneByteWithParity_loop buf 7 b7.toNat b7.toNat (readOneBit buf st).2 = L
      at p1 p2 p3 p4 ⊢
    generalize readOneBit buf L.2.2 = Q at p1 p2 p3 p4 ⊢
    by_cases hp : L.2.1 = Q.1
    · simp only [hp, ne_eq, not_true_eq_false, if_false, decide_True, Bool.not_true]
      exact ⟨trivial, p2.2, p2.1, p3, p4⟩
    · simp only [hp, ne_eq, not_false_eq_true, if_true, decide_False, Bool.not_false]
      exact ⟨trivial, trivial, p2.1, p3, p4⟩

theorem readOneByteWithParity_of_failed (buf : Nat → Nat) (st : decode_state_t)
    (hf : st.failed = true) : readOneByteWithParity buf st = (0, st) := by
  simp [readOneByteWithParity, hf]

theorem readUnits_of_failed (buf : Nat → Nat) (n : Nat) :
    ∀ st : decode_state_t, st.failed = true →
      (readUnits buf n st).1.length = n ∧ (readUnits buf n st).2 = st := by
  induction n with
  | zero => intro st _; exact ⟨rfl, rfl⟩
  | succ n ih =>
    intro st hf
    simp only [readUnits, readOneByteWithParity_of_failed buf st hf, List.length_cons]
    exact ⟨by rw [(ih st hf).1], (ih st hf).2⟩

theorem readUnits_ahead (buf : Nat → Nat) (us : List (List Bool)) :
    ∀ (st : decode_state_t) (rest : List Bool), (∀ u ∈ us, u.length = 9) → st.Ready →
      spec_encodeBits us.flatten ++ rest <+: st.ahead buf →
      (readUnits buf us.length st).1.length = us.length ∧
        (readUnits buf us.length st).2.lastByte = st.lastByte ∧
        (readUnits buf us.length st).2.failed = !(us.all (fun u => (decodedUnit u).2)) ∧
        (us.all (fun u => (decodedUnit u).2) = true →
          (readUnits buf us.length st).1 = us.map (fun u => (decodedUnit u).1) ∧
          ValidMask (readUnits buf us.length st).2.mask ∧
          rest <+: (readUnits buf us.length st).2.ahead buf) := by
  induction us with
  | nil =>
    intro st rest _ hr h
    refine ⟨rfl, rfl, ?_, fun _ => ⟨rfl, hr.1, by simpa [spec_encodeBits] using h⟩⟩
    simpa [readUnits] using hr.2
  | cons u us ih =>
    intro st rest hlen hr h
    have hu : u.length = 9 := hlen u (List.mem_cons_self _ _)
    have hus : ∀ x ∈ us, x.length = 9 := fun x hx => hlen x (List.mem_cons_of_mem _ hx)
    rw [List.flatten_cons, spec_encodeBits_append, List.append_assoc] at h
    obtain ⟨r1, r2, r3, r4, r5⟩ := readOneByteWithParity_ahead buf st u _ hu hr h
    simp only [List.length_cons, readUnits, List.all_cons, List.map_cons]
    by_cases hok : (decodedUnit u).2 = true
    · rw [hok] at r2
      have hr' : (readOneByteWithParity buf st).2.Ready := ⟨r3, by simpa using r2⟩
      obtain ⟨i1, i2, i3, i4⟩ := ih (readOneByteWithParity buf st).2 rest hus hr' r5
      refine ⟨by rw [i1], by rw [i2, r4], by rw [i3, hok]; simp, ?_⟩
      intro hall
      simp only [hok, Bool.true_and] at hall
      obtain ⟨j1, j2, j3⟩ := i4 hall
      exact ⟨by rw [r1, j1], j2, j3⟩
    · have hbad : (decodedUnit u).2 = false := by simpa using hok
      rw [hbad] at r2
      obtain ⟨f1, f2⟩ := readUnits_of_failed buf us.length (readOneByteWithParity buf st).2
        (by simpa using r2)
      refine ⟨by rw [f1], by rw [f2, r4], by rw [f2, hbad]; simpa using r2, ?_⟩
      intro hall
      simp [hbad] at hall

theorem skipLeadingZeros_ahead (buf : Nat → Nat) (z : Nat) :
    ∀ (fuel : Nat) (st : decode_state_t) (rest : List Bool), st.Ready → z < fuel →
      spec_encodeBits (List.replicate z false ++ [true]) ++ rest <+: st.ahead buf →
      ∃ st', skipLeadingZeros buf fuel st = some (some st') ∧ st'.Ready ∧
        st'.lastByte = st.lastByte ∧ rest <+: st'.ahead buf := by
  induction z with
  | zero =>
    intro fuel st rest hr hz h
    obtain ⟨f, rfl⟩ : ∃ f, fuel = f + 1 := ⟨fuel - 1, by omega⟩
    have e : spec_encodeBits (List.replicate 0 false ++ [true]) ++ rest
        = spec_lineCode true ++ rest := by simp [spec_encodeBits]
    rw [e] at h
    obtain ⟨a1, a2, a3, a4⟩ := readOneBit_ahead buf st true rest hr h
    refine ⟨(readOneBit buf st).2, ?_, a2, a3, a4⟩
    simp [skipLeadingZeros, a1]
  | succ z ih =>
    intro fuel st rest hr hz h
    obtain ⟨f, rfl⟩ : ∃ f, fuel = f + 1 := ⟨fuel - 1, by omega⟩
    have e : spec_encodeBits (List.replicate (z + 1) false ++ [true]) ++ rest
        = spec_lineCode false ++ (spec_encodeBits (List.replicate z false ++ [true]) ++ rest) := by
      simp [spec_encodeBits, List.replicate_succ]
    rw [e] at h
    obtain ⟨a1, a2, a3, a4⟩ := readOneBit_ahead buf st false _ hr h
    obtain ⟨st', s1, s2, s3, s4⟩ := ih f (readOneBit buf st).2 rest a2 (by omega) a4
    refine ⟨st', ?_, s2, by rw [s3, a3], s4⟩
    simp [skipLeadingZeros, a1, a2.2, s1]

theorem FHT8VDecodeBitStream_eq (buf : Nat → Nat) (bitStream lastByte : Nat)
    (out : fht8v_msg_t) :
    FHT8VDecodeBitStream buf bitStream lastByte out =
      match skipLeadingZeros buf (decodeFuel bitStream lastByte)
          { bitStream := bitStream, lastByte := lastByte, mask := 0, failed := false } with
      | none => none
      | some none => some (false, out)
      | some (some st) => decodeFinish buf (readUnits buf 6 st).1 (readUnits buf 6 st).2 := by
  unfold FHT8VDecodeBitStream
  split <;> simp_all [readUnits, decodeFinish]

theorem windowBits_length (buf : Nat → Nat) (i last : Nat) :
    (windowBits buf i last).length = 8 * (last + 1 - i) := by
  unfold windowBits
  rw [length_flatMap_byteBits, bytesBetween_length]

/-- After the leading-zero loop on a window that starts with the line code of `z`
zero bits, a one bit and the given units, decoding continues with the units. -/
theorem FHT8VDecodeBitStream_of_frame (buf : Nat → Nat) (bitStream lastByte z : Nat)
    (out : fht8v_msg_t) (body rest : List Bool)
    (h : spec_encodeBits (List.replicate z false ++ [true] ++ body) ++ rest
      <+: windowBits buf bitStream lastByte) :
    ∃ st : decode_state_t, st.Ready ∧ st.lastByte = lastByte ∧
      spec_encodeBits body ++ rest <+: st.ahead buf ∧
      FHT8VDecodeBitStream buf bitStream lastByte out
        = decodeFinish buf (readUnits buf 6 st).1 (readUnits buf 6 st).2 := by
  have hlen := h.length_le
  rw [windowBits_length, List.length_append, spec_encodeBits_length] at hlen
  simp only [List.length_append, List.length_replicate, List.length_cons, List.length_nil]
    at hlen
  have hz : z < decodeFuel bitStream lastByte := by
    unfold decodeFuel
    omega
  have h' : spec_encodeBits (List.replicate z false ++ [true]) ++ (spec_encodeBits body ++ rest)
      <+: decode_state_t.ahead buf
        { bitStream := bitStream, lastByte := lastByte, mask := 0, failed := false } := by
    simpa [decode_state_t.ahead, maskIndex, spec_encodeBits_append, List.append_assoc] using h
  obtain ⟨st, s1, s2, s3, s4⟩ := skipLeadingZeros_ahead buf z _ _ _ ⟨Or.inl rfl, rfl⟩ hz h'
  refine ⟨st, s2, s3, s4, ?_⟩
  rw [FHT8VDecodeBitStream_eq, s1]

theorem decodeFinish_of_failed (buf : Nat → Nat) (v : List Nat) (st : decode_state_t)
    (hv : v.length = 6) (hf : st.failed = true) :
    (decodeFinish buf v st).map Prod.fst = some false := by
  match v, hv with
  | [v1, v2, v3, v4, v5, v6], _ => simp [decodeFinish, hf]

/-- Parity detection: a frame in which some unit has a parity bit that does not
match its data bits is rejected. -/
theorem FHT8VDecodeBitStream_parity_error (buf : Nat → Nat) (bitStream lastByte z : Nat)
    (out : fht8v_msg_t) (us : List (List Bool)) (rest : List Bool)
    (h6 : us.length = 6) (h9 : ∀ u ∈ us, u.length = 9)
    (hbad : us.all (fun u => (decodedUnit u).2) = false)
    (h : spec_encodeBits (List.replicate z false ++ [true] ++ us.flatten) ++ rest
      <+: windowBits buf bitStream lastByte) :
    (FHT8VDecodeBitStream buf bitStream lastByte out).map Prod.fst = some false := by
  obtain ⟨st, s1, _, s3, s4⟩ :=
    FHT8VDecodeBitStream_of_frame buf bitStream lastByte z out us.flatten rest h
  obtain ⟨r1, _, r3, _⟩ := readUnits_ahead buf us st rest h9 s1 s3
  rw [h6] at r1 r3
  rw [s4]
  exact decodeFinish_of_failed buf _ _ r1 (by rw [r3, hbad]; rfl)

/-- Checksum detection: a frame whose six units all have correct parity but whose
sixth value differs from the checksum of the first five is rejected. -/
theorem FHT8VDecodeBitStream_checksum_error (buf : Nat → Nat) (bitStream lastByte z : Nat)
    (out : fht8v_msg_t) (u1 u2 u3 u4 u5 u6 rest : List Bool)
    (h9 : ∀ u ∈ [u1, u2, u3, u4, u5, u6], u.length = 9)
    (hok : [u1, u2, u3, u4, u5, u6].all (fun u => (decodedUnit u).2) = true)
    (hsum : (0xc + (decodedUnit u1).1 + (decodedUnit u2).1 + (decodedUnit u3).1
      + (decodedUnit u4).1 + (decodedUnit u5).1) % 256 ≠ (decodedUnit u6).1)
    (h : spec_encodeBits (List.replicate z false ++ [true]
        ++ [u1, u2, u3, u4, u5, u6].flatten) ++ rest
      <+: windowBits buf bitStream lastByte) :
    (FHT8VDecodeBitStream buf bitStream lastByte out).map Prod.fst = some false := by
  obtain ⟨st, s1, _, s3, s4⟩ :=
    FHT8VDecodeBitStream_of_frame buf bitStream lastByte z out _ rest h
  obtain ⟨_, _, r3, r4⟩ := readUnits_ahead buf [u1, u2, u3, u4, u5, u6] st rest h9 s1 s3
  obtain ⟨v, _, _⟩ := r4 hok
  rw [hok] at r3
  have e6 : [u1, u2, u3, u4, u5, u6].length = 6 := rfl
  rw [e6] at v r3
  rw [s4, v]
  simp only [List.map_cons, List.map_nil, decodeFinish]
  simp [r3, hsum]

/-- Acceptance: a frame whose six units have correct parity, whose sixth value is
the checksum of the first five and which is followed by a complete encoded 0 bit
inside the window is accepted, with the values of units 1, 2, 4 and 5. -/
theorem FHT8VDecodeBitStream_accepts (buf : Nat → Nat) (bitStream lastByte z : Nat)
    (out : fht8v_msg_t) (u1 u2 u3 u4 u5 u6 rest : List Bool)
    (h9 : ∀ u ∈ [u1, u2, u3, u4, u5, u6], u.length = 9)
    (hok : [u1, u2, u3, u4, u5, u6].all (fun u => (decodedUnit u).2) = true)
    (hsum : (0xc + (decodedUnit u1).1 + (decodedUnit u2).1 + (decodedUnit u3).1
      + (decodedUnit u4).1 + (decodedUnit u5).1) % 256 = (decodedUnit u6).1)
    (h : spec_encodeBits (List.replicate z false ++ [true]
        ++ [u1, u2, u3, u4, u5, u6].flatten) ++ (spec_lineCode false ++ rest)
      <+: windowBits buf bitStream lastByte) :
    FHT8VDecodeBitStream buf bitStream lastByte out
      = some (true, ⟨(decodedUnit u1).1, (decodedUnit u2).1, (decodedUnit u4).1,
          (decodedUnit u5).1⟩) := by
  obtain ⟨st, s1, _, s3, s4⟩ :=
    FHT8VDecodeBitStream_of_frame buf bitStream lastByte z out _ _ h
  obtain ⟨_, _, r3, r4⟩ := readUnits_ahead buf [u1, u2, u3, u4, u5, u6] st _ h9 s1 s3
  obtain ⟨v, m, a⟩ := r4 hok
  rw [hok] at r3
  have e6 : [u1, u2, u3, u4, u5, u6].length = 6 := rfl
  rw [e6] at v r3 m a
  obtain ⟨b1, b2, _, _⟩ := readOneBit_ahead buf _ false rest ⟨m, by simpa using r3⟩ a
  rw [s4, v]
  simp only [List.map_cons, List.map_nil, decodeFinish]
  simp [r3, hsum, b1, b2.2]

theorem invertAt_length (k : Nat) (l : List Bool) : (invertAt k l).length = l.length := by
  induction l generalizing k with
  | nil => cases k <;> rfl
  | cons b bs ih => cases k <;> simp [invertAt, ih]

theorem invertAt_count (l : List Bool) :
    ∀ k, k < l.length → ((invertAt k l).count true + l.count true) % 2 = 1 := by
  induction l with
  | nil => intro k hk; simp at hk
  | cons b bs ih =>
    intro k hk
    cases k with
    | zero => cases b <;> simp [invertAt, List.count_cons] <;> omega
    | succ k =>
      have := ih k (by simpa using hk)
      cases b <;> simp [invertAt, List.count_cons] <;> omega

theorem unitsOf_flatten (body : List Bool) (h : body.length = 54) :
    (unitsOf body).flatten = body := by
  have e : ∀ (n : Nat) (l : List Bool), l.take n ++ l.drop n = l := fun n l =>
    List.take_append_drop n l
  have h6 : (body.drop 45).take 9 = body.drop 45 := by
    apply List.take_of_length_le
    simp [h]
  simp only [unitsOf, List.flatten_cons, List.flatten_nil, List.append_nil, h6]
  have d : ∀ a b : Nat, (body.drop a).drop b = body.drop (a + b) := fun a b => by
    rw [List.drop_drop, Nat.add_comm]
  have s1 := e 9 (body.drop 36)
  have s2 := e 9 (body.drop 27)
  have s3 := e 9 (body.drop 18)
  have s4 := e 9 (body.drop 9)
  have s5 := e 9 body
  rw [d] at s1 s2 s3 s4
  simp only [Nat.reduceAdd] at s1 s2 s3 s4
  rw [s1, s2, s3, s4, s5]

theorem unitsOf_length9 (body : List Bool) (h : body.length = 54) :
    ∀ u ∈ unitsOf body, u.length = 9 := by
  intro u hu
  simp only [unitsOf, List.mem_cons, List.mem_singleton, List.not_mem_nil, or_false] at hu
  rcases hu with rfl | rfl | rfl | rfl | rfl | rfl <;> simp [h]

theorem decodedUnit_parity_even :
    ∀ a b c d e f g h p : Bool, (decodedUnit [a, b, c, d, e, f, g, h, p]).2 = true →
      [a, b, c, d, e, f, g, h, p].count true % 2 = 0 := by
  decide

theorem decodedUnit_count (u : List Bool) (hu : u.length = 9)
    (h : (decodedUnit u).2 = true) : u.count true % 2 = 0 := by
  match u, hu with
  | [a, b, c, d, e, f, g, h', p], _ => exact decodedUnit_parity_even a b c d e f g h' p h

theorem units_count_even (us : List (List Bool)) (h9 : ∀ u ∈ us, u.length = 9)
    (hok : us.all (fun u => (decodedUnit u).2) = true) : us.flatten.count true % 2 = 0 := by
  induction us with
  | nil => rfl
  | cons u us ih =>
    simp only [List.all_cons, Bool.and_eq_true] at hok
    have h1 := decodedUnit_count u (h9 u (List.mem_cons_self _ _)) hok.1
    have h2 := ih (fun x hx => h9 x (List.mem_cons_of_mem _ hx)) hok.2
    rw [List.flatten_cons, List.count_append]
    omega

theorem decodedUnit_spec_unitBits : ∀ b, b < 256 → decodedUnit (spec_unitBits b) = (b, true) := by
  decide

theorem spec_unitBits_count_even : ∀ b, b < 256 → (spec_unitBits b).count true % 2 = 0 := by
  decide

theorem spec_bodyBits_count_even (c : fht8v_msg_t) (h : c.IsBytes) :
    (spec_bodyBits c).count true % 2 = 0 := by
  obtain ⟨h1, h2, h3, h4⟩ := h
  have hk : spec_checksum c < 256 := Nat.mod_lt _ (by decide)
  have u1 := spec_unitBits_count_even _ h1
  have u2 := spec_unitBits_count_even _ h2
  have u3 := spec_unitBits_count_even _ h3
  have u4 := spec_unitBits_count_even _ h4
  have u5 := spec_unitBits_count_even _ hk
  have u0 : (spec_unitBits 0).count true = 0 := by decide
  simp only [spec_bodyBits, List.count_append, u0]
  omega

theorem spec_bodyBits_length (c : fht8v_msg_t) : (spec_bodyBits c).length = 54 := by
  simp [spec_bodyBits, spec_unitBits_length]

theorem bytesBetween_append (buf : Nat → Nat) (a b c : Nat) (hab : a ≤ b) (hbc : b ≤ c) :
    bytesBetween buf a c = bytesBetween buf a b ++ bytesBetween buf b c := by
  induction c, hbc using Nat.le_induction with
  | base => simp [bytesBetween]
  | succ c hbc ih =>
    rw [bytesBetween_succ buf a c (by omega), bytesBetween_succ buf b c hbc, ih,
      List.append_assoc]

/-- A window that reaches at least to the byte before the terminator of a packed
frame starts with the line code of the preamble, the start bit and the body. -/
theorem packFrame_window (buf : Nat → Nat) (bptr : Nat) (body : List Bool) (last : Nat)
    (hl : (packFrame buf bptr body).2 ≤ last + 1) :
    ∃ rest, spec_encodeBits (List.replicate 12 false ++ [true] ++ body) ++ rest
        = windowBits (packFrame buf bptr body).1 bptr last ∧
      ((spec_encodeBits (spec_frameOfBody body)).length % 8 ≤ 4 →
        spec_lineCode false <+: rest) := by
  obtain ⟨s, hs, hr⟩ := packFrame_rep buf bptr body
  rw [hs] at hl ⊢
  simp only at hl ⊢
  have hle := hr.le
  have hw : windowBits (poke s.1 s.2 0xff) bptr last
      = (bytesBetween s.1 bptr s.2).flatMap spec_byteBits
        ++ (bytesBetween (poke s.1 s.2 0xff) s.2 (last + 1)).flatMap spec_byteBits := by
    unfold windowBits
    rw [bytesBetween_append _ bptr s.2 (last + 1) hle hl, List.flatMap_append,
      bytesBetween_poke _ _ _ _ _ (le_refl s.2)]
  have hraw : spec_encodeBits (spec_frameOfBody body)
      = spec_encodeBits (List.replicate 12 false ++ [true] ++ body)
        ++ (spec_lineCode false ++ spec_lineCode false) := by
    simp [spec_frameOfBody, spec_encodeBits]
  have hbits := hr.bits
  rw [hraw] at hbits
  have hpl := pendingBits_length_lt (s.1 s.2)
  have hlen := congrArg List.length hbits
  simp only [List.length_append, spec_lineCode, List.length_cons, List.length_nil] at hlen
  -- the body part is a prefix of the completed bytes
  have hpre : spec_encodeBits (List.replicate 12 false ++ [true] ++ body)
      <+: (bytesBetween s.1 bptr s.2).flatMap spec_byteBits := by
    have p1 : spec_encodeBits (List.replicate 12 false ++ [true] ++ body)
        <+: spec_encodeBits (spec_frameOfBody body) := by
      rw [hraw]; exact List.prefix_append _ _
    have p2 : (bytesBetween s.1 bptr s.2).flatMap spec_byteBits
        <+: spec_encodeBits (spec_frameOfBody body) := by
      rw [hraw, hbits]; exact List.prefix_append _ _
    exact List.prefix_of_prefix_length_le p1 p2 (by omega)
  obtain ⟨t, ht⟩ := hpre
  refine ⟨t ++ (bytesBetween (poke s.1 s.2 0xff) s.2 (last + 1)).flatMap spec_byteBits, ?_, ?_⟩
  · rw [hw, ← ht, List.append_assoc (spec_encodeBits _) t _]
  · intro hmod
    rw [← ht, List.append_assoc (spec_encodeBits _) t _] at hbits
    have hbits' := List.append_cancel_left hbits
    -- t ++ pending = 1100 ++ 1100 with pending of length at most 4
    have hrl : (spec_encodeBits (spec_frameOfBody body)).length
        = 8 * (s.2 - bptr) + (pendingBits (s.1 s.2)).length := by
      rw [hr.bits, List.length_append, length_flatMap_byteBits, bytesBetween_length]
    have hp4 : (pendingBits (s.1 s.2)).length ≤ 4 := by omega
    have q1 : spec_lineCode false <+: spec_lineCode false ++ spec_lineCode false :=
      List.prefix_append _ _
    have q2 : t <+: spec_lineCode false ++ spec_lineCode false := by
      rw [hbits']; exact List.prefix_append _ _
    have q3 : (spec_lineCode false).length ≤ t.length := by
      have := congrArg List.length hbits'
      simp only [List.length_append, spec_lineCode, List.length_cons, List.length_nil] at this ⊢
      omega
    have hpt : spec_lineCode false <+: t := List.prefix_of_prefix_length_le q1 q2 q3
    exact hpt.trans (List.prefix_append _ _)

/-- Any 54-bit body with an odd number of one bits, packed into a frame, is
rejected by the decoder on every window reaching the byte before the terminator. -/
theorem packFrame_odd_body_rejected (buf : Nat → Nat) (bptr : Nat) (body : List Bool)
    (last : Nat) (out : fht8v_msg_t) (h54 : body.length = 54)
    (hodd : body.count true % 2 = 1)
    (hl : (packFrame buf bptr body).2 ≤ last + 1) :
    (FHT8VDecodeBitStream (packFrame buf bptr body).1 bptr last out).map Prod.fst
      = some false := by
  obtain ⟨rest, hw, _⟩ := packFrame_window buf bptr body last hl
  have hbad : (unitsOf body).all (fun u => (decodedUnit u).2) = false := by
    by_contra hne
    have hall : (unitsOf body).all (fun u => (decodedUnit u).2) = true := by
      simpa using hne
    have := units_count_even (unitsOf body) (unitsOf_length9 body h54) hall
    rw [unitsOf_flatten body h54] at this
    omega
  apply FHT8VDecodeBitStream_parity_error _ bptr last 12 out (unitsOf body) rest rfl
    (unitsOf_length9 body h54) hbad
  rw [unitsOf_flatten body h54, hw]

/-- Round trip for the commands whose encoding keeps the first trailer bit: when the
number of one bits in the body is 2 modulo 4, decoding the encoded stream returns
true and the original fields. -/
theorem roundtrip_of_trailer_kept (buf : Nat → Nat) (bptr last : Nat) (c out : fht8v_msg_t)
    (hc : c.IsBytes) (hn : (spec_bodyBits c).count true % 4 = 2)
    (hl : (FHT8VCreate200usBitStreamBptr buf bptr c).2 ≤ last + 1) :
    FHT8VDecodeBitStream (FHT8VCreate200usBitStreamBptr buf bptr c).1 bptr last out
      = some (true, c) := by
  rw [FHT8VCreate200usBitStreamBptr_eq_packFrame, appendedBodyBits_eq_spec c hc] at hl ⊢
  obtain ⟨rest, hw, ht⟩ := packFrame_window buf bptr (spec_bodyBits c) last hl
  have hlen := spec_frameBits_length c
  unfold spec_frameBits at hlen
  obtain ⟨r', hr'⟩ := ht (by omega)
  obtain ⟨h1, h2, h3, h4⟩ := hc
  have hk : spec_checksum c < 256 := Nat.mod_lt _ (by decide)
  have d1 := decodedUnit_spec_unitBits _ h1
  have d2 := decodedUnit_spec_unitBits _ h2
  have d3 := decodedUnit_spec_unitBits 0 (by decide)
  have d4 := decodedUnit_spec_unitBits _ h3
  have d5 := decodedUnit_spec_unitBits _ h4
  have d6 := decodedUnit_spec_unitBits _ hk
  have key := FHT8VDecodeBitStream_accepts (packFrame buf bptr (spec_bodyBits c)).1 bptr last 12
    out (spec_unitBits c.hc1) (spec_unitBits c.hc2) (spec_unitBits 0) (spec_unitBits c.command)
    (spec_unitBits c.extension) (spec_unitBits (spec_checksum c)) r'
    (by intro u hu
        simp only [List.mem_cons, List.mem_singleton, List.not_mem_nil, or_false] at hu
        rcases hu with rfl | rfl | rfl | rfl | rfl | rfl <;> exact spec_unitBits_length _)
    (by simp [d1, d2, d3, d4, d5, d6])
    (by rw [d1, d2, d3, d4, d5, d6]; simp [spec_checksum])
    (by rw [hr', ← hw]
        simp [spec_bodyBits, List.append_assoc])
  rw [key, d1, d2, d4, d5]

theorem readOneBit_of_failed (buf : Nat → Nat) (st : decode_state_t) (hf : st.failed = true) :
    readOneBit buf st = (0, st) := by
  obtain ⟨i, last, mask, failed⟩ := st
  simp only at hf
  subst hf
  simp [readOneBit]

/-- Exact form of `readOneBit_ahead`: when the bits ahead are the line code of `b`
followed by `rest`, the read returns `b` and leaves exactly `rest` ahead. -/
theorem readOneBit_exact (buf : Nat → Nat) (st : decode_state_t) (b : Bool) (rest : List Bool)
    (hr : st.Ready) (h : st.ahead buf = spec_lineCode b ++ rest) :
    (readOneBit buf st).2.ahead buf = rest := by
  obtain ⟨i, last, mask, failed⟩ := st
  obtain ⟨hv, hf⟩ := hr
  simp only at hv hf
  subst hf
  unfold decode_state_t.ahead at h
  simp only at h
  by_cases hi : i ≤ last
  · rw [windowBits_of_le buf i last hi] at h
    by_cases hi2 : i + 1 ≤ last
    · rw [windowBits_of_le buf (i + 1) last hi2] at h
      rcases hv with rfl | rfl | rfl | rfl | rfl <;> cases b <;>
        simp [maskIndex, spec_lineCode, spec_byteBits] at h <;>
        simp [readOneBit, readOneBit_secondPair, readOneBit_thirdPair, land_192, land_48,
          land_12, land_3, h, Nat.not_lt.mpr hi, Nat.not_lt.mpr hi2, decode_state_t.ahead,
          decode_state_t.Ready, ValidMask, maskIndex, windowBits_of_le buf i last hi,
          windowBits_of_le buf (i + 1) last hi2, spec_byteBits]
    · rw [windowBits_of_gt buf (i + 1) last (by omega)] at h
      rcases hv with rfl | rfl | rfl | rfl | rfl <;> cases b <;>
        simp [maskIndex, spec_lineCode, spec_byteBits] at h <;>
        simp [readOneBit, readOneBit_secondPair, readOneBit_thirdPair, land_192, land_48,
          land_12, land_3, h, Nat.not_lt.mpr hi, decode_state_t.ahead,
          decode_state_t.Ready, ValidMask, maskIndex, windowBits_of_le buf i last hi,
          windowBits_of_gt buf (i + 1) last (by omega), spec_byteBits]
  · rw [windowBits_of_gt buf i last (by omega)] at h
    cases b <;> simp [spec_lineCode] at h

theorem pair_first_192 : ∀ a b : Bool,
    (192 = 128 * a.toNat + 64 * b.toNat) ↔ (a = true ∧ b = true) := by decide
theorem pair_first_48 : ∀ a b : Bool,
    (48 = 32 * a.toNat + 16 * b.toNat) ↔ (a = true ∧ b = true) := by decide
theorem pair_first_12 : ∀ a b : Bool,
    (12 = 8 * a.toNat + 4 * b.toNat) ↔ (a = true ∧ b = true) := by decide
theorem pair_first_3 : ∀ a b : Bool,
    (3 = 2 * a.toNat + b.toNat) ↔ (a = true ∧ b = true) := by decide
theorem pair_one_192 : ∀ a b : Bool,
    (128 * a.toNat + 64 * b.toNat = 128 ∨ 128 * a.toNat + 64 * b.toNat = 32 ∨
      128 * a.toNat + 64 * b.toNat = 8 ∨ 128 * a.toNat + 64 * b.toNat = 2)
      ↔ (a = true ∧ b = false) := by decide
theorem pair_one_48 : ∀ a b : Bool,
    (32 * a.toNat + 16 * b.toNat = 128 ∨ 32 * a.toNat + 16 * b.toNat = 32 ∨
      32 * a.toNat + 16 * b.toNat = 8 ∨ 32 * a.toNat + 16 * b.toNat = 2)
      ↔ (a = true ∧ b = false) := by decide
theorem pair_one_12 : ∀ a b : Bool,
    (8 * a.toNat + 4 * b.toNat = 128 ∨ 8 * a.toNat + 4 * b.toNat = 32 ∨
      8 * a.toNat + 4 * b.toNat = 8 ∨ 8 * a.toNat + 4 * b.toNat = 2)
      ↔ (a = true ∧ b = false) := by decide
theorem pair_one_3 : ∀ a b : Bool,
    (2 * a.toNat + b.toNat = 128 ∨ 2 * a.toNat + b.toNat = 32 ∨
      2 * a.toNat + b.toNat = 8 ∨ 2 * a.toNat + b.toNat = 2)
      ↔ (a = true ∧ b = false) := by decide
theorem pair_zero_192 : ∀ a b : Bool,
    (0 = 128 * a.toNat + 64 * b.toNat) ↔ (a = false ∧ b = false) := by decide
theorem pair_zero_48 : ∀ a b : Bool,
    (0 = 32 * a.toNat + 16 * b.toNat) ↔ (a = false ∧ b = false) := by decide
theorem pair_zero_12 : ∀ a b : Bool,
    (0 = 8 * a.toNat + 4 * b.toNat) ↔ (a = false ∧ b = false) := by decide
theorem pair_zero_3 : ∀ a b : Bool,
    (0 = 2 * a.toNat + b.toNat) ↔ (a = false ∧ b = false) := by decide

/-- When the bits ahead start with neither line-code pattern, the read fails. -/
theorem readOneBit_fails (buf : Nat → Nat) (st : decode_state_t)
    (hr : st.Ready) (h : ∀ b, ¬ spec_lineCode b <+: st.ahead buf) :
    (readOneBit buf st).1 = 0 ∧ (readOneBit buf st).2.failed = true := by
  obtain ⟨i, last, mask, failed⟩ := st
  obtain ⟨hv, hf⟩ := hr
  simp only at hv hf
  subst hf
  have h0 := h false
  have h1 := h true
  clear h
  unfold decode_state_t.ahead at h0 h1
  simp only at h0 h1
  by_cases hi : i ≤ last
  · rw [windowBits_of_le buf i last hi] at h0 h1
    by_cases hi2 : i + 1 ≤ last
    · rw [windowBits_of_le buf (i + 1) last hi2] at h0 h1
      rcases hv with rfl | rfl | rfl | rfl | rfl <;>
        simp [maskIndex, spec_lineCode, spec_byteBits] at h0 h1 <;>
        simp [readOneBit, readOneBit_secondPair, readOneBit_thirdPair, land_192, land_48,
          land_12, land_3, Nat.not_lt.mpr hi, Nat.not_lt.mpr hi2, pair_first_192,
          pair_first_48, pair_first_12, pair_first_3, pair_one_192, pair_one_48, pair_one_12,
          pair_one_3, pair_zero_192, pair_zero_48, pair_zero_12, pair_zero_3] <;>
        split_ifs <;> simp_all
    · rw [windowBits_of_gt buf (i + 1) last (by omega)] at h0 h1
      rcases hv with rfl | rfl | rfl | rfl | rfl <;>
        simp [maskIndex, spec_lineCode, spec_byteBits] at h0 h1 <;>
        simp [readOneBit, readOneBit_secondPair, readOneBit_thirdPair, land_192, land_48,
          land_12, land_3, Nat.not_lt.mpr hi, pair_first_192,
          pair_first_48, pair_first_12, pair_first_3, pair_one_192, pair_one_48, pair_one_12,
          pair_one_3, pair_zero_192, pair_zero_48, pair_zero_12, pair_zero_3] <;>
        split_ifs <;> simp_all
  · simp [readOneBit, Nat.not_le.mp hi]

/-- A read from a ready state either consumes the line code of a bit `b`, returning
`b` and staying ready, or fails returning 0. -/
theorem readOneBit_cases (buf : Nat → Nat) (st : decode_state_t) (hr : st.Ready) :
    (∃ b rest, st.ahead buf = spec_lineCode b ++ rest ∧ (readOneBit buf st).1 = b.toNat ∧
        (readOneBit buf st).2.Ready ∧ (readOneBit buf st).2.lastByte = st.lastByte ∧
        (readOneBit buf st).2.ahead buf = rest) ∨
      ((readOneBit buf st).1 = 0 ∧ (readOneBit buf st).2.failed = true) := by
  by_cases h : ∃ b, spec_lineCode b <+: st.ahead buf
  · left
    obtain ⟨b, rest, hb⟩ := h
    obtain ⟨a1, a2, a3, _⟩ := readOneBit_ahead buf st b rest hr ⟨[], by simp [hb]⟩
    exact ⟨b, rest, hb.symm, a1, a2, a3, readOneBit_exact buf st b rest hr hb.symm⟩
  · right
    exact readOneBit_fails buf st hr (fun b hb => h ⟨b, hb⟩)

theorem readOneByteWithParity_loop_of_failed (buf : Nat → Nat) (n : Nat) :
    ∀ (result parity : Nat) (st : decode_state_t), st.failed = true →
      (readOneByteWithParity_loop buf n result parity st).2.2 = st := by
  induction n with
  | zero => intro result parity st _; rfl
  | succ n ih =>
    intro result parity st hf
    simp only [readOneByteWithParity_loop, readOneBit_of_failed buf st hf]
    exact ih _ _ st hf

/-- If the seven-bit loop of `readOneByteWithParity` ends without failure, it has
consumed the line code of `n` bits and accumulated them. -/
theorem readOneByteWithParity_loop_sound (buf : Nat → Nat) (n : Nat) :
    ∀ (result parity : Nat) (st : decode_state_t), st.Ready →
      (readOneByteWithParity_loop buf n result parity st).2.2.failed = false →
      ∃ mid rest, mid.length = n ∧ st.ahead buf = spec_encodeBits mid ++ rest ∧
        (readOneByteWithParity_loop buf n result parity st).1
          = (accumulateBits mid result parity).1 ∧
        (readOneByteWithParity_loop buf n result parity st).2.1
          = (accumulateBits mid result parity).2 ∧
        (readOneByteWithParity_loop buf n result parity st).2.2.Ready ∧
        (readOneByteWithParity_loop buf n result parity st).2.2.lastByte = st.lastByte ∧
        (readOneByteWithParity_loop buf n result parity st).2.2.ahead buf = rest := by
  induction n with
  | zero =>
    intro result parity st hr _
    exact ⟨[], st.ahead buf, rfl, by simp [spec_encodeBits], rfl, rfl, hr, rfl, rfl⟩
  | succ n ih =>
    intro result parity st hr hnf
    simp only [readOneByteWithParity_loop] at hnf ⊢
    rcases readOneBit_cases buf st hr with ⟨b, rest1, h1, h2, h3, h4, h5⟩ | ⟨_, hf⟩
    · obtain ⟨mid, rest, m1, m2, m3, m4, m5, m6, m7⟩ := ih _ _ (readOneBit buf st).2 h3 hnf
      refine ⟨b :: mid, rest, by simp [m1], ?_, ?_, ?_, m5, by rw [m6, h4], m7⟩
      · rw [h1, spec_encodeBits_cons, List.append_assoc, ← m2, h5]
      · rw [m3, h2]; rfl
      · rw [m4, h2]; rfl
    · rw [readOneByteWithParity_loop_of_failed buf n _ _ _ hf, hf] at hnf
      exact absurd hnf (by decide)

theorem parity_check_not_failed (c : Prop) [Decidable c] (x : Nat)
    (Q : Nat × decode_state_t)
    (h : (if c then (x, { Q.2 with failed := true }) else (x, Q.2)).2.failed = false) :
    ¬ c ∧ Q.2.failed = false := by
  by_cases hc : c
  · simp [hc] at h
  · simpa [hc] using h

/-- If `readOneByteWithParity` ends without failure from a ready state, it has
consumed the line code of a nine-bit unit with matching parity. -/
theorem readOneByteWithParity_sound (buf : Nat → Nat) (st : decode_state_t) (hr : st.Ready)
    (hnf : (readOneByteWithParity buf st).2.failed = false) :
    ∃ u rest, u.length = 9 ∧ st.ahead buf = spec_encodeBits u ++ rest ∧
      (readOneByteWithParity buf st).1 = (decodedUnit u).1 ∧ (decodedUnit u).2 = true ∧
      (readOneByteWithParity buf st).2.Ready ∧
      (readOneByteWithParity buf st).2.lastByte = st.lastByte ∧
      (readOneByteWithParity buf st).2.ahead buf = rest := by
  rw [readOneByteWithParity_of_not_failed buf st hr.2] at hnf ⊢
  obtain ⟨hc, hq⟩ := parity_check_not_failed _ _ _ hnf
  rw [if_neg hc]
  clear hnf
  have hcases := readOneBit_cases buf st hr
  generalize readOneBit buf st = R at hc hq hcases ⊢
  have hLf := readOneByteWithParity_loop_of_failed buf 7 R.1 R.1 R.2
  have hLs := readOneByteWithParity_loop_sound buf 7 R.1 R.1 R.2
  generalize readOneByteWithParity_loop buf 7 R.1 R.1 R.2 = L at hc hq hLf hLs ⊢
  have hQf := readOneBit_of_failed buf L.2.2
  have hQc := readOneBit_cases buf L.2.2
  generalize readOneBit buf L.2.2 = Q at hc hq hQf hQc ⊢
  have hL2 : L.2.2.failed = false := by
    by_contra hne
    have : L.2.2.failed = true := by simpa using hne
    rw [hQf this] at hq
    simp [this] at hq
  rcases hcases with ⟨b7, rest1, h1, h2, h3, h4, h5⟩ | ⟨_, hf⟩
  · obtain ⟨mid, rest2, m1, m2, m3, m4, m5, m6, m7⟩ := hLs h3 hL2
    rcases hQc m5 with ⟨p, rest, q1, q2, q3, q4, q5⟩ | ⟨_, qf⟩
    · match mid, m1 with
      | [b6, b5, b4, b3, b2, b1, b0], _ =>
        have hd1 : (decodedUnit [b7, b6, b5, b4, b3, b2, b1, b0, p]).1
            = (accumulateBits [b6, b5, b4, b3, b2, b1, b0] b7.toNat b7.toNat).1 := rfl
        have hd2 : (decodedUnit [b7, b6, b5, b4, b3, b2, b1, b0, p]).2
            = decide ((accumulateBits [b6, b5, b4, b3, b2, b1, b0] b7.toNat b7.toNat).2
                = p.toNat) := rfl
        rw [h2] at m3 m4
        refine ⟨[b7, b6, b5, b4, b3, b2, b1, b0, p], rest, rfl, ?_, ?_, ?_, q3,
          by rw [q4, m6, h4], q5⟩
        · rw [h1, ← h5, m2, ← m7, q1, ← q5]
          simp [spec_encodeBits]
        · rw [hd1, ← m3]
        · rw [hd2, ← m4, ← q2]
          simpa using hc
    · rw [qf] at hq
      exact absurd hq (by decide)
  · rw [hLf hf, hf] at hL2
    exact absurd hL2 (by decide)

theorem readUnits_length (buf : Nat → Nat) (n : Nat) :
    ∀ st : decode_state_t, (readUnits buf n st).1.length = n := by
  induction n with
  | zero => intro st; rfl
  | succ n ih => intro st; simp [readUnits, ih]

/-- If `n` successive unit reads end without failure, they have consumed the line
code of `n` nine-bit units with matching parity. -/
theorem readUnits_sound (buf : Nat → Nat) (n : Nat) :
    ∀ st : decode_state_t, st.Ready → (readUnits buf n st).2.failed = false →
      ∃ (us : List (List Bool)) (rest : List Bool), us.length = n ∧
        (∀ u ∈ us, u.length = 9) ∧
        us.all (fun u => (decodedUnit u).2) = true ∧
        st.ahead buf = spec_encodeBits us.flatten ++ rest ∧
        (readUnits buf n st).1 = us.map (fun u => (decodedUnit u).1) ∧
        (readUnits buf n st).2.Ready ∧ (readUnits buf n st).2.lastByte = st.lastByte ∧
        (readUnits buf n st).2.ahead buf = rest := by
  induction n with
  | zero =>
    intro st hr _
    exact ⟨[], st.ahead buf, rfl, by simp, rfl, by simp [spec_encodeBits], rfl, hr, rfl, rfl⟩
  | succ n ih =>
    intro st hr hnf
    simp only [readUnits] at hnf ⊢
    by_cases h1 : (readOneByteWithParity buf st).2.failed = true
    · rw [(readUnits_of_failed buf n _ h1).2, h1] at hnf
      exact absurd hnf (by decide)
    · have h1' : (readOneByteWithParity buf st).2.failed = false := by simpa using h1
      obtain ⟨u, rest1, u1, u2, u3, u4, u5, u6, u7⟩ := readOneByteWithParity_sound buf st hr h1'
      obtain ⟨us, rest, s1, s2, s3, s4, s5, s6, s7, s8⟩ :=
        ih (readOneByteWithParity buf st).2 u5 hnf
      refine ⟨u :: us, rest, by simp [s1], ?_, ?_, ?_, ?_, s6, by rw [s7, u6], s8⟩
      · intro x hx
        rcases List.mem_cons.mp hx with rfl | hx
        · exact u1
        · exact s2 x hx
      · simp [u4, s3]
      · rw [u2, List.flatten_cons, spec_encodeBits_append, List.append_assoc, ← s4, u7]
      · simp [u3, s5]

theorem spec_lineCode_length_pos (b : Bool) : 4 ≤ (spec_lineCode b).length := by
  cases b <;> simp [spec_lineCode]

/-- The leading-zero loop with enough fuel never runs dry: it either takes the
`return(false)` exit or has consumed encoded zero bits and one encoded one bit. -/
theorem skipLeadingZeros_sound (buf : Nat → Nat) (fuel : Nat) :
    ∀ st : decode_state_t, st.Ready → (st.ahead buf).length < 4 * fuel →
      skipLeadingZeros buf fuel st = some none ∨
      ∃ st' z rest, skipLeadingZeros buf fuel st = some (some st') ∧
        st.ahead buf = spec_encodeBits (List.replicate z false ++ [true]) ++ rest ∧
        st'.Ready ∧ st'.lastByte = st.lastByte ∧ st'.ahead buf = rest := by
  induction fuel with
  | zero => intro st _ h; omega
  | succ fuel ih =>
    intro st hr hlen
    rcases readOneBit_cases buf st hr with ⟨b, rest1, h1, h2, h3, h4, h5⟩ | ⟨f1, f2⟩
    · cases b with
      | true =>
        right
        refine ⟨(readOneBit buf st).2, 0, rest1, ?_, ?_, h3, h4, h5⟩
        · simp [skipLeadingZeros, h2]
        · rw [h1]; simp [spec_encodeBits]
      | false =>
        have hl : ((readOneBit buf st).2.ahead buf).length < 4 * fuel := by
          rw [h5]
          rw [h1, List.length_append] at hlen
          simp only [spec_lineCode, List.length_cons, List.length_nil] at hlen
          omega
        rcases ih (readOneBit buf st).2 h3 hl with hn | ⟨st', z, rest, s1, s2, s3, s4, s5⟩
        · left
          simp [skipLeadingZeros, h2, h3.2, hn]
        · right
          refine ⟨st', z + 1, rest, ?_, ?_, s3, by rw [s4, h4], s5⟩
          · simp [skipLeadingZeros, h2, h3.2, s1]
          · rw [h1, ← h5, s2]
            simp [spec_encodeBits, List.replicate_succ]
    · left
      simp [skipLeadingZeros, f1, f2]

theorem decodeFinish_isSome (buf : Nat → Nat) (v : List Nat) (st : decode_state_t)
    (hv : v.length = 6) : ∃ r, decodeFinish buf v st = some r := by
  match v, hv with
  | [v1, v2, v3, v4, v5, v6], _ =>
    simp only [decodeFinish]
    split_ifs <;> exact ⟨_, rfl⟩

/-- The decoder always returns a result: the fuel of the leading-zero loop suffices
for every window and every content. -/
theorem FHT8VDecodeBitStream_total (buf : Nat → Nat) (bitStream lastByte : Nat)
    (out : fht8v_msg_t) : ∃ r, FHT8VDecodeBitStream buf bitStream lastByte out = some r := by
  rw [FHT8VDecodeBitStream_eq]
  have hr : decode_state_t.Ready
      { bitStream := bitStream, lastByte := lastByte, mask := 0, failed := false } :=
    ⟨Or.inl rfl, rfl⟩
  have hl : (decode_state_t.ahead buf
      { bitStream := bitStream, lastByte := lastByte, mask := 0, failed := false }).length
        < 4 * decodeFuel bitStream lastByte := by
    simp only [decode_state_t.ahead, maskIndex, List.length_drop, windowBits_length, decodeFuel]
    simp
    omega
  rcases skipLeadingZeros_sound buf _ _ hr hl with hn | ⟨st', z, rest, s1, _⟩
  · rw [hn]; exact ⟨_, rfl⟩
  · rw [s1]
    exact decodeFinish_isSome buf _ _ (readUnits_length buf 6 st')

/-- Soundness of the decoder: when it returns true, the window starts with the
line code of some number of zero bits, a one bit, six nine-bit units with matching
parity whose sixth value is the checksum of the first five, and a zero bit; the
command returned carries the values of units 1, 2, 4 and 5. -/
theorem FHT8VDecodeBitStream_sound (buf : Nat → Nat) (bitStream lastByte : Nat)
    (out cmd : fht8v_msg_t)
    (h : FHT8VDecodeBitStream buf bitStream lastByte out = some (true, cmd)) :
    ∃ (z : Nat) (u1 u2 u3 u4 u5 u6 rest : List Bool),
      (∀ u ∈ [u1, u2, u3, u4, u5, u6], u.length = 9 ∧ (decodedUnit u).2 = true) ∧
      windowBits buf bitStream lastByte
        = spec_encodeBits (List.replicate z false ++ [true] ++
            [u1, u2, u3, u4, u5, u6].flatten ++ [false]) ++ rest ∧
      (0xc + (decodedUnit u1).1 + (decodedUnit u2).1 + (decodedUnit u3).1
        + (decodedUnit u4).1 + (decodedUnit u5).1) % 256 = (decodedUnit u6).1 ∧
      cmd = ⟨(decodedUnit u1).1, (decodedUnit u2).1, (decodedUnit u4).1,
        (decodedUnit u5).1⟩ := by
  rw [FHT8VDecodeBitStream_eq] at h
  have hr : decode_state_t.Ready
      { bitStream := bitStream, lastByte := lastByte, mask := 0, failed := false } :=
    ⟨Or.inl rfl, rfl⟩
  have hl : (decode_state_t.ahead buf
      { bitStream := bitStream, lastByte := lastByte, mask := 0, failed := false }).length
        < 4 * decodeFuel bitStream lastByte := by
    simp only [decode_state_t.ahead, maskIndex, List.length_drop, windowBits_length, decodeFuel]
    simp
    omega
  have ha : decode_state_t.ahead buf
      { bitStream := bitStream, lastByte := lastByte, mask := 0, failed := false }
      = windowBits buf bitStream lastByte := by
    simp [decode_state_t.ahead, maskIndex]
  rcases skipLeadingZeros_sound buf _ _ hr hl with hn | ⟨st', z, rest0, s1, s2, s3, s4, s5⟩
  · rw [hn] at h
    simp at h
  · rw [s1] at h
    simp only at h
    rw [ha] at s2
    by_cases hf : (readUnits buf 6 st').2.failed = true
    · have := decodeFinish_of_failed buf _ _ (readUnits_length buf 6 st') hf
      rw [h] at this
      simp at this
    · have hf' : (readUnits buf 6 st').2.failed = false := by simpa using hf
      obtain ⟨us, rest1, r1, r2, r3, r4, r5, r6, r7, r8⟩ := readUnits_sound buf 6 st' s3 hf'
      match us, r1 with
      | [u1, u2, u3, u4, u5, u6], _ =>
        rw [r5] at h
        simp only [List.map_cons, List.map_nil, decodeFinish, hf', Bool.false_eq_true,
          if_false] at h
        by_cases hsum : (0xc + (decodedUnit u1).1 + (decodedUnit u2).1 + (decodedUnit u3).1
            + (decodedUnit u4).1 + (decodedUnit u5).1) % 256 = (decodedUnit u6).1
        · simp only [hsum, ne_eq, not_true_eq_false, if_false] at h
          rcases readOneBit_cases buf _ r6 with ⟨b, rest, q1, q2, q3, q4, q5⟩ | ⟨_, qf⟩
          · rw [q2] at h
            cases b with
            | true => simp at h
            | false =>
              simp only [Bool.toNat_false, ne_eq, not_true_eq_false, if_false, Option.some.injEq,
                Prod.mk.injEq] at h
              refine ⟨z, u1, u2, u3, u4, u5, u6, rest, ?_, ?_, hsum, h.2.symm⟩
              · intro u hu
                refine ⟨r2 u hu, ?_⟩
                have := List.all_eq_true.mp r3 u hu
                simpa using this
              · rw [s2, ← s5, r4, ← r8, q1]
                simp [spec_encodeBits, List.append_assoc]
          · rw [qf] at h
            split_ifs at h <;> simp at h
        · simp [hsum] at h

/-- The line code is a prefix code: a prefix relation between encodings is a
prefix relation between the encoded bit sequences. -/
theorem spec_encodeBits_prefix (s : List Bool) :
    ∀ t : List Bool, spec_encodeBits s <+: spec_encodeBits t → s <+: t := by
  induction s with
  | nil => intro t _; exact List.nil_prefix
  | cons b s ih =>
    intro t h
    cases t with
    | nil =>
      cases b <;> simp [spec_encodeBits, spec_lineCode] at h
    | cons c t =>
      rw [spec_encodeBits_cons, spec_encodeBits_cons] at h
      cases b <;> cases c <;> simp [spec_lineCode] at h
      · rw [List.cons_prefix_cons]; exact ⟨rfl, ih t h⟩
      · rw [List.cons_prefix_cons]; exact ⟨rfl, ih t h⟩

theorem replicate_false_prefix (a : Nat) :
    ∀ (b : Nat) (x y : List Bool),
      List.replicate a false ++ true :: x <+: List.replicate b false ++ true :: y →
      a = b ∧ x <+: y := by
  induction a with
  | zero =>
    intro b x y h
    cases b with
    | zero => simpa using h
    | succ b => simp [List.replicate_succ] at h
  | succ a ih =>
    intro b x y h
    cases b with
    | zero => simp [List.replicate_succ] at h
    | succ b =>
      simp only [List.replicate_succ, List.cons_append, List.cons_prefix_cons, true_and] at h
      obtain ⟨e, hxy⟩ := ih b x y h
      exact ⟨by rw [e], hxy⟩

/-- The bits of a window inside the bytes written before the terminator are a
prefix of the line code of the frame. -/
theorem packFrame_window_prefix (buf : Nat → Nat) (bptr : Nat) (body : List Bool) (last : Nat)
    (hl : last + 1 ≤ (packFrame buf bptr body).2) :
    windowBits (packFrame buf bptr body).1 bptr last
      <+: spec_encodeBits (spec_frameOfBody body) := by
  obtain ⟨s, hs, hr⟩ := packFrame_rep buf bptr body
  rw [hs] at hl ⊢
  simp only at hl ⊢
  have hle := hr.le
  unfold windowBits
  rw [bytesBetween_poke _ _ _ _ _ hl, hr.bits]
  by_cases hb : bptr ≤ last + 1
  · rw [bytesBetween_append s.1 bptr (last + 1) s.2 hb hl, List.flatMap_append,
      List.append_assoc]
    exact List.prefix_append _ _
  · have e : bytesBetween s.1 bptr (last + 1) = [] := by
      unfold bytesBetween
      have : last + 1 - bptr = 0 := by omega
      simp [this]
    rw [e]
    exact List.nil_prefix

/-- A window inside the bytes before the terminator that holds fewer bits than the
frame up to and including its first trailer bit is rejected. -/
theorem packFrame_short_window_rejected (buf : Nat → Nat) (bptr : Nat) (body : List Bool)
    (last : Nat) (out : fht8v_msg_t) (h54 : body.length = 54)
    (hl : last + 1 ≤ (packFrame buf bptr body).2)
    (hshort : 8 * (last + 1 - bptr)
      < (spec_encodeBits (List.replicate 12 false ++ [true] ++ body ++ [false])).length) :
    (FHT8VDecodeBitStream (packFrame buf bptr body).1 bptr last out).map Prod.fst
      = some false := by
  obtain ⟨⟨ok, cmd⟩, hres⟩ := FHT8VDecodeBitStream_total (packFrame buf bptr body).1 bptr last out
  rw [hres]
  cases ok with
  | false => rfl
  | true =>
    exfalso
    obtain ⟨z, u1, u2, u3, u4, u5, u6, rest, hu, hw, _, _⟩ :=
      FHT8VDecodeBitStream_sound _ _ _ _ _ hres
    have hpre := packFrame_window_prefix buf bptr body last hl
    have hwl := windowBits_length (packFrame buf bptr body).1 bptr last
    rw [hw] at hpre hwl
    have hp1 : spec_encodeBits (List.replicate z false ++ [true] ++
        [u1, u2, u3, u4, u5, u6].flatten ++ [false])
        <+: spec_encodeBits (spec_frameOfBody body) :=
      (List.prefix_append _ _).trans hpre
    have hp2 := spec_encodeBits_prefix _ _ hp1
    have hp3 : List.replicate z false ++ true :: ([u1, u2, u3, u4, u5, u6].flatten ++ [false])
        <+: List.replicate 12 false ++ true :: (body ++ [false, false]) := by
      simpa [spec_frameOfBody, List.append_assoc] using hp2
    obtain ⟨hz, hp4⟩ := replicate_false_prefix z 12 _ _ hp3
    have hlen6 : ([u1, u2, u3, u4, u5, u6].flatten).length = 54 := by
      have l1 := (hu u1 (by simp)).1
      have l2 := (hu u2 (by simp)).1
      have l3 := (hu u3 (by simp)).1
      have l4 := (hu u4 (by simp)).1
      have l5 := (hu u5 (by simp)).1
      have l6 := (hu u6 (by simp)).1
      simp [l1, l2, l3, l4, l5, l6]
    have hp5 : [u1, u2, u3, u4, u5, u6].flatten ++ [false] = body ++ [false] := by
      have e := List.prefix_iff_eq_take.mp hp4
      rw [e, List.length_append, hlen6]
      have e2 : body ++ [false, false] = (body ++ [false]) ++ [false] := by simp
      rw [e2, List.take_append_of_le_length (by simp [h54])]
      apply List.take_of_length_le
      simp [h54]
    have hfin : List.replicate z false ++ [true] ++ [u1, u2, u3, u4, u5, u6].flatten ++ [false]
        = List.replicate 12 false ++ [true] ++ body ++ [false] := by
      rw [hz, List.append_assoc _ ([u1, u2, u3, u4, u5, u6].flatten) [false], hp5]
      simp [List.append_assoc]
    rw [hfin, List.length_append] at hwl
    omega

/-! ## Radio trace lemmas -/

theorem framesSent_issue (r : RadioState) (op : RadioOp) :
    framesSent (r.issue op)
      = framesSent r ++ (match op with
          | .queueCmdToFF frame => [frame]
          | _ => []) := by
  cases op <;> simp [framesSent, RadioState.issue, List.filterMap_append]

theorem framesSent_setup (env : Env) (r : RadioState) :
    framesSent (_SetupRFM22ToEavesdropOnFHT8V env r) = framesSent r := by
  simp [_SetupRFM22ToEavesdropOnFHT8V, framesSent_issue]

theorem framesSent_setupTo (env : Env) (force : Bool) (r : RadioState) :
    framesSent (SetupToEavesdropOnFHT8V env force r) = framesSent r := by
  unfold SetupToEavesdropOnFHT8V
  split
  · rfl
  · rw [framesSent_setup]
    rfl

theorem framesSent_stop (force : Bool) (r : RadioState) :
    framesSent (StopEavesdropOnFHT8V force r) = framesSent r := by
  unfold StopEavesdropOnFHT8V
  split
  · rfl
  · rw [framesSent_issue]
    simp [framesSent]

theorem framesSent_poll (env : Env) (r : RadioState) :
    framesSent (FHT8VCallForHeatPoll env r).2 = framesSent r := by
  unfold FHT8VCallForHeatPoll
  simp only
  split_ifs
  all_goals (try split)
  all_goals (try split_ifs)
  all_goals
    simp [framesSent, _SetupRFM22ToEavesdropOnFHT8V, StopEavesdropOnFHT8V, RadioState.issue,
      List.filterMap_append]
  all_goals (split_ifs <;> simp [List.filterMap_append])

theorem framesSent_pollRepeatedly (env : Env) (n : Nat) (r : RadioState) :
    framesSent (pollRepeatedly env n r) = framesSent r := by
  induction n generalizing r with
  | zero => rfl
  | succ n ih => rw [pollRepeatedly, ih, framesSent_poll]

theorem framesSent_sleep (env : Env) (r : RadioState) :
    framesSent (sleepUntilSubCycleTimeOptionalRX env r) = framesSent r := by
  unfold sleepUntilSubCycleTimeOptionalRX
  split
  · rw [framesSent_poll, framesSent_pollRepeatedly]
  · rfl

theorem FHT8VTXFHTQueueAndSendCmd_empty (env : Env) (area : Nat → Nat) (doubleTX : Bool)
    (r : RadioState) (h : area 0 = 0xff) :
    FHT8VTXFHTQueueAndSendCmd env area doubleTX r = r := by
  simp [FHT8VTXFHTQueueAndSendCmd, h]

theorem framesSent_TX (env : Env) (area : Nat → Nat) (doubleTX : Bool)
    (r : RadioState) (h : area 0 ≠ 0xff) :
    framesSent (FHT8VTXFHTQueueAndSendCmd env area doubleTX r)
      = framesSent r ++ [frameToFF area env.FHT8V_200US_BIT_STREAM_FRAME_BUF_SIZE] := by
  have h2 : ¬ (0xff = area 0) := fun e => h e.symm
  unfold FHT8VTXFHTQueueAndSendCmd
  rw [if_neg h2]
  simp only
  cases env.inHubMode <;> cases doubleTX <;>
    simp [framesSent_setupTo, framesSent_stop, framesSent_issue, framesSent_poll]

theorem takeWhile_append_stop {α : Type} (p : α → Bool) (xs rest : List α) (y : α)
    (hxs : ∀ x ∈ xs, p x = true) (hy : p y = false) :
    (xs ++ y :: rest).takeWhile p = xs := by
  induction xs with
  | nil => simp [List.takeWhile, hy]
  | cons x xs ih =>
    have hx := hxs x (List.mem_cons_self _ _)
    simp only [List.cons_append, List.takeWhile_cons, hx, if_true]
    rw [ih (fun z hz => hxs z (List.mem_cons_of_mem _ hz))]

theorem range_map_eq_bytesBetween (area : Nat → Nat) (size : Nat) :
    (List.range size).map area = bytesBetween area 0 size := by
  unfold bytesBetween
  simp

/-- The bytes the radio takes from a buffer just written by the encoder are the
frame of the command. -/
theorem frameToFF_encode (buf : Nat → Nat) (c : fht8v_msg_t) (size : Nat) (hc : c.IsBytes)
    (hsize : 46 ≤ size) :
    frameToFF (FHT8VCreate200usBitStreamBptr buf 0 c).1 size = txFrame c ∧
      (FHT8VCreate200usBitStreamBptr buf 0 c).1 0 ≠ 0xff := by
  obtain ⟨e1, _⟩ := FHT8VCreate200usBitStreamBptr_spec buf 0 c hc
  have hl := spec_frameBits_length c
  obtain ⟨lo, hi⟩ := spec_bodyBits_count c hc
  have hz : txFrame c = bytesBetween (FHT8VCreate200usBitStreamBptr buf 0 c).1 0
      (FHT8VCreate200usBitStreamBptr buf 0 c).2 := by
    unfold txFrame
    simp only [FHT8VCreate200usBitStreamBptr_eq_packFrame]
    obtain ⟨a1, a2, _, _⟩ := packFrame_spec zeroBuf 0 (appendedBodyBits c)
    obtain ⟨b1, b2, _, _⟩ := packFrame_spec buf 0 (appendedBodyBits c)
    rw [a2, b2]
  rw [hz]
  rw [FHT8VCreate200usBitStreamBptr_eq_packFrame] at e1 ⊢
  obtain ⟨_, _, h3, h4⟩ := packFrame_spec buf 0 (appendedBodyBits c)
  generalize hA : (packFrame buf 0 (appendedBodyBits c)).1 = area at *
  generalize hL : (packFrame buf 0 (appendedBodyBits c)).2 = L at *
  have hL35 : 35 ≤ L ∧ L ≤ 45 := by omega
  constructor
  · unfold frameToFF
    rw [range_map_eq_bytesBetween, bytesBetween_append area 0 L size (by omega) (by omega),
      bytesBetween_cons area L size (by omega), h3]
    apply takeWhile_append_stop
    · intro x hx
      have := h4 x hx
      simp
      omega
    · simp
  · have hm := bytesBetween_getElem? area 0 L 0 (by omega)
    have := h4 _ (List.getElem?_mem hm)
    simp at this
    omega

/-! ## Scheduler lemmas: one call -/

theorem FHT8VPollSyncAndTX_First_unsynced (env : Env) (dtx : Bool) (w : World)
    (h : w.sched.syncedWithFHT8V = false) :
    FHT8VPollSyncAndTX_First env dtx w
      = doSync env dtx { w with sched := { w.sched with halfSecondCount := 0 } } := by
  simp [FHT8VPollSyncAndTX_First, h]

theorem FHT8VPollSyncAndTX_Next_unsynced (env : Env) (dtx : Bool) (w : World)
    (h : w.sched.syncedWithFHT8V = false) :
    FHT8VPollSyncAndTX_Next env dtx w
      = doSync env dtx { w with sched := { w.sched with
          halfSecondCount := toUint8 ((w.sched.halfSecondCount : Int) + 1) } } := by
  simp [FHT8VPollSyncAndTX_Next, h]

/-- The call of `doSync` at countdown 2: no transmission, countdown 1, the wait
counter initialised, result false. -/
theorem doSync_transition (env : Env) (dtx : Bool) (w : World)
    (he : env.localFHT8VTRVEnabled = true) (h2 : w.sched.syncStateFHT8V = 2) :
    doSync env dtx w
      = (false, { w with sched := { w.sched with
          syncStateFHT8V := 1,
          halfSecondsToNextFHT8VTX :=
            toUint8 ((toUint8 (((env.FHT8VGetHC2 &&& 7 : Nat) : Int) + 8) : Int)
              - ((MAX_HSC env : Int) - (w.sched.halfSecondCount : Int))) } }) := by
  have e1 : (2 &&& 1 : Nat) = 0 := by decide
  have e2 : toUint8 1 = 1 := by decide
  obtain ⟨⟨synced, isOpen, ss, hs, hsc, area⟩, radio⟩ := w
  simp only at h2
  subst h2
  simp [doSync, he, e1, e2]

/-- A call of `doSync` in the final wait that does not exhaust the counter. -/
theorem doSync_wait (env : Env) (dtx : Bool) (w : World)
    (he : env.localFHT8VTRVEnabled = true) (h1 : w.sched.syncStateFHT8V = 1)
    (hc : toUint8 ((w.sched.halfSecondsToNextFHT8VTX : Int) - 1) ≠ 0) :
    doSync env dtx w
      = (true, { w with sched := { w.sched with
          halfSecondsToNextFHT8VTX :=
            toUint8 ((w.sched.halfSecondsToNextFHT8VTX : Int) - 1) } }) := by
  obtain ⟨⟨synced, isOpen, ss, hs, hsc, area⟩, radio⟩ := w
  simp only at h1 hc
  subst h1
  simp [doSync, he, hc]

/-- The call of `doSync` in the final wait that exhausts the counter: the
sync-final frame is sent and the valve-set frame left in the buffer. -/
theorem doSync_final (env : Env) (dtx : Bool) (w : World)
    (he : env.localFHT8VTRVEnabled = true) (h1 : w.sched.syncStateFHT8V = 1)
    (hc : toUint8 ((w.sched.halfSecondsToNextFHT8VTX : Int) - 1) = 0)
    (hb1 : env.FHT8VGetHC1 < 256) (hb2 : env.FHT8VGetHC2 < 256)
    (hsize : 46 ≤ env.FHT8V_200US_BIT_STREAM_FRAME_BUF_SIZE) :
    (doSync env dtx w).1 = false ∧
      (doSync env dtx w).2.sched
        = { syncedWithFHT8V := true, FHT8V_isValveOpen := false, syncStateFHT8V := 1,
            halfSecondsToNextFHT8VTX :=
              FHT8VTXGapHalfSeconds2 env env.FHT8VGetHC2 w.sched.halfSecondCount,
            halfSecondCount := w.sched.halfSecondCount,
            FHT8VTXCommandArea :=
              (FHT8VCreate200usBitStreamBptr
                (FHT8VCreate200usBitStreamBptr w.sched.FHT8VTXCommandArea 0
                  ⟨env.FHT8VGetHC1, env.FHT8VGetHC2, 0x20, 0⟩).1 0
                ⟨env.FHT8VGetHC1, env.FHT8VGetHC2, 0x26,
                  ((env.getTRVPercentOpen * 255) / 100) % 256⟩).1 } ∧
      framesSent (doSync env dtx w).2.radio
        = framesSent w.radio ++ [txFrame ⟨env.FHT8VGetHC1, env.FHT8VGetHC2, 0x20, 0⟩] := by
  obtain ⟨hf, hne⟩ := frameToFF_encode w.sched.FHT8VTXCommandArea
    ⟨env.FHT8VGetHC1, env.FHT8VGetHC2, 0x20, 0⟩ env.FHT8V_200US_BIT_STREAM_FRAME_BUF_SIZE
    ⟨hb1, hb2, by simp, by simp⟩ hsize
  obtain ⟨⟨synced, isOpen, ss, hs, hsc, area⟩, radio⟩ := w
  simp only at h1 hc hf hne
  subst h1
  refine ⟨?_, ?_, ?_⟩
  · simp [doSync, he, hc]
  · simp [doSync, he, hc, FHT8VCreateValveSetCmdFrame, FHT8VCreateValveSetCmdFrame_r]
    split_ifs <;> simp
  · simp only [doSync, he, hc]
    simp only [Bool.not_true, Bool.false_eq_true, if_false]
    simp
    split_ifs <;> simp [framesSent_TX _ _ _ _ hne, hf, framesSent_sleep]

theorem toUint8_of_lt (x : Nat) (h : x < 256) : toUint8 (x : Int) = x := by
  unfold toUint8
  omega

theorem toUint8_pred (x : Nat) (h0 : 0 < x) (h : x < 256) : toUint8 ((x : Int) - 1) = x - 1 := by
  unfold toUint8
  omega

theorem doSync_zero (env : Env) (dtx : Bool) (w : World)
    (he : env.localFHT8VTRVEnabled = true) (h0 : w.sched.syncStateFHT8V = 0) :
    doSync env dtx w
      = doSync env dtx { w with sched := { w.sched with syncStateFHT8V := 241 } } := by
  obtain ⟨⟨synced, isOpen, ss, hs, hsc, area⟩, radio⟩ := w
  simp only at h0
  subst h0
  simp [doSync, he]

/-- A call of `doSync` in the burst at an odd countdown of at least 3: the
sync-step frame carrying the countdown is sent. -/
theorem doSync_burst_odd (env : Env) (dtx : Bool) (w : World)
    (he : env.localFHT8VTRVEnabled = true) (h3 : 3 ≤ w.sched.syncStateFHT8V)
    (h256 : w.sched.syncStateFHT8V < 256) (hodd : w.sched.syncStateFHT8V % 2 = 1)
    (hb1 : env.FHT8VGetHC1 < 256) (hb2 : env.FHT8VGetHC2 < 256)
    (hsize : 46 ≤ env.FHT8V_200US_BIT_STREAM_FRAME_BUF_SIZE) :
    (doSync env dtx w).1 = true ∧
      (doSync env dtx w).2.sched
        = { w.sched with
            syncStateFHT8V := w.sched.syncStateFHT8V - 1,
            FHT8VTXCommandArea :=
              (FHT8VCreate200usBitStreamBptr w.sched.FHT8VTXCommandArea 0
                ⟨env.FHT8VGetHC1, env.FHT8VGetHC2, 0x2c, w.sched.syncStateFHT8V⟩).1 } ∧
      framesSent (doSync env dtx w).2.radio
        = framesSent w.radio
          ++ [txFrame ⟨env.FHT8VGetHC1, env.FHT8VGetHC2, 0x2c, w.sched.syncStateFHT8V⟩] := by
  obtain ⟨hf, hne⟩ := frameToFF_encode w.sched.FHT8VTXCommandArea
    ⟨env.FHT8VGetHC1, env.FHT8VGetHC2, 0x2c, w.sched.syncStateFHT8V⟩
    env.FHT8V_200US_BIT_STREAM_FRAME_BUF_SIZE ⟨hb1, hb2, by simp, h256⟩ hsize
  obtain ⟨⟨synced, isOpen, ss, hs, hsc, area⟩, radio⟩ := w
  simp only at h3 h256 hodd hf hne
  have e0 : ¬ (0 = ss) := by omega
  have e1 : ss &&& 1 = 1 := by rw [Nat.and_one_is_mod]; exact hodd
  have e2 : toUint8 ((ss : Int) - 1) = ss - 1 := toUint8_pred ss (by omega) h256
  have e3 : ¬ (1 = ss - 1) := by omega
  have e4 : 2 ≤ ss := by omega
  by_cases hh : 0 < hsc
  · refine ⟨?_, ?_, ?_⟩ <;>
      simp [doSync, he, e0, e1, e2, e3, e4, hh, framesSent_TX _ _ _ _ hne, hf, framesSent_sleep]
  · refine ⟨?_, ?_, ?_⟩ <;>
      simp [doSync, he, e0, e1, e2, e3, e4, hh, framesSent_TX _ _ _ _ hne, hf, framesSent_sleep]

/-- A call of `doSync` in the burst at an even countdown of at least 4: nothing
is sent. -/
theorem doSync_burst_even (env : Env) (dtx : Bool) (w : World)
    (he : env.localFHT8VTRVEnabled = true) (h3 : 3 ≤ w.sched.syncStateFHT8V)
    (h256 : w.sched.syncStateFHT8V < 256) (heven : w.sched.syncStateFHT8V % 2 = 0) :
    doSync env dtx w
      = (true, { w with sched := { w.sched with
          syncStateFHT8V := w.sched.syncStateFHT8V - 1 } }) := by
  obtain ⟨⟨synced, isOpen, ss, hs, hsc, area⟩, radio⟩ := w
  simp only at h3 h256 heven
  have e0 : ¬ (0 = ss) := by omega
  have e1 : ss &&& 1 = 0 := by rw [Nat.and_one_is_mod]; exact heven
  have e2 : toUint8 ((ss : Int) - 1) = ss - 1 := toUint8_pred ss (by omega) h256
  have e3 : ¬ (1 = ss - 1) := by omega
  have e4 : 2 ≤ ss := by omega
  simp [doSync, he, e0, e1, e2, e3, e4]

/-! ## Scheduler lemmas: synchronised operation -/

/-- The call `FHT8VPollSyncAndTX_First` when the counter exceeds the cycle length. -/
theorem FHT8VPollSyncAndTX_First_skip (env : Env) (dtx : Bool) (w : World)
    (hs : w.sched.syncedWithFHT8V = true)
    (hg : w.sched.halfSecondsToNextFHT8VTX > MAX_HSC env + 1) :
    FHT8VPollSyncAndTX_First env dtx w
      = (false, { w with sched := { w.sched with
          halfSecondCount := 0,
          halfSecondsToNextFHT8VTX :=
            toUint8 ((w.sched.halfSecondsToNextFHT8VTX : Int) - ((MAX_HSC env : Int) + 1)) } }) := by
  obtain ⟨⟨synced, isOpen, ss, c, hsc, area⟩, radio⟩ := w
  simp only at hs hg
  subst hs
  simp [FHT8VPollSyncAndTX_First, hg]

/-- The call `FHT8VPollSyncAndTX_First` when the counter is within the cycle and does not
reach 0. -/
theorem FHT8VPollSyncAndTX_First_count (env : Env) (dtx : Bool) (w : World)
    (hs : w.sched.syncedWithFHT8V = true)
    (hg : ¬ w.sched.halfSecondsToNextFHT8VTX > MAX_HSC env + 1)
    (hc : toUint8 ((w.sched.halfSecondsToNextFHT8VTX : Int) - 1) ≠ 0) :
    FHT8VPollSyncAndTX_First env dtx w
      = (true, { w with sched := { w.sched with
          halfSecondCount := 0,
          halfSecondsToNextFHT8VTX :=
            toUint8 ((w.sched.halfSecondsToNextFHT8VTX : Int) - 1) } }) := by
  obtain ⟨⟨synced, isOpen, ss, c, hsc, area⟩, radio⟩ := w
  simp only at hs hg hc
  subst hs
  have hc2 : ¬ (0 = toUint8 ((c : Int) - 1)) := fun e => hc e.symm
  simp [FHT8VPollSyncAndTX_First, hg, hc2]

/-- The call `FHT8VPollSyncAndTX_First` when the counter reaches 0: the buffered frame is
sent. -/
theorem FHT8VPollSyncAndTX_First_tx (env : Env) (dtx : Bool) (w : World)
    (hs : w.sched.syncedWithFHT8V = true)
    (hg : ¬ w.sched.halfSecondsToNextFHT8VTX > MAX_HSC env + 1)
    (hc : toUint8 ((w.sched.halfSecondsToNextFHT8VTX : Int) - 1) = 0) :
    FHT8VPollSyncAndTX_First env dtx w
      = (false,
          { sched := { w.sched with
              halfSecondCount := 0,
              FHT8V_isValveOpen :=
                decide (env.getTRVPercentOpen ≥ env.FHT8V_MIN_VALVE_PC_REALLY_OPEN),
              halfSecondsToNextFHT8VTX := FHT8VTXGapHalfSeconds2 env env.FHT8VGetHC2 0 },
            radio := FHT8VTXFHTQueueAndSendCmd env w.sched.FHT8VTXCommandArea dtx w.radio }) := by
  obtain ⟨⟨synced, isOpen, ss, c, hsc, area⟩, radio⟩ := w
  simp only at hs hg hc
  subst hs
  simp [FHT8VPollSyncAndTX_First, hg, hc, valveSettingTX, setFHT8V_isValveOpen]

/-- The call `FHT8VPollSyncAndTX_Next` when the counter does not reach 0. -/
theorem FHT8VPollSyncAndTX_Next_count (env : Env) (dtx : Bool) (w : World)
    (hs : w.sched.syncedWithFHT8V = true)
    (hc : toUint8 ((w.sched.halfSecondsToNextFHT8VTX : Int) - 1) ≠ 0) :
    FHT8VPollSyncAndTX_Next env dtx w
      = (true, { w with sched := { w.sched with
          halfSecondCount := toUint8 ((w.sched.halfSecondCount : Int) + 1),
          halfSecondsToNextFHT8VTX :=
            toUint8 ((w.sched.halfSecondsToNextFHT8VTX : Int) - 1) } }) := by
  obtain ⟨⟨synced, isOpen, ss, c, hsc, area⟩, radio⟩ := w
  simp only at hs hc
  subst hs
  have hc2 : ¬ (0 = toUint8 ((c : Int) - 1)) := fun e => hc e.symm
  simp [FHT8VPollSyncAndTX_Next, hc2]

/-- The call `FHT8VPollSyncAndTX_Next` when the counter reaches 0: the buffered frame is
sent. -/
theorem FHT8VPollSyncAndTX_Next_tx (env : Env) (dtx : Bool) (w : World)
    (hs : w.sched.syncedWithFHT8V = true)
    (hc : toUint8 ((w.sched.halfSecondsToNextFHT8VTX : Int) - 1) = 0) :
    FHT8VPollSyncAndTX_Next env dtx w
      = (false,
          { sched := { w.sched with
              halfSecondCount := toUint8 ((w.sched.halfSecondCount : Int) + 1),
              FHT8V_isValveOpen :=
                decide (env.getTRVPercentOpen ≥ env.FHT8V_MIN_VALVE_PC_REALLY_OPEN),
              halfSecondsToNextFHT8VTX :=
                FHT8VTXGapHalfSeconds2 env env.FHT8VGetHC2
                  (toUint8 ((w.sched.halfSecondCount : Int) + 1)) },
            radio := FHT8VTXFHTQueueAndSendCmd env w.sched.FHT8VTXCommandArea dtx
              (sleepUntilSubCycleTimeOptionalRX env w.radio) }) := by
  obtain ⟨⟨synced, isOpen, ss, c, hsc, area⟩, radio⟩ := w
  simp only at hs hc
  subst hs
  simp [FHT8VPollSyncAndTX_Next, hc, valveSettingTX, setFHT8V_isValveOpen]

theorem land_7_le (x : Nat) : x &&& 7 ≤ 7 := Nat.and_le_right

theorem FHT8VTXGapHalfSeconds_eq (hc2 : Nat) :
    FHT8VTXGapHalfSeconds hc2 = (hc2 &&& 7) + 230 := by
  have := land_7_le hc2
  unfold FHT8VTXGapHalfSeconds toUint8
  omega

theorem MAX_HSC_cases (env : Env) : MAX_HSC env = 1 ∨ MAX_HSC env = 3 := by
  unfold MAX_HSC
  split <;> simp

theorem FHT8VTXGapHalfSeconds2_eq (env : Env) (hc2 h : Nat) (hh : h ≤ MAX_HSC env) :
    FHT8VTXGapHalfSeconds2 env hc2 h = (hc2 &&& 7) + 230 - (MAX_HSC env - h) := by
  have := land_7_le hc2
  have hm := MAX_HSC_cases env
  unfold FHT8VTXGapHalfSeconds2
  rw [FHT8VTXGapHalfSeconds_eq]
  unfold toUint8
  omega

/-- The terminator written by the encoder sits right after the frame. -/
theorem encode_terminator_at_txFrame_length (buf : Nat → Nat) (c : fht8v_msg_t) :
    (FHT8VCreate200usBitStreamBptr buf 0 c).1 (txFrame c).length = 0xff := by
  unfold txFrame
  rw [bytesBetween_length]
  simp only [FHT8VCreate200usBitStreamBptr_eq_packFrame]
  obtain ⟨a1, _, _, _⟩ := packFrame_spec zeroBuf 0 (appendedBodyBits c)
  obtain ⟨b1, _, b3, _⟩ := packFrame_spec buf 0 (appendedBodyBits c)
  have e : (packFrame zeroBuf 0 (appendedBodyBits c)).2 - 0
      = (packFrame buf 0 (appendedBodyBits c)).2 := by omega
  rw [e]
  exact b3

/-- When `doSync` returns false with the local valve enabled. -/
theorem doSync_returns_false_iff (env : Env) (dtx : Bool) (w : World)
    (he : env.localFHT8VTRVEnabled = true)
    (hss : w.sched.syncStateFHT8V < 256) (hhs : w.sched.halfSecondsToNextFHT8VTX < 256)
    (hb1 : env.FHT8VGetHC1 < 256) (hb2 : env.FHT8VGetHC2 < 256)
    (hsize : 46 ≤ env.FHT8V_200US_BIT_STREAM_FRAME_BUF_SIZE) :
    (doSync env dtx w).1 = false ↔
      (w.sched.syncStateFHT8V = 2 ∨
        (w.sched.syncStateFHT8V = 1 ∧ w.sched.halfSecondsToNextFHT8VTX = 1)) := by
  rcases Nat.lt_or_ge w.sched.syncStateFHT8V 3 with hlt | hge
  · rcases Nat.lt_or_ge w.sched.syncStateFHT8V 1 with h0 | h1
    · have h0 : w.sched.syncStateFHT8V = 0 := by omega
      rw [doSync_zero env dtx w he h0]
      obtain ⟨r1, _, _⟩ := doSync_burst_odd env dtx
        { w with sched := { w.sched with syncStateFHT8V := 241 } } he (by simp) (by simp)
        (by simp) hb1 hb2 hsize
      rw [r1]
      simp
      omega
    · rcases Nat.lt_or_ge w.sched.syncStateFHT8V 2 with h1b | h2
      · have h1 : w.sched.syncStateFHT8V = 1 := by omega
        by_cases hc : w.sched.halfSecondsToNextFHT8VTX = 1
        · have hz : toUint8 ((w.sched.halfSecondsToNextFHT8VTX : Int) - 1) = 0 := by
            rw [hc]; decide
          obtain ⟨r1, _, _⟩ := doSync_final env dtx w he h1 hz hb1 hb2 hsize
          rw [r1]
          simp [h1, hc]
        · have hz : toUint8 ((w.sched.halfSecondsToNextFHT8VTX : Int) - 1) ≠ 0 := by
            unfold toUint8
            omega
          rw [doSync_wait env dtx w he h1 hz]
          simp [h1, hc]
      · have h2 : w.sched.syncStateFHT8V = 2 := by omega
        rw [doSync_transition env dtx w he h2]
        simp [h2]
  · rcases Nat.mod_two_eq_zero_or_one w.sched.syncStateFHT8V with hev | hodd
    · rw [doSync_burst_even env dtx w he hge hss hev]
      simp
      omega
    · obtain ⟨r1, _, _⟩ := doSync_burst_odd env dtx w he hge hss hodd hb1 hb2 hsize
      rw [r1]
      simp
      omega

/-! ## Scheduler lemmas: the polling protocol -/

theorem pollSlots_succ (env : Env) (dtx : Bool) (n t : Nat) (s : Bool × World) :
    pollSlots env dtx (n + 1) t s
      = pollSlot env dtx ((t + n) % (MAX_HSC env + 1)) (pollSlots env dtx n t s) := by
  induction n generalizing t s with
  | zero => rfl
  | succ n ih =>
    rw [pollSlots, ih]
    have e : t + 1 + n = t + (n + 1) := by omega
    rw [e]
    rfl

theorem pollSlots_add (env : Env) (dtx : Bool) (a b t : Nat) (s : Bool × World) :
    pollSlots env dtx (a + b) t s
      = pollSlots env dtx b (t + a) (pollSlots env dtx a t s) := by
  induction a generalizing t s with
  | zero => simp [pollSlots]
  | succ a ih =>
    have e : a + 1 + b = (a + b) + 1 := by omega
    rw [e, pollSlots, ih, pollSlots]
    have e2 : t + 1 + a = t + (a + 1) := by omega
    rw [e2]

theorem pollSlot_idle (env : Env) (dtx : Bool) (slot : Nat) (w : World) (h : slot ≠ 0) :
    pollSlot env dtx slot (false, w) = (false, w) := by
  simp [pollSlot, h]

theorem pollSlot_first (env : Env) (dtx : Bool) (s : Bool × World) :
    pollSlot env dtx 0 s = FHT8VPollSyncAndTX_First env dtx s.2 := by
  simp [pollSlot]

theorem pollSlot_next (env : Env) (dtx : Bool) (slot : Nat) (w : World) (h : slot ≠ 0) :
    pollSlot env dtx slot (true, w) = FHT8VPollSyncAndTX_Next env dtx w := by
  simp [pollSlot, h]

/-- One slot of the polling protocol in the final wait: the sync-final frame goes
out in the slot where `slotsToNextTX` is 1, and before that each slot takes one
off `slotsToNextTX` and transmits nothing. -/
theorem pollSlot_wait (env : Env) (dtx : Bool) (t : Nat) (s : Bool × World)
    (he : env.localFHT8VTRVEnabled = true)
    (hb1 : env.FHT8VGetHC1 < 256) (hb2 : env.FHT8VGetHC2 < 256)
    (hsize : 46 ≤ env.FHT8V_200US_BIT_STREAM_FRAME_BUF_SIZE)
    (hu : s.2.sched.syncedWithFHT8V = false) (h1 : s.2.sched.syncStateFHT8V = 1)
    (hc1 : 1 ≤ s.2.sched.halfSecondsToNextFHT8VTX)
    (hc : s.2.sched.halfSecondsToNextFHT8VTX < 256) :
    (slotsToNextTX env t s = 1 →
        (pollSlot env dtx (t % (MAX_HSC env + 1)) s).2.sched.syncedWithFHT8V = true ∧
        framesSent (pollSlot env dtx (t % (MAX_HSC env + 1)) s).2.radio
          = framesSent s.2.radio ++ [txFrame ⟨env.FHT8VGetHC1, env.FHT8VGetHC2, 0x20, 0⟩]) ∧
      (slotsToNextTX env t s ≠ 1 →
        (pollSlot env dtx (t % (MAX_HSC env + 1)) s).2.sched.syncedWithFHT8V = false ∧
        (pollSlot env dtx (t % (MAX_HSC env + 1)) s).2.sched.syncStateFHT8V = 1 ∧
        1 ≤ (pollSlot env dtx (t % (MAX_HSC env + 1)) s).2.sched.halfSecondsToNextFHT8VTX ∧
        (pollSlot env dtx (t % (MAX_HSC env + 1)) s).2.sched.halfSecondsToNextFHT8VTX < 256 ∧
        framesSent (pollSlot env dtx (t % (MAX_HSC env + 1)) s).2.radio
          = framesSent s.2.radio ∧
        slotsToNextTX env (t + 1) (pollSlot env dtx (t % (MAX_HSC env + 1)) s) + 1
          = slotsToNextTX env t s) := by
  obtain ⟨b, w⟩ := s
  simp only at hu h1 hc1 hc
  -- what a call does, whichever entry point makes it
  have call : ∀ w1 : World, w1.sched.syncStateFHT8V = 1 →
      w1.sched.syncedWithFHT8V = false →
      w1.sched.halfSecondsToNextFHT8VTX = w.sched.halfSecondsToNextFHT8VTX →
      w1.radio = w.radio →
      (w.sched.halfSecondsToNextFHT8VTX = 1 →
        (doSync env dtx w1).2.sched.syncedWithFHT8V = true ∧
        framesSent (doSync env dtx w1).2.radio
          = framesSent w.radio ++ [txFrame ⟨env.FHT8VGetHC1, env.FHT8VGetHC2, 0x20, 0⟩]) ∧
      (w.sched.halfSecondsToNextFHT8VTX ≠ 1 →
        (doSync env dtx w1).1 = true ∧
        (doSync env dtx w1).2.sched.syncedWithFHT8V = false ∧
        (doSync env dtx w1).2.sched.syncStateFHT8V = 1 ∧
        (doSync env dtx w1).2.sched.halfSecondsToNextFHT8VTX
          = w.sched.halfSecondsToNextFHT8VTX - 1 ∧
        framesSent (doSync env dtx w1).2.radio = framesSent w.radio) := by
    intro w1 e1 eu e2 e3
    constructor
    · intro hone
      have hz : toUint8 ((w1.sched.halfSecondsToNextFHT8VTX : Int) - 1) = 0 := by
        rw [e2, hone]; decide
      obtain ⟨_, a2, a3⟩ := doSync_final env dtx w1 he e1 hz hb1 hb2 hsize
      rw [a2, a3, e3]
      exact ⟨rfl, rfl⟩
    · intro hne
      have hz : toUint8 ((w1.sched.halfSecondsToNextFHT8VTX : Int) - 1) ≠ 0 := by
        rw [e2]; unfold toUint8; omega
      rw [doSync_wait env dtx w1 he e1 hz]
      have e : toUint8 ((w1.sched.halfSecondsToNextFHT8VTX : Int) - 1)
          = w.sched.halfSecondsToNextFHT8VTX - 1 := by
        rw [e2]; exact toUint8_pred _ hc1 hc
      simp [e, e1, eu, e3]
  have hF := FHT8VPollSyncAndTX_First_unsynced env dtx w hu
  have hN := FHT8VPollSyncAndTX_Next_unsynced env dtx w hu
  obtain ⟨cF1, cF2⟩ := call { w with sched := { w.sched with halfSecondCount := 0 } }
    h1 hu rfl rfl
  obtain ⟨cN1, cN2⟩ := call { w with sched := { w.sched with
    halfSecondCount := toUint8 ((w.sched.halfSecondCount : Int) + 1) } } h1 hu rfl rfl
  rw [← hF] at cF1 cF2
  rw [← hN] at cN1 cN2
  have hm := MAX_HSC_cases env
  unfold slotsToNextTX
  simp only
  by_cases hσ : t % (MAX_HSC env + 1) = 0
  · rw [hσ, pollSlot_first]
    simp only [ne_eq, not_true_eq_false, false_and, if_false, Nat.add_zero]
    refine ⟨cF1, ?_⟩
    intro hne
    obtain ⟨r1, r2, r3, r4, r5⟩ := cF2 hne
    refine ⟨r2, r3, by omega, by omega, r5, ?_⟩
    rw [r1, r4]
    simp
    omega
  · cases b
    · rw [pollSlot_idle env dtx _ w hσ, if_pos ⟨hσ, rfl⟩]
      have hlt : t % (MAX_HSC env + 1) < MAX_HSC env + 1 := Nat.mod_lt _ (by omega)
      constructor
      · intro h
        omega
      · intro _
        refine ⟨hu, h1, hc1, hc, rfl, ?_⟩
        simp only [eq_self_iff_true, and_true]
        generalize MAX_HSC env = M at *
        rcases hm with hm | hm <;> subst hm <;> split_ifs <;> omega
    · rw [pollSlot_next env dtx _ w hσ]
      simp only [ne_eq, hσ, not_false_eq_true, true_and, Bool.true_eq_false, if_false,
        Nat.add_zero]
      refine ⟨cN1, ?_⟩
      intro hne
      obtain ⟨r1, r2, r3, r4, r5⟩ := cN2 hne
      refine ⟨r2, r3, by omega, by omega, r5, ?_⟩
      rw [r1, r4]
      simp
      omega

/-- The final wait under the polling protocol: nothing is sent and the scheduler
stays unsynchronised for `slotsToNextTX - 1` slots, and the sync-final frame is
sent in the next one. -/
theorem pollSlots_wait (env : Env) (dtx : Bool)
    (he : env.localFHT8VTRVEnabled = true)
    (hb1 : env.FHT8VGetHC1 < 256) (hb2 : env.FHT8VGetHC2 < 256)
    (hsize : 46 ≤ env.FHT8V_200US_BIT_STREAM_FRAME_BUF_SIZE) (r : Nat) :
    ∀ (t : Nat) (s : Bool × World), s.2.sched.syncedWithFHT8V = false →
      s.2.sched.syncStateFHT8V = 1 → 1 ≤ s.2.sched.halfSecondsToNextFHT8VTX →
      s.2.sched.halfSecondsToNextFHT8VTX < 256 → slotsToNextTX env t s = r + 1 →
      (∀ n, n ≤ r →
        (pollSlots env dtx n t s).2.sched.syncedWithFHT8V = false ∧
        framesSent (pollSlots env dtx n t s).2.radio = framesSent s.2.radio) ∧
      (pollSlots env dtx (r + 1) t s).2.sched.syncedWithFHT8V = true ∧
      framesSent (pollSlots env dtx (r + 1) t s).2.radio
        = framesSent s.2.radio ++ [txFrame ⟨env.FHT8VGetHC1, env.FHT8VGetHC2, 0x20, 0⟩] := by
  induction r with
  | zero =>
    intro t s hu h1 hc1 hc hrem
    obtain ⟨st1, _⟩ := pollSlot_wait env dtx t s he hb1 hb2 hsize hu h1 hc1 hc
    obtain ⟨a1, a2⟩ := st1 hrem
    refine ⟨?_, ?_, ?_⟩
    · intro n hn
      have : n = 0 := by omega
      subst this
      exact ⟨hu, rfl⟩
    · exact a1
    · exact a2
  | succ r ih =>
    intro t s hu h1 hc1 hc hrem
    obtain ⟨_, st2⟩ := pollSlot_wait env dtx t s he hb1 hb2 hsize hu h1 hc1 hc
    obtain ⟨b1, b2, b3, b4, b5, b6⟩ := st2 (by omega)
    obtain ⟨i1, i2, i3⟩ := ih (t + 1) _ b1 b2 b3 b4 (by omega)
    refine ⟨?_, ?_, ?_⟩
    · intro n hn
      cases n with
      | zero => exact ⟨hu, rfl⟩
      | succ n =>
        obtain ⟨c1, c2⟩ := i1 n (by omega)
        exact ⟨c1, c2.trans b5⟩
    · exact i2
    · exact i3.trans (by rw [b5])

/-- The slot of the polling protocol in which the burst countdown goes from 2 to
1: nothing is sent, the rest of the cycle will be skipped, and the sync-final
frame is due (hc2 & 7) + 8 slots later. -/
theorem pollSlot_transition (env : Env) (dtx : Bool) (t : Nat) (w : World)
    (he : env.localFHT8VTRVEnabled = true)
    (hu : w.sched.syncedWithFHT8V = false) (h2 : w.sched.syncStateFHT8V = 2)
    (hh : t % (MAX_HSC env + 1) ≠ 0 → w.sched.halfSecondCount + 1 = t % (MAX_HSC env + 1)) :
    (pollSlot env dtx (t % (MAX_HSC env + 1)) (true, w)).1 = false ∧
      (pollSlot env dtx (t % (MAX_HSC env + 1)) (true, w)).2.sched.syncedWithFHT8V = false ∧
      (pollSlot env dtx (t % (MAX_HSC env + 1)) (true, w)).2.sched.syncStateFHT8V = 1 ∧
      (pollSlot env dtx (t % (MAX_HSC env + 1)) (true, w)).2.radio = w.radio ∧
      1 ≤ (pollSlot env dtx (t % (MAX_HSC env + 1))
        (true, w)).2.sched.halfSecondsToNextFHT8VTX ∧
      (pollSlot env dtx (t % (MAX_HSC env + 1))
        (true, w)).2.sched.halfSecondsToNextFHT8VTX < 256 ∧
      slotsToNextTX env (t + 1) (pollSlot env dtx (t % (MAX_HSC env + 1)) (true, w))
        = (env.FHT8VGetHC2 &&& 7) + 8 := by
  have hF := FHT8VPollSyncAndTX_First_unsynced env dtx w hu
  have hN := FHT8VPollSyncAndTX_Next_unsynced env dtx w hu
  have t1 := doSync_transition env dtx
    { w with sched := { w.sched with halfSecondCount := 0 } } he h2
  have t2 := doSync_transition env dtx
    { w with sched := { w.sched with
        halfSecondCount := toUint8 ((w.sched.halfSecondCount : Int) + 1) } } he h2
  rw [← hF] at t1
  rw [← hN] at t2
  have hm := MAX_HSC_cases env
  have h7 := land_7_le env.FHT8VGetHC2
  have hlt : t % (MAX_HSC env + 1) < MAX_HSC env + 1 := Nat.mod_lt _ (by omega)
  unfold slotsToNextTX
  by_cases hσ : t % (MAX_HSC env + 1) = 0
  · rw [hσ, pollSlot_first, t1]
    simp only [eq_self_iff_true, and_true, true_and]
    unfold toUint8
    generalize MAX_HSC env = M at *
    rcases hm with hm | hm <;> subst hm <;>
      refine ⟨hu, by omega, by omega, ?_⟩ <;> split_ifs <;> omega
  · rw [pollSlot_next env dtx _ w hσ, t2]
    have hh2 := hh hσ
    simp only [eq_self_iff_true, and_true, true_and]
    unfold toUint8
    generalize MAX_HSC env = M at *
    rcases hm with hm | hm <;> subst hm <;>
      refine ⟨hu, by omega, by omega, ?_⟩ <;> split_ifs <;> omega

/-- A slot of the polling protocol in the burst at a countdown of at least 3. -/
theorem pollSlot_burst (env : Env) (dtx : Bool) (t : Nat) (w : World)
    (he : env.localFHT8VTRVEnabled = true)
    (hb1 : env.FHT8VGetHC1 < 256) (hb2 : env.FHT8VGetHC2 < 256)
    (hsize : 46 ≤ env.FHT8V_200US_BIT_STREAM_FRAME_BUF_SIZE)
    (hu : w.sched.syncedWithFHT8V = false) (h3 : 3 ≤ w.sched.syncStateFHT8V)
    (h256 : w.sched.syncStateFHT8V < 256)
    (hh : t % (MAX_HSC env + 1) ≠ 0 → w.sched.halfSecondCount + 1 = t % (MAX_HSC env + 1)) :
    (pollSlot env dtx (t % (MAX_HSC env + 1)) (true, w)).1 = true ∧
      (pollSlot env dtx (t % (MAX_HSC env + 1)) (true, w)).2.sched.syncedWithFHT8V = false ∧
      (pollSlot env dtx (t % (MAX_HSC env + 1)) (true, w)).2.sched.syncStateFHT8V
        = w.sched.syncStateFHT8V - 1 ∧
      (pollSlot env dtx (t % (MAX_HSC env + 1)) (true, w)).2.sched.halfSecondCount
        = t % (MAX_HSC env + 1) ∧
      framesSent (pollSlot env dtx (t % (MAX_HSC env + 1)) (true, w)).2.radio
        = framesSent w.radio ++
          (if w.sched.syncStateFHT8V % 2 = 1
            then [txFrame ⟨env.FHT8VGetHC1, env.FHT8VGetHC2, 0x2c, w.sched.syncStateFHT8V⟩]
            else []) := by
  have call : ∀ w1 : World, w1.sched.syncStateFHT8V = w.sched.syncStateFHT8V →
      w1.sched.syncedWithFHT8V = false → w1.radio = w.radio →
      (doSync env dtx w1).1 = true ∧
      (doSync env dtx w1).2.sched.syncedWithFHT8V = false ∧
      (doSync env dtx w1).2.sched.syncStateFHT8V = w.sched.syncStateFHT8V - 1 ∧
      (doSync env dtx w1).2.sched.halfSecondCount = w1.sched.halfSecondCount ∧
      framesSent (doSync env dtx w1).2.radio
        = framesSent w.radio ++
          (if w.sched.syncStateFHT8V % 2 = 1
            then [txFrame ⟨env.FHT8VGetHC1, env.FHT8VGetHC2, 0x2c, w.sched.syncStateFHT8V⟩]
            else []) := by
    intro w1 e1 eu e3
    rcases Nat.mod_two_eq_zero_or_one w.sched.syncStateFHT8V with hev | hodd
    · rw [doSync_burst_even env dtx w1 he (by omega) (by omega) (by omega)]
      simp [hev, eu, e1, e3]
    · obtain ⟨a1, a2, a3⟩ := doSync_burst_odd env dtx w1 he (by omega) (by omega) (by omega)
        hb1 hb2 hsize
      rw [a1, a2, a3, e3, e1]
      simp [hodd, eu]
  have hF := FHT8VPollSyncAndTX_First_unsynced env dtx w hu
  have hN := FHT8VPollSyncAndTX_Next_unsynced env dtx w hu
  by_cases hσ : t % (MAX_HSC env + 1) = 0
  · rw [hσ, pollSlot_first, hF]
    exact call _ rfl hu rfl
  · rw [pollSlot_next env dtx _ w hσ, hN]
    obtain ⟨c1, c2, c3, c4, c5⟩ := call { w with sched := { w.sched with
      halfSecondCount := toUint8 ((w.sched.halfSecondCount : Int) + 1) } } rfl hu rfl
    refine ⟨c1, c2, c3, ?_, c5⟩
    rw [c4]
    have hh2 := hh hσ
    have hm := MAX_HSC_cases env
    have hlt : t % (MAX_HSC env + 1) < MAX_HSC env + 1 := Nat.mod_lt _ (by omega)
    show toUint8 ((w.sched.halfSecondCount : Int) + 1) = t % (MAX_HSC env + 1)
    unfold toUint8
    omega

/-- The burst under the polling protocol: `j` slots from a countdown of at least
`j + 2` send the sync-step frames of the odd countdown values passed, in order. -/
theorem pollSlots_burst (env : Env) (dtx : Bool)
    (he : env.localFHT8VTRVEnabled = true)
    (hb1 : env.FHT8VGetHC1 < 256) (hb2 : env.FHT8VGetHC2 < 256)
    (hsize : 46 ≤ env.FHT8V_200US_BIT_STREAM_FRAME_BUF_SIZE) (t : Nat) (w : World)
    (hu : w.sched.syncedWithFHT8V = false) (h256 : w.sched.syncStateFHT8V < 256)
    (hh : t % (MAX_HSC env + 1) ≠ 0 → w.sched.halfSecondCount + 1 = t % (MAX_HSC env + 1))
    (j : Nat) (hj : j + 2 ≤ w.sched.syncStateFHT8V) :
    (pollSlots env dtx j t (true, w)).1 = true ∧
      (pollSlots env dtx j t (true, w)).2.sched.syncedWithFHT8V = false ∧
      (pollSlots env dtx j t (true, w)).2.sched.syncStateFHT8V = w.sched.syncStateFHT8V - j ∧
      ((t + j) % (MAX_HSC env + 1) ≠ 0 →
        (pollSlots env dtx j t (true, w)).2.sched.halfSecondCount + 1
          = (t + j) % (MAX_HSC env + 1)) ∧
      framesSent (pollSlots env dtx j t (true, w)).2.radio
        = framesSent w.radio ++
          (((List.range j).map (fun i => w.sched.syncStateFHT8V - i)).filter
            (fun e => decide (e % 2 = 1))).map
            (fun e => txFrame ⟨env.FHT8VGetHC1, env.FHT8VGetHC2, 0x2c, e⟩) := by
  induction j with
  | zero =>
    refine ⟨rfl, hu, rfl, hh, ?_⟩
    simp [pollSlots]
  | succ j ih =>
    obtain ⟨i1, i2, i3, i4, i5⟩ := ih (by omega)
    rw [pollSlots_succ]
    generalize pollSlots env dtx j t (true, w) = sj at *
    obtain ⟨bj, wj⟩ := sj
    simp only at i1 i2 i3 i4 i5
    subst i1
    obtain ⟨c1, c2, c3, c4, c5⟩ := pollSlot_burst env dtx (t + j) wj he hb1 hb2 hsize i2
      (by omega) (by omega) i4
    refine ⟨c1, c2, by omega, ?_, ?_⟩
    · intro hne
      rw [c4]
      have hm := MAX_HSC_cases env
      have e : t + (j + 1) = t + j + 1 := by omega
      rw [e] at hne ⊢
      generalize MAX_HSC env = M at *
      rcases hm with hm | hm <;> subst hm <;> omega
    · rw [c5, i5, i3, List.range_succ, List.map_append, List.filter_append, List.map_append,
        List.append_assoc]
      congr 1
      congr 1
      by_cases hodd : (w.sched.syncStateFHT8V - j) % 2 = 1
      · simp [hodd]
      · simp [hodd]

theorem burst_extensions :
    241 :: ((List.range 238).map (fun i => 240 - i)).filter (fun e => decide (e % 2 = 1))
      = (List.range 120).map (fun i => 241 - 2 * i) := by
  decide

/-- One slot of the polling protocol when synchronised.  The flag, the byte range
of the counter, the TX buffer and the consistency of the slot counter are kept;
and either nothing is sent, in which case (counter at least 1, buffer not empty)
`slotsToNextTX` was not 1 and drops by one; or the buffered frame is sent,
`slotsToNextTX` was 1 and is (hc2 & 7) + 230 afterwards. -/
theorem pollSlot_synced (env : Env) (dtx : Bool) (t : Nat) (s : Bool × World)
    (hs : s.2.sched.syncedWithFHT8V = true)
    (hc : s.2.sched.halfSecondsToNextFHT8VTX < 256)
    (hh : t % (MAX_HSC env + 1) ≠ 0 → s.1 = true →
      s.2.sched.halfSecondCount + 1 = t % (MAX_HSC env + 1)) :
    (pollSlot env dtx (t % (MAX_HSC env + 1)) s).2.sched.syncedWithFHT8V = true ∧
      (pollSlot env dtx (t % (MAX_HSC env + 1)) s).2.sched.halfSecondsToNextFHT8VTX < 256 ∧
      (pollSlot env dtx (t % (MAX_HSC env + 1)) s).2.sched.FHT8VTXCommandArea
        = s.2.sched.FHT8VTXCommandArea ∧
      ((t + 1) % (MAX_HSC env + 1) ≠ 0 →
        (pollSlot env dtx (t % (MAX_HSC env + 1)) s).1 = true →
        (pollSlot env dtx (t % (MAX_HSC env + 1)) s).2.sched.halfSecondCount + 1
          = (t + 1) % (MAX_HSC env + 1)) ∧
      ((framesSent (pollSlot env dtx (t % (MAX_HSC env + 1)) s).2.radio
            = framesSent s.2.radio ∧
          (1 ≤ s.2.sched.halfSecondsToNextFHT8VTX →
            s.2.sched.FHT8VTXCommandArea 0 ≠ 0xff →
            slotsToNextTX env t s ≠ 1 ∧
            slotsToNextTX env (t + 1) (pollSlot env dtx (t % (MAX_HSC env + 1)) s) + 1
              = slotsToNextTX env t s ∧
            1 ≤ (pollSlot env dtx (t % (MAX_HSC env + 1))
              s).2.sched.halfSecondsToNextFHT8VTX)) ∨
        (framesSent (pollSlot env dtx (t % (MAX_HSC env + 1)) s).2.radio
            = framesSent s.2.radio
              ++ [frameToFF s.2.sched.FHT8VTXCommandArea
                    env.FHT8V_200US_BIT_STREAM_FRAME_BUF_SIZE] ∧
          s.2.sched.FHT8VTXCommandArea 0 ≠ 0xff ∧
          1 ≤ (pollSlot env dtx (t % (MAX_HSC env + 1))
            s).2.sched.halfSecondsToNextFHT8VTX ∧
          slotsToNextTX env (t + 1) (pollSlot env dtx (t % (MAX_HSC env + 1)) s)
            = (env.FHT8VGetHC2 &&& 7) + 230 ∧
          slotsToNextTX env t s = 1)) := by
  obtain ⟨b, w⟩ := s
  simp only at hs hc hh
  have hm := MAX_HSC_cases env
  have h7 := land_7_le env.FHT8VGetHC2
  have hlt : t % (MAX_HSC env + 1) < MAX_HSC env + 1 := Nat.mod_lt _ (by omega)
  have g0 := FHT8VTXGapHalfSeconds2_eq env env.FHT8VGetHC2 0 (Nat.zero_le _)
  unfold slotsToNextTX
  by_cases hσ : t % (MAX_HSC env + 1) = 0
  · rw [hσ, pollSlot_first]
    simp only
    by_cases hg : w.sched.halfSecondsToNextFHT8VTX > MAX_HSC env + 1
    · rw [FHT8VPollSyncAndTX_First_skip env dtx w hs hg]
      have e : toUint8 ((w.sched.halfSecondsToNextFHT8VTX : Int) - ((MAX_HSC env : Int) + 1))
          = w.sched.halfSecondsToNextFHT8VTX - (MAX_HSC env + 1) := by
        unfold toUint8
        omega
      simp only [e]
      refine ⟨hs, by omega, (by first | rfl | trivial), ?_, Or.inl ⟨(by first | rfl | trivial), ?_⟩⟩
      · intro _ h
        exact absurd h (by simp)
      · intro _ _
        simp only [eq_self_iff_true, and_true]
        generalize MAX_HSC env = M at *
        rcases hm with hm | hm <;> subst hm <;>
          refine ⟨?_, ?_, ?_⟩ <;> (try split_ifs) <;> omega
    · by_cases hz : toUint8 ((w.sched.halfSecondsToNextFHT8VTX : Int) - 1) = 0
      · rw [FHT8VPollSyncAndTX_First_tx env dtx w hs hg hz]
        have hone : w.sched.halfSecondsToNextFHT8VTX = 1 := by
          unfold toUint8 at hz
          omega
        simp only [g0]
        refine ⟨hs, by omega, (by first | rfl | trivial), ?_, ?_⟩
        · intro _ h
          exact absurd h (by simp)
        · by_cases hempty : w.sched.FHT8VTXCommandArea 0 = 0xff
          · left
            rw [FHT8VTXFHTQueueAndSendCmd_empty env _ dtx _ hempty]
            exact ⟨rfl, fun _ hne => absurd hempty hne⟩
          · right
            rw [framesSent_TX env _ dtx _ hempty]
            refine ⟨rfl, hempty, by omega, ?_, ?_⟩
            · simp only [eq_self_iff_true, and_true]
              generalize MAX_HSC env = M at *
              rcases hm with hm | hm <;> subst hm <;> (try split_ifs) <;> omega
            · simp [hone]
      · rw [FHT8VPollSyncAndTX_First_count env dtx w hs hg hz]
        simp only
        have e : toUint8 ((w.sched.halfSecondsToNextFHT8VTX : Int) - 1) < 256 := by
          unfold toUint8
          omega
        refine ⟨hs, e, (by first | rfl | trivial), ?_, Or.inl ⟨(by first | rfl | trivial), ?_⟩⟩
        · intro hne _
          generalize MAX_HSC env = M at *
          rcases hm with hm | hm <;> subst hm <;> omega
        · intro hc1 _
          unfold toUint8 at hz ⊢
          simp only [Bool.true_eq_false, and_false, if_false, ne_eq, not_true_eq_false,
            false_and]
          omega
  · cases b
    · rw [pollSlot_idle env dtx _ w hσ, if_pos ⟨hσ, rfl⟩]
      refine ⟨hs, hc, rfl, ?_, Or.inl ⟨rfl, ?_⟩⟩
      · intro _ h
        exact absurd h (by simp)
      · intro hc1 _
        simp only [eq_self_iff_true, and_true] at hc1 ⊢
        generalize MAX_HSC env = M at *
        rcases hm with hm | hm <;> subst hm <;>
          refine ⟨?_, ?_, hc1⟩ <;> (try split_ifs) <;> omega
    · rw [pollSlot_next env dtx _ w hσ]
      have hh2 := hh hσ rfl
      have ehsc : toUint8 ((w.sched.halfSecondCount : Int) + 1) = t % (MAX_HSC env + 1) := by
        unfold toUint8
        omega
      by_cases hz : toUint8 ((w.sched.halfSecondsToNextFHT8VTX : Int) - 1) = 0
      · rw [FHT8VPollSyncAndTX_Next_tx env dtx w hs hz]
        have hone : w.sched.halfSecondsToNextFHT8VTX = 1 := by
          unfold toUint8 at hz
          omega
        have g1 := FHT8VTXGapHalfSeconds2_eq env env.FHT8VGetHC2 (t % (MAX_HSC env + 1))
          (by omega)
        simp only [ehsc, g1]
        refine ⟨hs, by omega, (by first | rfl | trivial), ?_, ?_⟩
        · intro _ h
          exact absurd h (by simp)
        · by_cases hempty : w.sched.FHT8VTXCommandArea 0 = 0xff
          · left
            rw [FHT8VTXFHTQueueAndSendCmd_empty env _ dtx _ hempty, framesSent_sleep]
            exact ⟨rfl, fun _ hne => absurd hempty hne⟩
          · right
            rw [framesSent_TX env _ dtx _ hempty, framesSent_sleep]
            refine ⟨rfl, hempty, by omega, ?_, ?_⟩
            · simp only [eq_self_iff_true, and_true]
              generalize MAX_HSC env = M at *
              rcases hm with hm | hm <;> subst hm <;> (try split_ifs) <;> omega
            · simp [hone]
      · rw [FHT8VPollSyncAndTX_Next_count env dtx w hs hz]
        simp only [ehsc]
        have e : toUint8 ((w.sched.halfSecondsToNextFHT8VTX : Int) - 1) < 256 := by
          unfold toUint8
          omega
        refine ⟨hs, e, (by first | rfl | trivial), ?_, Or.inl ⟨(by first | rfl | trivial), ?_⟩⟩
        · intro hne _
          generalize MAX_HSC env = M at *
          rcases hm with hm | hm <;> subst hm <;> omega
        · intro hc1 _
          unfold toUint8 at hz ⊢
          simp only [Bool.true_eq_false, and_false, if_false, ne_eq, not_true_eq_false,
            false_and]
          omega

/-- Synchronised operation under the polling protocol keeps the flag, the byte
range of the counter, the TX buffer and the consistency of the slot counter over
any number of slots. -/
theorem pollSlots_synced_inv (env : Env) (dtx : Bool) (n : Nat) :
    ∀ (t : Nat) (s : Bool × World), s.2.sched.syncedWithFHT8V = true →
      s.2.sched.halfSecondsToNextFHT8VTX < 256 →
      (t % (MAX_HSC env + 1) ≠ 0 → s.1 = true →
        s.2.sched.halfSecondCount + 1 = t % (MAX_HSC env + 1)) →
      (pollSlots env dtx n t s).2.sched.syncedWithFHT8V = true ∧
      (pollSlots env dtx n t s).2.sched.halfSecondsToNextFHT8VTX < 256 ∧
      (pollSlots env dtx n t s).2.sched.FHT8VTXCommandArea = s.2.sched.FHT8VTXCommandArea ∧
      ((t + n) % (MAX_HSC env + 1) ≠ 0 → (pollSlots env dtx n t s).1 = true →
        (pollSlots env dtx n t s).2.sched.halfSecondCount + 1
          = (t + n) % (MAX_HSC env + 1)) := by
  induction n with
  | zero =>
    intro t s hs hc hh
    exact ⟨hs, hc, rfl, hh⟩
  | succ n ih =>
    intro t s hs hc hh
    obtain ⟨a1, a2, a3, a4, _⟩ := pollSlot_synced env dtx t s hs hc hh
    obtain ⟨i1, i2, i3, i4⟩ := ih (t + 1) _ a1 a2 a4
    have e : t + 1 + n = t + (n + 1) := by omega
    rw [e] at i4
    exact ⟨i1, i2, i3.trans a3, i4⟩

/-- Synchronised operation under the polling protocol with a non-empty buffer:
nothing is sent for `slotsToNextTX - 1` slots, and the buffered frame is sent in
the next one. -/
theorem pollSlots_synced_run (env : Env) (dtx : Bool) (r : Nat) :
    ∀ (t : Nat) (s : Bool × World), s.2.sched.syncedWithFHT8V = true →
      s.2.sched.halfSecondsToNextFHT8VTX < 256 →
      (t % (MAX_HSC env + 1) ≠ 0 → s.1 = true →
        s.2.sched.halfSecondCount + 1 = t % (MAX_HSC env + 1)) →
      1 ≤ s.2.sched.halfSecondsToNextFHT8VTX → s.2.sched.FHT8VTXCommandArea 0 ≠ 0xff →
      slotsToNextTX env t s = r + 1 →
      (∀ n, n ≤ r →
        framesSent (pollSlots env dtx n t s).2.radio = framesSent s.2.radio) ∧
      framesSent (pollSlots env dtx (r + 1) t s).2.radio
        = framesSent s.2.radio
          ++ [frameToFF s.2.sched.FHT8VTXCommandArea
                env.FHT8V_200US_BIT_STREAM_FRAME_BUF_SIZE] := by
  induction r with
  | zero =>
    intro t s hs hc hh hc1 hne hrem
    obtain ⟨_, _, _, _, a5⟩ := pollSlot_synced env dtx t s hs hc hh
    refine ⟨?_, ?_⟩
    · intro n hn
      have : n = 0 := by omega
      subst this
      rfl
    · rcases a5 with ⟨_, h⟩ | ⟨h, _⟩
      · exact absurd hrem (h hc1 hne).1
      · exact h
  | succ r ih =>
    intro t s hs hc hh hc1 hne hrem
    obtain ⟨a1, a2, a3, a4, a5⟩ := pollSlot_synced env dtx t s hs hc hh
    rcases a5 with ⟨hf, h⟩ | ⟨_, _, _, _, h⟩
    · obtain ⟨_, b2, b3⟩ := h hc1 hne
      obtain ⟨i1, i2⟩ := ih (t + 1) _ a1 a2 a4 b3 (by rw [a3]; exact hne) (by omega)
      refine ⟨?_, ?_⟩
      · intro n hn
        cases n with
        | zero => rfl
        | succ n => exact (i1 n (by omega)).trans hf
      · rw [a3, hf] at i2
        exact i2
    · omega

/-! ## Scheduler lemmas: transmissions on the air -/

theorem txFIFOCount_issue (r : RadioState) (op : RadioOp) :
    txFIFOCount (r.issue op) = txFIFOCount r + (if op = RadioOp.txFIFO then 1 else 0) := by
  unfold txFIFOCount RadioState.issue
  simp only [List.count_append, List.count_cons, List.count_nil]
  by_cases h : op = RadioOp.txFIFO
  · simp [h]
  · simp [h]

theorem txFIFOCount_setup (env : Env) (r : RadioState) :
    txFIFOCount (_SetupRFM22ToEavesdropOnFHT8V env r) = txFIFOCount r := by
  simp [_SetupRFM22ToEavesdropOnFHT8V, txFIFOCount_issue]

theorem txFIFOCount_setupTo (env : Env) (force : Bool) (r : RadioState) :
    txFIFOCount (SetupToEavesdropOnFHT8V env force r) = txFIFOCount r := by
  unfold SetupToEavesdropOnFHT8V
  split
  · rfl
  · rw [txFIFOCount_setup]
    rfl

theorem txFIFOCount_stop (force : Bool) (r : RadioState) :
    txFIFOCount (StopEavesdropOnFHT8V force r) = txFIFOCount r := by
  unfold StopEavesdropOnFHT8V
  split
  · rfl
  · rw [txFIFOCount_issue]
    simp [txFIFOCount]

theorem txFIFOCount_poll (env : Env) (r : RadioState) :
    txFIFOCount (FHT8VCallForHeatPoll env r).2 = txFIFOCount r := by
  unfold FHT8VCallForHeatPoll
  simp only
  split_ifs
  all_goals (try split)
  all_goals (try split_ifs)
  all_goals
    simp [txFIFOCount, _SetupRFM22ToEavesdropOnFHT8V, StopEavesdropOnFHT8V, RadioState.issue,
      List.count_append]
  all_goals (split_ifs <;> simp [List.count_append])

/-- A single (not double) transmission of a non-empty buffer puts one frame in the
FIFO and sends it once. -/
theorem txFIFOCount_TX_single (env : Env) (area : Nat → Nat) (r : RadioState)
    (h : area 0 ≠ 0xff) :
    txFIFOCount (FHT8VTXFHTQueueAndSendCmd env area false r) = txFIFOCount r + 1 := by
  have h2 : ¬ (0xff = area 0) := fun e => h e.symm
  unfold FHT8VTXFHTQueueAndSendCmd
  rw [if_neg h2]
  simp only
  cases env.inHubMode <;>
    simp [txFIFOCount_setupTo, txFIFOCount_stop, txFIFOCount_issue, txFIFOCount_poll]

/-! ## Receiver lemmas -/

/-- The receiver poll on a received frame (status bit 0x1000), when eavesdropping
with an empty latch and an active nIRQ line. -/
theorem FHT8VCallForHeatPoll_frame (env : Env) (r : RadioState) (inp : RxInput)
    (rest : List RxInput) (he : r.eavesdropping = true) (hn : env.nIRQNotLow = false)
    (hl : r.lastCallForHeatHC = 0xFFFF) (hrx : r.rx = inp :: rest)
    (hst : inp.status &&& 0x1000 ≠ 0) :
    FHT8VCallForHeatPoll env r =
      if preambleScan (receivedArea env r inp) 6 0 < 2 then
        (some false, _SetupRFM22ToEavesdropOnFHT8V env (afterRXFIFO env r inp rest))
      else
        match FHT8VDecodeBitStream (receivedArea env r inp)
            (preambleScan (receivedArea env r inp) 6 0)
            (env.FHT8V_200US_BIT_STREAM_FRAME_BUF_SIZE - 1) ⟨0, 0, 0, 0⟩ with
        | some (true, command) =>
          if 0x26 = command.command ∧
              command.extension ≥ env.FHT8V_MIN_VALVE_PC_REALLY_OPEN then
            (some true, StopEavesdropOnFHT8V false
              { afterRXFIFO env r inp rest with
                lastCallForHeatHC := ((command.hc1 <<< 8) ||| command.hc2) % 65536 })
          else (some true, afterRXFIFO env r inp rest)
        | some (false, _) =>
          (some false, _SetupRFM22ToEavesdropOnFHT8V env (afterRXFIFO env r inp rest))
        | none => (none, afterRXFIFO env r inp rest) := by
  obtain ⟨area, eav, latch, ops, rx⟩ := r
  simp only at he hl hrx
  subst he hl hrx
  unfold FHT8VCallForHeatPoll
  simp only [Bool.not_true, Bool.false_eq_true, if_false, hn, FHT8VCallForHeatHeard, ne_eq,
    not_true_eq_false, decide_False, List.headD_cons, hst, not_false_eq_true, if_true,
    RadioState.issue, List.tail_cons, FHT8VHubAcceptedHouseCode,
    List.append_assoc, List.singleton_append]
  rfl

/-- The receiver poll on a FIFO fault without a received frame. -/
theorem FHT8VCallForHeatPoll_fault (env : Env) (r : RadioState) (inp : RxInput)
    (rest : List RxInput) (he : r.eavesdropping = true) (hn : env.nIRQNotLow = false)
    (hl : r.lastCallForHeatHC = 0xFFFF) (hrx : r.rx = inp :: rest)
    (hst : inp.status &&& 0x1000 = 0) (hf : inp.status &&& 0x8000 ≠ 0) :
    FHT8VCallForHeatPoll env r
      = (some false, _SetupRFM22ToEavesdropOnFHT8V env (afterReadStatus r rest)) := by
  obtain ⟨area, eav, latch, ops, rx⟩ := r
  simp only at he hl hrx
  subst he hl hrx
  unfold FHT8VCallForHeatPoll
  simp only [Bool.not_true, Bool.false_eq_true, if_false, hn, FHT8VCallForHeatHeard, ne_eq,
    not_true_eq_false, decide_False, List.headD_cons, hst, hf, not_false_eq_true, if_true,
    RadioState.issue, List.tail_cons, afterReadStatus]

/-- The receiver poll does nothing while the latch holds a house code. -/
theorem FHT8VCallForHeatPoll_latched (env : Env) (r : RadioState)
    (hl : r.lastCallForHeatHC ≠ 0xFFFF) :
    FHT8VCallForHeatPoll env r = (some false, r) := by
  unfold FHT8VCallForHeatPoll
  have : FHT8VCallForHeatHeard r = true := by simp [FHT8VCallForHeatHeard, hl]
  simp only [this, if_true]
  split_ifs <;> rfl

theorem preambleScan_six (area : Nat → Nat) (h : ∀ i, i < 6 → area i = 0xcc) :
    preambleScan area 6 0 = 6 := by
  simp [preambleScan, h 0, h 1, h 2, h 3, h 4, h 5]

theorem preambleScan_lt_two_iff (area : Nat → Nat) :
    preambleScan area 6 0 < 2 ↔ (area 0 ≠ 0xcc ∨ area 1 ≠ 0xcc) := by
  by_cases e0 : area 0 = 0xcc
  · by_cases e1 : area 1 = 0xcc
    · simp only [preambleScan, e0, e1]
      split_ifs <;> simp_all
    · have n1 : ¬ (0xcc = area 1) := fun e => e1 e.symm
      simp only [preambleScan, e0]
      simp [e1, n1]
  · have n0 : ¬ (0xcc = area 0) := fun e => e0 e.symm
    simp only [preambleScan]
    simp [e0, n0]

theorem windowBits_congr (f g : Nat → Nat) (a last : Nat)
    (h : ∀ i, a ≤ i → i ≤ last → f i = g i) : windowBits f a last = windowBits g a last := by
  unfold windowBits bytesBetween
  congr 1
  apply List.map_congr_left
  intro i hi
  have : i < last + 1 - a := by simpa using hi
  exact h _ (by omega) (by omega)

/-- The decoder accepts any window that starts with the line code of some zero
bits, the start bit, the six units of a byte-valued command and a zero bit, and
returns that command. -/
theorem FHT8VDecodeBitStream_of_spec_body (buf : Nat → Nat) (bitStream lastByte z : Nat)
    (out c : fht8v_msg_t) (hc : c.IsBytes)
    (h : spec_encodeBits (List.replicate z false ++ [true] ++ spec_bodyBits c ++ [false])
      <+: windowBits buf bitStream lastByte) :
    FHT8VDecodeBitStream buf bitStream lastByte out = some (true, c) := by
  obtain ⟨h1, h2, h3, h4⟩ := hc
  have hk : spec_checksum c < 256 := Nat.mod_lt _ (by decide)
  have d1 := decodedUnit_spec_unitBits _ h1
  have d2 := decodedUnit_spec_unitBits _ h2
  have d3 := decodedUnit_spec_unitBits 0 (by decide)
  have d4 := decodedUnit_spec_unitBits _ h3
  have d5 := decodedUnit_spec_unitBits _ h4
  have d6 := decodedUnit_spec_unitBits _ hk
  have key := FHT8VDecodeBitStream_accepts buf bitStream lastByte z
    out (spec_unitBits c.hc1) (spec_unitBits c.hc2) (spec_unitBits 0) (spec_unitBits c.command)
    (spec_unitBits c.extension) (spec_unitBits (spec_checksum c)) []
    (by intro u hu
        simp only [List.mem_cons, List.mem_singleton, List.not_mem_nil, or_false] at hu
        rcases hu with rfl | rfl | rfl | rfl | rfl | rfl <;> exact spec_unitBits_length _)
    (by simp [d1, d2, d3, d4, d5, d6])
    (by rw [d1, d2, d3, d4, d5, d6]; simp [spec_checksum])
    (by rw [spec_encodeBits_append] at h
        simpa [spec_bodyBits, spec_encodeBits, List.append_assoc] using h)
  rw [key, d1, d2, d4, d5]

theorem compoundHC_lt (hc1 hc2 : Nat) (h1 : hc1 < 256) (h2 : hc2 < 256) :
    ((hc1 <<< 8) ||| hc2) % 65536 = (hc1 <<< 8) ||| hc2 := by
  apply Nat.mod_eq_of_lt
  have a : hc1 <<< 8 < 2 ^ 16 := by
    rw [Nat.shiftLeft_eq]
    omega
  have b : hc2 < 2 ^ 16 := by omega
  exact Nat.or_lt_two_pow a b

/-! ## Receiver lemmas: quiet poll and transmission -/

/-- The receiver poll when the status has neither the received-frame bit nor the
fault bit: control reaches the end of the function without a `return`. -/
theorem FHT8VCallForHeatPoll_quiet (env : Env) (r : RadioState) (inp : RxInput)
    (rest : List RxInput) (he : r.eavesdropping = true) (hn : env.nIRQNotLow = false)
    (hl : r.lastCallForHeatHC = 0xFFFF) (hrx : r.rx = inp :: rest)
    (hst : inp.status &&& 0x1000 = 0) (hf : inp.status &&& 0x8000 = 0) :
    FHT8VCallForHeatPoll env r = (none, afterReadStatus r rest) := by
  obtain ⟨area, eav, latch, ops, rx⟩ := r
  simp only at he hl hrx
  subst he hl hrx
  unfold FHT8VCallForHeatPoll
  simp only [Bool.not_true, Bool.false_eq_true, if_false, hn, FHT8VCallForHeatHeard, ne_eq,
    not_true_eq_false, decide_False, List.headD_cons, hst, hf, not_false_eq_true, if_true,
    RadioState.issue, List.tail_cons, afterReadStatus]

theorem FHT8VCallForHeatPoll_not_eavesdropping (env : Env) (r : RadioState)
    (he : r.eavesdropping = false) : FHT8VCallForHeatPoll env r = (some false, r) := by
  unfold FHT8VCallForHeatPoll
  simp [he]

theorem StopEavesdropOnFHT8V_eavesdropping (force : Bool) (r : RadioState) :
    (StopEavesdropOnFHT8V force r).eavesdropping = false := by
  unfold StopEavesdropOnFHT8V
  cases force <;> cases h : r.eavesdropping <;> simp [h, RadioState.issue]

theorem SetupToEavesdropOnFHT8V_eavesdropping (env : Env) (force : Bool) (r : RadioState) :
    (SetupToEavesdropOnFHT8V env force r).eavesdropping = true := by
  unfold SetupToEavesdropOnFHT8V
  cases force <;> cases h : r.eavesdropping <;>
    simp [h, RadioState.issue, _SetupRFM22ToEavesdropOnFHT8V]

/-! ## Decoder lemmas: the bytes read -/

theorem readOneBit_thirdPair_congr (f g : Nat → Nat) (lo hi : Nat) (h : agreeOn f g lo hi)
    (st : decode_state_t) (h1 : lo ≤ st.bitStream) (h2 : st.bitStream ≤ hi) :
    readOneBit_thirdPair f st = readOneBit_thirdPair g st := by
  unfold readOneBit_thirdPair
  rw [h _ h1 h2]

theorem readOneBit_thirdPair_inWindow (f : Nat → Nat) (lo hi : Nat) (st : decode_state_t)
    (hw : st.InWindow lo hi) : (readOneBit_thirdPair f st).2.InWindow lo hi := by
  obtain ⟨h1, h2⟩ := hw
  unfold readOneBit_thirdPair decode_state_t.InWindow
  simp only
  split_ifs <;>
    first | exact ⟨h1, h2⟩ | exact ⟨Nat.le_succ_of_le h1, h2⟩

theorem readOneBit_secondPair_congr (f g : Nat → Nat) (lo hi : Nat) (h : agreeOn f g lo hi)
    (st : decode_state_t) (h1 : lo ≤ st.bitStream) (h2 : st.bitStream ≤ hi)
    (h3 : st.lastByte = hi) :
    readOneBit_secondPair f st = readOneBit_secondPair g st := by
  unfold readOneBit_secondPair
  rw [h _ h1 h2]
  simp only
  split_ifs with c1 c2 c3 c4 <;>
    first
    | rfl
    | exact readOneBit_thirdPair_congr f g lo hi h _ h1 h2
    | exact readOneBit_thirdPair_congr f g lo hi h _ (Nat.le_succ_of_le h1)
        (by simp only [gt_iff_lt, not_lt] at *; omega)

theorem readOneBit_secondPair_inWindow (f : Nat → Nat) (lo hi : Nat) (st : decode_state_t)
    (hw : st.InWindow lo hi) : (readOneBit_secondPair f st).2.InWindow lo hi := by
  obtain ⟨h1, h2⟩ := hw
  unfold readOneBit_secondPair
  simp only
  split_ifs <;>
    first
    | exact ⟨h1, h2⟩
    | exact ⟨Nat.le_succ_of_le h1, h2⟩
    | exact readOneBit_thirdPair_inWindow f lo hi _ ⟨h1, h2⟩
    | exact readOneBit_thirdPair_inWindow f lo hi _ ⟨Nat.le_succ_of_le h1, h2⟩

/-- `readOneBit` dereferences only bytes of the window: on buffers that agree on
the window it gives the same bit and the same state. -/
theorem readOneBit_congr (f g : Nat → Nat) (lo hi : Nat) (h : agreeOn f g lo hi)
    (st : decode_state_t) (hw : st.InWindow lo hi) : readOneBit f st = readOneBit g st := by
  obtain ⟨h1, h2⟩ := hw
  unfold readOneBit
  by_cases c0 : st.bitStream > st.lastByte
  · simp [c0]
  · have h3 : st.bitStream ≤ hi := by omega
    simp only [c0, if_false]
    by_cases cf : st.failed = true
    · simp [cf]
    · simp only [cf, Bool.false_eq_true, if_false]
      have e : f st.bitStream = g st.bitStream := h _ h1 h3
      by_cases cm : 0 = st.mask
      · simp only [cm, if_true, e]
        split_ifs with c1 c2 c3
        · rfl
        · rfl
        · exact readOneBit_secondPair_congr f g lo hi h _ (by simp; omega)
            (by simp only [gt_iff_lt, not_lt] at c3; simpa [h2] using c3) h2
        · exact readOneBit_secondPair_congr f g lo hi h _ h1 h3 h2
      · simp only [cm, if_false, e]
        split_ifs with c1 c2 c3
        · rfl
        · rfl
        · exact readOneBit_secondPair_congr f g lo hi h _ (by simp; omega)
            (by simp only [gt_iff_lt, not_lt] at c3; simpa [h2] using c3) h2
        · exact readOneBit_secondPair_congr f g lo hi h _ h1 h3 h2

theorem readOneBit_inWindow (f : Nat → Nat) (lo hi : Nat) (st : decode_state_t)
    (hw : st.InWindow lo hi) : (readOneBit f st).2.InWindow lo hi := by
  obtain ⟨h1, h2⟩ := hw
  unfold readOneBit
  simp only
  split_ifs
  all_goals first
    | exact ⟨h1, h2⟩
    | exact ⟨by simp; omega, h2⟩
    | exact readOneBit_secondPair_inWindow f lo hi _ ⟨h1, h2⟩
    | exact readOneBit_secondPair_inWindow f lo hi _ ⟨by simp; omega, h2⟩

theorem readOneByteWithParity_loop_congr (f g : Nat → Nat) (lo hi : Nat)
    (h : agreeOn f g lo hi) (n : Nat) :
    ∀ (result parity : Nat) (st : decode_state_t), st.InWindow lo hi →
      readOneByteWithParity_loop f n result parity st
        = readOneByteWithParity_loop g n result parity st := by
  induction n with
  | zero => intro result parity st _; rfl
  | succ n ih =>
    intro result parity st hw
    simp only [readOneByteWithParity_loop]
    rw [← readOneBit_congr f g lo hi h st hw]
    exact ih _ _ _ (readOneBit_inWindow f lo hi st hw)

theorem readOneByteWithParity_loop_inWindow (f : Nat → Nat) (lo hi : Nat) (n : Nat) :
    ∀ (result parity : Nat) (st : decode_state_t), st.InWindow lo hi →
      (readOneByteWithParity_loop f n result parity st).2.2.InWindow lo hi := by
  induction n with
  | zero => intro result parity st hw; exact hw
  | succ n ih =>
    intro result parity st hw
    simp only [readOneByteWithParity_loop]
    exact ih _ _ _ (readOneBit_inWindow f lo hi st hw)

theorem readOneByteWithParity_congr (f g : Nat → Nat) (lo hi : Nat) (h : agreeOn f g lo hi)
    (st : decode_state_t) (hw : st.InWindow lo hi) :
    readOneByteWithParity f st = readOneByteWithParity g st := by
  have w1 := readOneBit_inWindow f lo hi st hw
  have w2 := readOneByteWithParity_loop_inWindow f lo hi 7 (readOneBit f st).1
    (readOneBit f st).1 _ w1
  unfold readOneByteWithParity
  simp only
  rw [← readOneBit_congr f g lo hi h st hw,
    ← readOneByteWithParity_loop_congr f g lo hi h 7 _ _ _ w1,
    ← readOneBit_congr f g lo hi h _ w2]

theorem readOneByteWithParity_inWindow (f : Nat → Nat) (lo hi : Nat) (st : decode_state_t)
    (hw : st.InWindow lo hi) : (readOneByteWithParity f st).2.InWindow lo hi := by
  have w1 := readOneBit_inWindow f lo hi st hw
  have w2 := readOneByteWithParity_loop_inWindow f lo hi 7 (readOneBit f st).1
    (readOneBit f st).1 _ w1
  have w3 := readOneBit_inWindow f lo hi _ w2
  unfold readOneByteWithParity
  simp only
  generalize readOneBit f (readOneByteWithParity_loop f 7 (readOneBit f st).1
    (readOneBit f st).1 (readOneBit f st).2).2.2 = p at w3 ⊢
  generalize readOneByteWithParity_loop f 7 (readOneBit f st).1
    (readOneBit f st).1 (readOneBit f st).2 = l
  split_ifs
  · exact hw
  · exact ⟨w3.1, w3.2⟩
  · exact w3

theorem readUnits_congr (f g : Nat → Nat) (lo hi : Nat) (h : agreeOn f g lo hi) (n : Nat) :
    ∀ st : decode_state_t, st.InWindow lo hi → readUnits f n st = readUnits g n st := by
  induction n with
  | zero => intro st _; rfl
  | succ n ih =>
    intro st hw
    simp only [readUnits]
    rw [← readOneByteWithParity_congr f g lo hi h st hw,
      ih _ (readOneByteWithParity_inWindow f lo hi st hw)]

theorem readUnits_inWindow (f : Nat → Nat) (lo hi : Nat) (n : Nat) :
    ∀ st : decode_state_t, st.InWindow lo hi → (readUnits f n st).2.InWindow lo hi := by
  induction n with
  | zero => intro st hw; exact hw
  | succ n ih =>
    intro st hw
    simp only [readUnits]
    exact ih _ (readOneByteWithParity_inWindow f lo hi st hw)

theorem skipLeadingZeros_congr (f g : Nat → Nat) (lo hi : Nat) (h : agreeOn f g lo hi)
    (fuel : Nat) :
    ∀ st : decode_state_t, st.InWindow lo hi →
      skipLeadingZeros f fuel st = skipLeadingZeros g fuel st := by
  induction fuel with
  | zero => intro st _; rfl
  | succ fuel ih =>
    intro st hw
    simp only [skipLeadingZeros]
    rw [← readOneBit_congr f g lo hi h st hw]
    split_ifs
    · rfl
    · exact ih _ (readOneBit_inWindow f lo hi st hw)
    · rfl

theorem skipLeadingZeros_inWindow (f : Nat → Nat) (lo hi : Nat) (fuel : Nat) :
    ∀ st st2 : decode_state_t, st.InWindow lo hi →
      skipLeadingZeros f fuel st = some (some st2) → st2.InWindow lo hi := by
  induction fuel with
  | zero => intro st st2 _ e; simp [skipLeadingZeros] at e
  | succ fuel ih =>
    intro st st2 hw e
    simp only [skipLeadingZeros] at e
    split_ifs at e
    · cases e
    · exact ih _ _ (readOneBit_inWindow f lo hi st hw) e
    · have e2 : (readOneBit f st).2 = st2 := Option.some.inj (Option.some.inj e)
      rw [← e2]
      exact readOneBit_inWindow f lo hi st hw

theorem decodeFinish_congr (f g : Nat → Nat) (lo hi : Nat) (h : agreeOn f g lo hi)
    (v : List Nat) (st : decode_state_t) (hw : st.InWindow lo hi) :
    decodeFinish f v st = decodeFinish g v st := by
  unfold decodeFinish
  rw [← readOneBit_congr f g lo hi h st hw]

/-- The decoder's result depends only on the bytes of the window. -/
theorem FHT8VDecodeBitStream_congr (f g : Nat → Nat) (bitStream lastByte : Nat)
    (out : fht8v_msg_t) (h : agreeOn f g bitStream lastByte) :
    FHT8VDecodeBitStream f bitStream lastByte out
      = FHT8VDecodeBitStream g bitStream lastByte out := by
  have hw0 : decode_state_t.InWindow bitStream lastByte
      { bitStream := bitStream, lastByte := lastByte, mask := 0, failed := false } :=
    ⟨Nat.le_refl _, rfl⟩
  rw [FHT8VDecodeBitStream_eq, FHT8VDecodeBitStream_eq,
    ← skipLeadingZeros_congr f g bitStream lastByte h _ _ hw0]
  cases e : skipLeadingZeros f (decodeFuel bitStream lastByte)
      { bitStream := bitStream, lastByte := lastByte, mask := 0, failed := false } with
  | none => rfl
  | some o =>
    cases o with
    | none => rfl
    | some st =>
      have hw := skipLeadingZeros_inWindow f bitStream lastByte _ _ _ hw0 e
      simp only
      rw [← readUnits_congr f g bitStream lastByte h 6 st hw]
      exact decodeFinish_congr f g bitStream lastByte h _ _
        (readUnits_inWindow f bitStream lastByte 6 st hw)

/-! ## Encoder lemmas: injectivity -/

theorem prefix_of_append_eq_short {α : Type} (x s b p : List α) (h : x ++ s = b ++ p)
    (hl : p.length ≤ s.length) : x <+: b := by
  rcases List.append_eq_append_iff.1 h with ⟨a, e1, _⟩ | ⟨c, e1, e2⟩
  · exact ⟨a, e1.symm⟩
  · have hc : c = [] := by
      have := congrArg List.length e2
      rw [List.length_append] at this
      exact List.length_eq_zero.1 (by omega)
    rw [e1, hc, List.append_nil]

/-- The line code of a frame without the second trailer bit is contained in the
completed bytes, extended by at most two zero bits. -/
theorem packFrame_bits_prefix (buf : Nat → Nat) (bptr : Nat) (body : List Bool) :
    spec_encodeBits (List.replicate 12 false ++ [true] ++ body ++ [false])
      <+: (bytesBetween (packFrame buf bptr body).1 bptr
            (packFrame buf bptr body).2).flatMap spec_byteBits ++ [false, false] := by
  obtain ⟨s, hs, hr⟩ := packFrame_rep buf bptr body
  rw [hs]
  simp only [bytesBetween_poke _ _ _ _ _ (le_refl s.2)]
  have hb := hr.bits
  have e : spec_encodeBits (spec_frameOfBody body)
      = spec_encodeBits (List.replicate 12 false ++ [true] ++ body ++ [false])
        ++ [true, true, false, false] := by
    have : spec_frameOfBody body
        = (List.replicate 12 false ++ [true] ++ body ++ [false]) ++ [false] := by
      simp [spec_frameOfBody]
    rw [this, spec_encodeBits_append]
    rfl
  rw [e] at hb
  generalize spec_encodeBits (List.replicate 12 false ++ [true] ++ body ++ [false]) = X at hb ⊢
  generalize (bytesBetween s.1 bptr s.2).flatMap spec_byteBits = B at hb ⊢
  unfold pendingBits at hb
  split_ifs at hb
  · exact (prefix_of_append_eq_short X _ B _ hb (by simp)).trans (List.prefix_append _ _)
  · exact (prefix_of_append_eq_short X _ B _ hb (by simp)).trans (List.prefix_append _ _)
  · exact (prefix_of_append_eq_short X _ B _ hb (by simp)).trans (List.prefix_append _ _)
  · exfalso
    have := congrArg List.reverse hb
    simp at this
  · have h2 : X ++ [true, true, false, false] = (B ++ [false, false]) ++ [true, true, false, false] := by
      rw [hb]; simp
    rw [List.append_cancel_right h2]
  · exact (prefix_of_append_eq_short X _ B _ hb (by simp)).trans (List.prefix_append _ _)

/-- Frames built around bodies of the same length have the same bytes before the
terminator only if the bodies are the same. -/
theorem packFrame_injective (buf1 buf2 : Nat → Nat) (bptr1 bptr2 : Nat)
    (body1 body2 : List Bool) (hl : body1.length = body2.length)
    (h : bytesBetween (packFrame buf1 bptr1 body1).1 bptr1 (packFrame buf1 bptr1 body1).2
      = bytesBetween (packFrame buf2 bptr2 body2).1 bptr2 (packFrame buf2 bptr2 body2).2) :
    body1 = body2 := by
  have p1 := packFrame_bits_prefix buf1 bptr1 body1
  have p2 := packFrame_bits_prefix buf2 bptr2 body2
  rw [h] at p1
  have key : ∀ a b : List Bool, a.length = b.length →
      spec_encodeBits (List.replicate 12 false ++ [true] ++ a ++ [false])
        <+: spec_encodeBits (List.replicate 12 false ++ [true] ++ b ++ [false]) → a = b := by
    intro a b hab hp
    have hp2 := spec_encodeBits_prefix _ _ hp
    have hlen : (List.replicate 12 false ++ [true] ++ a ++ [false]).length
        = (List.replicate 12 false ++ [true] ++ b ++ [false]).length := by
      simp [hab]
    have heq := hp2.eq_of_length hlen
    have h3 := List.append_cancel_right heq
    exact List.append_cancel_left h3
  rcases List.prefix_or_prefix_of_prefix p1 p2 with hp | hp
  · exact key _ _ hl hp
  · exact (key _ _ hl.symm hp).symm

theorem spec_unitBits_injective (a b : Nat) (ha : a < 256) (hb : b < 256)
    (h : spec_unitBits a = spec_unitBits b) : a = b := by
  have h1 := decodedUnit_spec_unitBits a ha
  have h2 := decodedUnit_spec_unitBits b hb
  rw [h, h2] at h1
  exact (congrArg Prod.fst h1).symm

/-- The body bits determine a byte-valued command. -/
theorem spec_bodyBits_injective (c1 c2 : fht8v_msg_t) (h1 : c1.IsBytes) (h2 : c2.IsBytes)
    (h : spec_bodyBits c1 = spec_bodyBits c2) : c1 = c2 := by
  unfold spec_bodyBits at h
  have h5 := List.append_inj_left' h (by simp [spec_unitBits_length])
  obtain ⟨h4, e4⟩ := List.append_inj' h5 (by simp [spec_unitBits_length])
  obtain ⟨h3, e3⟩ := List.append_inj' h4 (by simp [spec_unitBits_length])
  obtain ⟨h2b, _⟩ := List.append_inj' h3 (by simp [spec_unitBits_length])
  obtain ⟨e1, e2⟩ := List.append_inj' h2b (by simp [spec_unitBits_length])
  have a1 := spec_unitBits_injective _ _ h1.1 h2.1 e1
  have a2 := spec_unitBits_injective _ _ h1.2.1 h2.2.1 e2
  have a3 := spec_unitBits_injective _ _ h1.2.2.1 h2.2.2.1 e3
  have a4 := spec_unitBits_injective _ _ h1.2.2.2 h2.2.2.2 e4
  cases c1; cases c2
  simp only at a1 a2 a3 a4
  simp [a1, a2, a3, a4]

/-! ## Scheduler lemmas: the gap counter -/

/-- What `doSync` does to the slot counter and the synchronised flag: the slot
counter is kept, and the flag is set only on the exit that returns false with the
gap counter set by `FHT8VTXGapHalfSeconds(hc2, halfSecondCount)`. -/
theorem doSync_sched (env : Env) (dtx : Bool) (w : World)
    (hu : w.sched.syncedWithFHT8V = false) :
    (doSync env dtx w).2.sched.halfSecondCount = w.sched.halfSecondCount ∧
      ((doSync env dtx w).2.sched.syncedWithFHT8V = true →
        (doSync env dtx w).1 = false ∧
        (doSync env dtx w).2.sched.halfSecondsToNextFHT8VTX
          = FHT8VTXGapHalfSeconds2 env env.FHT8VGetHC2 w.sched.halfSecondCount) := by
  obtain ⟨⟨synced, isOpen, ss, hs, hsc, area⟩, radio⟩ := w
  simp only at hu
  subst hu
  unfold doSync
  simp only
  split_ifs <;> simp [FHT8VCreateValveSetCmdFrame]

/-- One slot of the polling protocol keeps the invariant. -/
theorem pollSlot_gapInvariant (env : Env) (dtx : Bool) (t : Nat) (s : Bool × World)
    (h : GapInvariant env t s) :
    GapInvariant env (t + 1) (pollSlot env dtx (t % (MAX_HSC env + 1)) s) := by
  obtain ⟨b, w⟩ := s
  obtain ⟨hI, hS⟩ := h
  simp only at hI hS
  have hm := MAX_HSC_cases env
  have h7 := land_7_le env.FHT8VGetHC2
  have hlt : t % (MAX_HSC env + 1) < MAX_HSC env + 1 := Nat.mod_lt _ (by omega)
  have hsucc : (t + 1) % (MAX_HSC env + 1)
      = if t % (MAX_HSC env + 1) = MAX_HSC env then 0 else t % (MAX_HSC env + 1) + 1 := by
    rw [Nat.add_mod]
    generalize MAX_HSC env = M at *
    rcases hm with hm | hm <;> subst hm <;> split_ifs <;> omega
  unfold GapInvariant
  by_cases hσ : t % (MAX_HSC env + 1) = 0
  · -- slot 0: FHT8VPollSyncAndTX_First
    have h1 : (t + 1) % (MAX_HSC env + 1) = 1 := by
      rw [hsucc, hσ]
      generalize MAX_HSC env = M at *
      rcases hm with hm | hm <;> subst hm <;> simp
    rw [hσ, pollSlot_first, h1]
    simp only
    cases hsy : w.sched.syncedWithFHT8V
    · rw [FHT8VPollSyncAndTX_First_unsynced env dtx w hsy]
      obtain ⟨d1, d2⟩ := doSync_sched env dtx
        { w with sched := { w.sched with halfSecondCount := 0 } } hsy
      simp only at d1 d2
      refine ⟨?_, ?_⟩
      · intro _ _
        rw [d1]
      · intro hs2
        obtain ⟨e1, e2⟩ := d2 hs2
        rw [e2, FHT8VTXGapHalfSeconds2_eq env _ 0 (Nat.zero_le _)]
        refine ⟨by omega, by omega, ?_⟩
        intro _ hb
        rw [e1] at hb
        exact absurd hb (by simp)
    · obtain ⟨c1, c2, _⟩ := hS hsy
      by_cases hg : w.sched.halfSecondsToNextFHT8VTX > MAX_HSC env + 1
      · rw [FHT8VPollSyncAndTX_First_skip env dtx w hsy hg]
        have e : toUint8 ((w.sched.halfSecondsToNextFHT8VTX : Int) - ((MAX_HSC env : Int) + 1))
            = w.sched.halfSecondsToNextFHT8VTX - (MAX_HSC env + 1) := by
          unfold toUint8
          omega
        simp only [e]
        refine ⟨fun _ hb => absurd hb (by simp), fun _ => ⟨by omega, by omega, ?_⟩⟩
        exact fun _ hb => absurd hb (by simp)
      · by_cases hz : toUint8 ((w.sched.halfSecondsToNextFHT8VTX : Int) - 1) = 0
        · rw [FHT8VPollSyncAndTX_First_tx env dtx w hsy hg hz]
          simp only [FHT8VTXGapHalfSeconds2_eq env _ 0 (Nat.zero_le _)]
          refine ⟨fun _ hb => absurd hb (by simp), fun _ => ⟨by omega, by omega, ?_⟩⟩
          exact fun _ hb => absurd hb (by simp)
        · rw [FHT8VPollSyncAndTX_First_count env dtx w hsy hg hz]
          have e : toUint8 ((w.sched.halfSecondsToNextFHT8VTX : Int) - 1)
              = w.sched.halfSecondsToNextFHT8VTX - 1 := toUint8_pred _ c1 (by omega)
          rw [e] at hz
          simp only [e]
          refine ⟨fun _ _ => trivial, fun _ => ⟨by omega, by omega, fun _ _ => by omega⟩⟩
  · cases b
    · -- no call in this slot
      rw [pollSlot_idle env dtx _ w hσ]
      simp only
      refine ⟨fun _ hb => absurd hb (by simp), fun hs2 => ?_⟩
      obtain ⟨c1, c2, _⟩ := hS hs2
      exact ⟨c1, c2, fun _ hb => absurd hb (by simp)⟩
    · -- a later slot: FHT8VPollSyncAndTX_Next
      rw [pollSlot_next env dtx _ w hσ]
      have hh2 := hI hσ rfl
      have ehsc : toUint8 ((w.sched.halfSecondCount : Int) + 1) = t % (MAX_HSC env + 1) := by
        unfold toUint8
        omega
      cases hsy : w.sched.syncedWithFHT8V
      · rw [FHT8VPollSyncAndTX_Next_unsynced env dtx w hsy]
        obtain ⟨d1, d2⟩ := doSync_sched env dtx
          { w with sched := { w.sched with
              halfSecondCount := toUint8 ((w.sched.halfSecondCount : Int) + 1) } } hsy
        simp only at d1 d2
        rw [ehsc] at d1 d2
        rw [ehsc]
        refine ⟨?_, ?_⟩
        · intro hne _
          rw [d1, hsucc]
          rw [hsucc] at hne
          split_ifs at hne ⊢
          · exact absurd rfl hne
          · rfl
        · intro hs2
          obtain ⟨e1, e2⟩ := d2 hs2
          rw [e2, FHT8VTXGapHalfSeconds2_eq env _ _ (by omega)]
          refine ⟨by omega, by omega, ?_⟩
          intro _ hb
          rw [e1] at hb
          exact absurd hb (by simp)
      · obtain ⟨c1, c2, c3⟩ := hS hsy
        have c4 := c3 hσ rfl
        by_cases hz : toUint8 ((w.sched.halfSecondsToNextFHT8VTX : Int) - 1) = 0
        · rw [FHT8VPollSyncAndTX_Next_tx env dtx w hsy hz]
          simp only [ehsc, FHT8VTXGapHalfSeconds2_eq env _ _ (by omega :
            t % (MAX_HSC env + 1) ≤ MAX_HSC env)]
          refine ⟨fun _ hb => absurd hb (by simp), fun _ => ⟨by omega, by omega, ?_⟩⟩
          exact fun _ hb => absurd hb (by simp)
        · rw [FHT8VPollSyncAndTX_Next_count env dtx w hsy hz]
          have e : toUint8 ((w.sched.halfSecondsToNextFHT8VTX : Int) - 1)
              = w.sched.halfSecondsToNextFHT8VTX - 1 := toUint8_pred _ c1 (by omega)
          rw [e] at hz
          simp only [e, ehsc]
          rw [hsucc]
          refine ⟨?_, fun _ => ⟨by omega, by omega, ?_⟩⟩
          · intro hne _
            split_ifs at hne ⊢
            · exact absurd rfl hne
            · rfl
          · intro hne _
            split_ifs at hne ⊢
            · exact absurd rfl hne
            · omega

/-- The polling protocol keeps the invariant over any number of slots. -/
theorem pollSlots_gapInvariant (env : Env) (dtx : Bool) (n : Nat) :
    ∀ (t : Nat) (s : Bool × World), GapInvariant env t s →
      GapInvariant env (t + n) (pollSlots env dtx n t s) := by
  induction n with
  | zero => intro t s h; exact h
  | succ n ih =>
    intro t s h
    have e : t + (n + 1) = t + 1 + n := by omega
    rw [e, pollSlots]
    exact ih _ _ (pollSlot_gapInvariant env dtx t s h)

/-- From reset with the local valve enabled, the polling protocol started at the
beginning of a duty cycle has set the synchronised flag after
240 + (hc2 & 7) + 8 slots. -/
theorem pollSlots_reset_synced (env : Env) (dtx : Bool) (b : Bool) (w : World)
    (he : env.localFHT8VTRVEnabled = true)
    (hb1 : env.FHT8VGetHC1 < 256) (hb2 : env.FHT8VGetHC2 < 256)
    (hsize : 46 ≤ env.FHT8V_200US_BIT_STREAM_FRAME_BUF_SIZE) :
    (pollSlots env dtx (240 + ((env.FHT8VGetHC2 &&& 7) + 8)) 0
      (b, { w with sched := FHT8VSyncAndTXReset w.sched })).2.sched.syncedWithFHT8V = true := by
  generalize hw0 : ({ w with sched := FHT8VSyncAndTXReset w.sched } : World) = w0
  have w0u : w0.sched.syncedWithFHT8V = false := by rw [← hw0]; rfl
  have w0s : w0.sched.syncStateFHT8V = 0 := by rw [← hw0]; rfl
  have hm := MAX_HSC_cases env
  have hz : 0 % (MAX_HSC env + 1) = 0 := Nat.zero_mod _
  have e1 : pollSlots env dtx 1 0 (b, w0)
      = doSync env dtx { w0 with sched := { w0.sched with
          halfSecondCount := 0, syncStateFHT8V := 241 } } := by
    show pollSlot env dtx (0 % (MAX_HSC env + 1)) (b, w0) = _
    rw [hz, pollSlot_first, FHT8VPollSyncAndTX_First_unsynced env dtx w0 w0u]
    exact doSync_zero env dtx
      { w0 with sched := { w0.sched with halfSecondCount := 0 } } he w0s
  obtain ⟨a1, a2, _⟩ := doSync_burst_odd env dtx
    { w0 with sched := { w0.sched with halfSecondCount := 0, syncStateFHT8V := 241 } }
    he (by simp) (by simp) (by simp) hb1 hb2 hsize
  rw [← e1] at a1 a2
  generalize hs1 : pollSlots env dtx 1 0 (b, w0) = s1 at a1 a2
  obtain ⟨b1, w1⟩ := s1
  simp only at a1 a2
  subst a1
  have w1u : w1.sched.syncedWithFHT8V = false := by rw [a2]; exact w0u
  have w1s : w1.sched.syncStateFHT8V = 240 := by rw [a2]
  have w1h : w1.sched.halfSecondCount = 0 := by rw [a2]
  have hh1 : (0 + 1) % (MAX_HSC env + 1) ≠ 0 →
      w1.sched.halfSecondCount + 1 = (0 + 1) % (MAX_HSC env + 1) := by
    intro _
    rw [w1h]
    generalize MAX_HSC env = M at *
    rcases hm with hm | hm <;> subst hm <;> omega
  obtain ⟨c1, c2, c3, c4, _⟩ := pollSlots_burst env dtx he hb1 hb2 hsize (0 + 1) w1 w1u
    (by omega) hh1 238 (by omega)
  generalize hs239 : pollSlots env dtx 238 (0 + 1) (true, w1) = s239 at c1 c2 c3 c4
  obtain ⟨b239, w239⟩ := s239
  simp only at c1 c2 c3 c4
  subst c1
  obtain ⟨_, d2, d3, _, d5, d6, d7⟩ := pollSlot_transition env dtx (0 + 1 + 238)
    w239 he c2 (by omega) c4
  generalize hs240 : pollSlot env dtx ((0 + 1 + 238) % (MAX_HSC env + 1))
    (true, w239) = s240 at d2 d3 d5 d6 d7
  obtain ⟨_, f2, _⟩ := pollSlots_wait env dtx he hb1 hb2 hsize
    ((env.FHT8VGetHC2 &&& 7) + 7) (0 + 1 + 238 + 1) s240 d2 d3 d5 d6 (by omega)
  have p239 : pollSlots env dtx 239 0 (b, w0) = (true, w239) := by
    have := pollSlots_add env dtx 1 238 0 (b, w0)
    rw [hs1, hs239] at this
    exact this
  have p240 : pollSlots env dtx 240 0 (b, w0) = s240 := by
    have := pollSlots_succ env dtx 239 0 (b, w0)
    rw [p239] at this
    have e : (0 + 239) = 0 + 1 + 238 := by omega
    rw [e, hs240] at this
    exact this
  have e : (env.FHT8VGetHC2 &&& 7) + 8 = (env.FHT8VGetHC2 &&& 7) + 7 + 1 := by omega
  rw [pollSlots_add, p240, e]
  exact f2

/-! ## Scheduler lemmas: the enabled flag -/

theorem FHT8VCallForHeatPoll_enabled_irrelevant (env : Env) (en : Bool) (r : RadioState) :
    FHT8VCallForHeatPoll { env with localFHT8VTRVEnabled := en } r
      = FHT8VCallForHeatPoll env r := rfl

theorem pollRepeatedly_enabled_irrelevant (env : Env) (en : Bool) (n : Nat) :
    ∀ r : RadioState, pollRepeatedly { env with localFHT8VTRVEnabled := en } n r
      = pollRepeatedly env n r := by
  induction n with
  | zero => intro r; rfl
  | succ n ih =>
    intro r
    simp only [pollRepeatedly]
    rw [FHT8VCallForHeatPoll_enabled_irrelevant, ih]

theorem sleepUntilSubCycleTimeOptionalRX_enabled_irrelevant (env : Env) (en : Bool)
    (r : RadioState) :
    sleepUntilSubCycleTimeOptionalRX { env with localFHT8VTRVEnabled := en } r
      = sleepUntilSubCycleTimeOptionalRX env r := by
  unfold sleepUntilSubCycleTimeOptionalRX
  rw [pollRepeatedly_enabled_irrelevant, FHT8VCallForHeatPoll_enabled_irrelevant]

theorem FHT8VTXFHTQueueAndSendCmd_enabled_irrelevant (env : Env) (en : Bool)
    (area : Nat → Nat) (dtx : Bool) (r : RadioState) :
    FHT8VTXFHTQueueAndSendCmd { env with localFHT8VTRVEnabled := en } area dtx r
      = FHT8VTXFHTQueueAndSendCmd env area dtx r := rfl

theorem valveSettingTX_enabled_irrelevant (env : Env) (en : Bool) (dtx : Bool) (w : World) :
    valveSettingTX { env with localFHT8VTRVEnabled := en } dtx w = valveSettingTX env dtx w := by
  unfold valveSettingTX
  rw [FHT8VTXFHTQueueAndSendCmd_enabled_irrelevant]
  rfl

/-- A synchronised scheduler does not consult `localFHT8VTRVEnabled()`: both poll
entry points give the same result whatever the flag. -/
theorem pollSynced_enabled_irrelevant (env : Env) (en : Bool) (dtx : Bool) (w : World)
    (hs : w.sched.syncedWithFHT8V = true) :
    FHT8VPollSyncAndTX_First { env with localFHT8VTRVEnabled := en } dtx w
        = FHT8VPollSyncAndTX_First env dtx w ∧
      FHT8VPollSyncAndTX_Next { env with localFHT8VTRVEnabled := en } dtx w
        = FHT8VPollSyncAndTX_Next env dtx w := by
  have hm : MAX_HSC { env with localFHT8VTRVEnabled := en } = MAX_HSC env := rfl
  have hg : ∀ a b, FHT8VTXGapHalfSeconds2 { env with localFHT8VTRVEnabled := en } a b
      = FHT8VTXGapHalfSeconds2 env a b := fun _ _ => rfl
  refine ⟨?_, ?_⟩
  · unfold FHT8VPollSyncAndTX_First
    simp only [hs, Bool.not_true, Bool.false_eq_true, if_false, hm, hg,
      valveSettingTX_enabled_irrelevant]
  · unfold FHT8VPollSyncAndTX_Next
    simp only [hs, Bool.not_true, Bool.false_eq_true, if_false, hm, hg,
      valveSettingTX_enabled_irrelevant, sleepUntilSubCycleTimeOptionalRX_enabled_irrelevant]

/-! ## Receiver lemmas: a frame from the sender -/

/-- C1 (evaluation at failing inputs).  Encoding the valve-set command hc1 = 13,
hc2 = 73, command = 0x26, extension = 8, or the command hc1 = 0, hc2 = 0, command = 0,
extension = 4, and decoding the encoded stream does not return true: the decoder
reports failure, whether the window ends at the byte before the `0xff` terminator
or at the terminator itself. -/
theorem C1_roundtrip_fails :
    (encodeThenDecode zeroBuf 0 0 ⟨13, 73, 0x26, 8⟩ ⟨0, 0, 0, 0⟩).map Prod.fst = some false ∧
      (encodeThenDecode zeroBuf 0 1 ⟨13, 73, 0x26, 8⟩ ⟨0, 0, 0, 0⟩).map Prod.fst = some false ∧
      (encodeThenDecode zeroBuf 0 0 ⟨0, 0, 0, 4⟩ ⟨0, 0, 0, 0⟩).map Prod.fst = some false ∧
      (encodeThenDecode zeroBuf 0 1 ⟨0, 0, 0, 4⟩ ⟨0, 0, 0, 0⟩).map Prod.fst = some false := by
  decide

/-- C2.  For every byte-valued command, each byte the encoder leaves before the
terminator equals the corresponding byte of the naive MSB-first packing of the
line code of the reference frame (12 zero bits, a 1 bit, six byte-plus-parity
units with the checksum last, two 0 bits). -/
theorem C2_wire_format_reference (buf : Nat → Nat) (bptr : Nat) (c : fht8v_msg_t)
    (h : c.IsBytes) :
    ∀ i, i < (FHT8VCreate200usBitStreamBptr buf bptr c).2 - bptr →
      (spec_pack (spec_encodeBits (spec_frameBits c)))[i]?
        = some ((FHT8VCreate200usBitStreamBptr buf bptr c).1 (bptr + i)) := by
  intro i hi
  obtain ⟨h1, h2⟩ := FHT8VCreate200usBitStreamBptr_spec buf bptr c h
  have hb := bytesBetween_getElem? (FHT8VCreate200usBitStreamBptr buf bptr c).1 bptr _ i hi
  rw [h2] at hb
  rw [← hb, List.getElem?_take]
  have : i < (spec_encodeBits (spec_frameBits c)).length / 8 := by omega
  simp [this]

/-- Witness for C2 at the command of the worked example. -/
theorem C2_wire_format_reference_witness :
    (⟨0x12, 0x34, 0x26, 0x80⟩ : fht8v_msg_t).IsBytes ∧
      ∀ i, i < (FHT8VCreate200usBitStreamBptr zeroBuf 0 ⟨0x12, 0x34, 0x26, 0x80⟩).2 - 0 →
        (spec_pack (spec_encodeBits (spec_frameBits ⟨0x12, 0x34, 0x26, 0x80⟩)))[i]?
          = some ((FHT8VCreate200usBitStreamBptr zeroBuf 0 ⟨0x12, 0x34, 0x26, 0x80⟩).1 (0 + i)) :=
  ⟨by decide, C2_wire_format_reference zeroBuf 0 ⟨0x12, 0x34, 0x26, 0x80⟩ (by decide)⟩

/-- C3 (evaluation at a failing input).  For hc1 = 0, hc2 = 0, command = 0,
extension = 4 the bytes before the terminator hold fewer bits (8 x 35 = 280) than
the frame up to and including the complete first trailer 0 bit (282): the last
byte before the terminator is `0xe3`, ending in the leading `11` of that trailer
bit, and its `00` half is overwritten by the `0xff` terminator. -/
theorem C3_first_trailer_bit_truncated :
    8 * ((FHT8VCreate200usBitStreamBptr zeroBuf 0 ⟨0, 0, 0, 4⟩).2 - 0)
        < (spec_encodeBits
            (List.replicate 12 false ++ [true] ++ spec_bodyBits ⟨0, 0, 0, 4⟩ ++ [false])).length ∧
      (FHT8VCreate200usBitStreamBptr zeroBuf 0 ⟨0, 0, 0, 4⟩).2 = 35 ∧
      (FHT8VCreate200usBitStreamBptr zeroBuf 0 ⟨0, 0, 0, 4⟩).1 34 = 0xe3 ∧
      (FHT8VCreate200usBitStreamBptr zeroBuf 0 ⟨0, 0, 0, 4⟩).1 35 = 0xff := by
  decide

/-- C4.  For every byte-valued command the number of bytes written before the
terminator is at least 35 and at most 45, so the terminator is at most 45 bytes
past the start of the buffer; and no byte outside the 46 bytes starting at the
buffer pointer is modified. -/
theorem C4_length_bounds (buf : Nat → Nat) (bptr : Nat) (c : fht8v_msg_t) (h : c.IsBytes) :
    35 ≤ (FHT8VCreate200usBitStreamBptr buf bptr c).2 - bptr ∧
      (FHT8VCreate200usBitStreamBptr buf bptr c).2 - bptr ≤ 45 ∧
      (FHT8VCreate200usBitStreamBptr buf bptr c).2 ≤ bptr + 45 ∧
      ∀ q, q < bptr ∨ bptr + 45 < q → (FHT8VCreate200usBitStreamBptr buf bptr c).1 q = buf q := by
  obtain ⟨h1, _⟩ := FHT8VCreate200usBitStreamBptr_spec buf bptr c h
  have hl := spec_frameBits_length c
  obtain ⟨lo, hi⟩ := spec_bodyBits_count c h
  refine ⟨by omega, by omega, by omega, ?_⟩
  intro q hq
  have hu := packFrame_untouched buf bptr (appendedBodyBits c) q
  rw [← FHT8VCreate200usBitStreamBptr_eq_packFrame] at hu
  exact hu (by omega)

/-- Witness for C4 at the command of the worked example. -/
theorem C4_length_bounds_witness :
    (⟨0x12, 0x34, 0x26, 0x80⟩ : fht8v_msg_t).IsBytes ∧
      35 ≤ (FHT8VCreate200usBitStreamBptr zeroBuf 0 ⟨0x12, 0x34, 0x26, 0x80⟩).2 - 0 ∧
      (FHT8VCreate200usBitStreamBptr zeroBuf 0 ⟨0x12, 0x34, 0x26, 0x80⟩).2 - 0 ≤ 45 ∧
      (FHT8VCreate200usBitStreamBptr zeroBuf 0 ⟨0x12, 0x34, 0x26, 0x80⟩).2 ≤ 0 + 45 ∧
      ∀ q, q < 0 ∨ 0 + 45 < q →
        (FHT8VCreate200usBitStreamBptr zeroBuf 0 ⟨0x12, 0x34, 0x26, 0x80⟩).1 q = zeroBuf q :=
  ⟨by decide, C4_length_bounds zeroBuf 0 ⟨0x12, 0x34, 0x26, 0x80⟩ (by decide)⟩

/-- C5 as stated is false: it is not the case that the all-`0x00` command encodes
to 35 bytes and the all-`0xFF` command to 45 bytes before the terminator. -/
theorem C5_counterexample :
    ¬ ((FHT8VCreate200usBitStreamBptr zeroBuf 0 ⟨0, 0, 0, 0⟩).2 - 0 = 35 ∧
        (FHT8VCreate200usBitStreamBptr zeroBuf 0 ⟨0xFF, 0xFF, 0xFF, 0xFF⟩).2 - 0 = 45) := by
  decide

/-- C5 (amended).  In any buffer, the command whose fields are all `0x00` encodes
to exactly 35 bytes before the terminator, and the command whose fields are all
`0xFF` encodes to exactly 43 bytes before the terminator. -/
theorem C5_extremes_amended (buf : Nat → Nat) (bptr : Nat) :
    (FHT8VCreate200usBitStreamBptr buf bptr ⟨0, 0, 0, 0⟩).2 - bptr = 35 ∧
      (FHT8VCreate200usBitStreamBptr buf bptr ⟨0xFF, 0xFF, 0xFF, 0xFF⟩).2 - bptr = 43 := by
  obtain ⟨h0, _⟩ := FHT8VCreate200usBitStreamBptr_spec buf bptr ⟨0, 0, 0, 0⟩ (by decide)
  obtain ⟨h1, _⟩ :=
    FHT8VCreate200usBitStreamBptr_spec buf bptr ⟨0xFF, 0xFF, 0xFF, 0xFF⟩ (by decide)
  have e0 : (spec_encodeBits (spec_frameBits ⟨0, 0, 0, 0⟩)).length / 8 = 35 := by decide
  have e1 : (spec_encodeBits (spec_frameBits ⟨0xFF, 0xFF, 0xFF, 0xFF⟩)).length / 8 = 43 := by
    decide
  omega

/-- C6.  For every command the returned pointer addresses a byte equal to `0xff`
and no byte between the start of the frame and that pointer equals `0xff`. -/
theorem C6_terminator (buf : Nat → Nat) (bptr : Nat) (c : fht8v_msg_t) :
    (FHT8VCreate200usBitStreamBptr buf bptr c).1 (FHT8VCreate200usBitStreamBptr buf bptr c).2
        = 0xff ∧
      ∀ q, bptr ≤ q → q < (FHT8VCreate200usBitStreamBptr buf bptr c).2 →
        (FHT8VCreate200usBitStreamBptr buf bptr c).1 q ≠ 0xff := by
  rw [FHT8VCreate200usBitStreamBptr_eq_packFrame]
  obtain ⟨_, _, h3, h4⟩ := packFrame_spec buf bptr (appendedBodyBits c)
  refine ⟨h3, ?_⟩
  intro q hq1 hq2
  have hi : q - bptr < (packFrame buf bptr (appendedBodyBits c)).2 - bptr := by omega
  have hm := bytesBetween_getElem? (packFrame buf bptr (appendedBodyBits c)).1 bptr _ _ hi
  have e : bptr + (q - bptr) = q := by omega
  rw [e] at hm
  have := h4 _ (List.getElem?_mem hm)
  omega

/-- C7 as stated is false: for hc1 = 0x12, hc2 = 0x34, command = 0x26,
extension = 0x80 the bytes before the terminator are not those of a frame whose
sixth body unit is the unit of 0xCE (the checksum is not 0xCE). -/
theorem C7_counterexample :
    ¬ (bytesBetween (FHT8VCreate200usBitStreamBptr zeroBuf 0 ⟨0x12, 0x34, 0x26, 0x80⟩).1 0
          (FHT8VCreate200usBitStreamBptr zeroBuf 0 ⟨0x12, 0x34, 0x26, 0x80⟩).2
        = (spec_pack (spec_encodeBits (spec_frameOfBody
            (spec_unitBits 0x12 ++ spec_unitBits 0x34 ++ spec_unitBits 0 ++ spec_unitBits 0x26 ++
              spec_unitBits 0x80 ++ spec_unitBits 0xCE)))).take 39) ∧
      spec_checksum ⟨0x12, 0x34, 0x26, 0x80⟩ ≠ 0xCE := by
  decide

/-- C7 (amended).  Worked example: for hc1 = 0x12, hc2 = 0x34, command = 0x26,
extension = 0x80 the checksum is 0xF8, the 39 bytes before the terminator are those
of the reference frame whose sixth body unit is the unit of 0xF8, and decoding the
encoded stream (window ending just before, or at, the terminator) returns true
with the same four fields. -/
theorem C7_worked_example_amended :
    spec_checksum ⟨0x12, 0x34, 0x26, 0x80⟩ = 0xF8 ∧
      bytesBetween (FHT8VCreate200usBitStreamBptr zeroBuf 0 ⟨0x12, 0x34, 0x26, 0x80⟩).1 0
          (FHT8VCreate200usBitStreamBptr zeroBuf 0 ⟨0x12, 0x34, 0x26, 0x80⟩).2
        = (spec_pack (spec_encodeBits (spec_frameOfBody
            (spec_unitBits 0x12 ++ spec_unitBits 0x34 ++ spec_unitBits 0 ++ spec_unitBits 0x26 ++
              spec_unitBits 0x80 ++ spec_unitBits 0xF8)))).take 39 ∧
      encodeThenDecode zeroBuf 0 0 ⟨0x12, 0x34, 0x26, 0x80⟩ ⟨0, 0, 0, 0⟩
        = some (true, ⟨0x12, 0x34, 0x26, 0x80⟩) ∧
      encodeThenDecode zeroBuf 0 1 ⟨0x12, 0x34, 0x26, 0x80⟩ ⟨0, 0, 0, 0⟩
        = some (true, ⟨0x12, 0x34, 0x26, 0x80⟩) := by
  decide

/-- C8.  For every command and any two buffers (at any two addresses, with any
prior contents) the encoder returns the same length and leaves identical bytes
from the start of the frame through the terminator. -/
theorem C8_determinism (buf1 buf2 : Nat → Nat) (bptr1 bptr2 : Nat) (c : fht8v_msg_t) :
    (FHT8VCreate200usBitStreamBptr buf1 bptr1 c).2 - bptr1
        = (FHT8VCreate200usBitStreamBptr buf2 bptr2 c).2 - bptr2 ∧
      ∀ i, i ≤ (FHT8VCreate200usBitStreamBptr buf1 bptr1 c).2 - bptr1 →
        (FHT8VCreate200usBitStreamBptr buf1 bptr1 c).1 (bptr1 + i)
          = (FHT8VCreate200usBitStreamBptr buf2 bptr2 c).1 (bptr2 + i) := by
  simp only [FHT8VCreate200usBitStreamBptr_eq_packFrame]
  obtain ⟨a1, a2, a3, _⟩ := packFrame_spec buf1 bptr1 (appendedBodyBits c)
  obtain ⟨b1, b2, b3, _⟩ := packFrame_spec buf2 bptr2 (appendedBodyBits c)
  have hlen : (packFrame buf1 bptr1 (appendedBodyBits c)).2 - bptr1
      = (packFrame buf2 bptr2 (appendedBodyBits c)).2 - bptr2 := by omega
  refine ⟨hlen, ?_⟩
  intro i hi
  rcases Nat.lt_or_eq_of_le hi with hlt | heq
  · have m1 := bytesBetween_getElem? (packFrame buf1 bptr1 (appendedBodyBits c)).1 bptr1 _ i hlt
    have m2 := bytesBetween_getElem? (packFrame buf2 bptr2 (appendedBodyBits c)).1 bptr2 _ i
      (hlen ▸ hlt)
    rw [a2] at m1
    rw [b2, m1] at m2
    exact Option.some.inj m2
  · have e1 : bptr1 + i = (packFrame buf1 bptr1 (appendedBodyBits c)).2 := by omega
    have e2 : bptr2 + i = (packFrame buf2 bptr2 (appendedBodyBits c)).2 := by omega
    rw [e1, e2, a3, b3]

/-- C9.  For every byte-valued command and every position `k` of its 54 body bits:
when the preamble, the start bit, the body with bit `k` inverted and the trailer
are packed with the encoder's bit-append operation, the decoder returns false on
every window that starts at the frame and reaches at least the byte before the
terminator. -/
theorem C9_single_bit_error_rejected (buf : Nat → Nat) (bptr k last : Nat)
    (c out : fht8v_msg_t) (hc : c.IsBytes) (hk : k < 54)
    (hl : (packFrame buf bptr (invertAt k (appendedBodyBits c))).2 ≤ last + 1) :
    (FHT8VDecodeBitStream (packFrame buf bptr (invertAt k (appendedBodyBits c))).1 bptr last
      out).map Prod.fst = some false := by
  have h54 : (appendedBodyBits c).length = 54 := by
    rw [appendedBodyBits_eq_spec c hc]; exact spec_bodyBits_length c
  have hev : (appendedBodyBits c).count true % 2 = 0 := by
    rw [appendedBodyBits_eq_spec c hc]; exact spec_bodyBits_count_even c hc
  have hflip := invertAt_count (appendedBodyBits c) k (by omega)
  exact packFrame_odd_body_rejected buf bptr _ last out
    (by rw [invertAt_length, h54]) (by omega) hl

/-- Witness for C9: the worked-example command with body bit 0 inverted, the window
ending at the byte before the terminator. -/
theorem C9_single_bit_error_rejected_witness :
    (⟨0x12, 0x34, 0x26, 0x80⟩ : fht8v_msg_t).IsBytes ∧ 0 < 54 ∧
      (packFrame zeroBuf 0 (invertAt 0 (appendedBodyBits ⟨0x12, 0x34, 0x26, 0x80⟩))).2 ≤ 38 + 1 ∧
      (FHT8VDecodeBitStream
        (packFrame zeroBuf 0 (invertAt 0 (appendedBodyBits ⟨0x12, 0x34, 0x26, 0x80⟩))).1 0 38
        ⟨0, 0, 0, 0⟩).map Prod.fst = some false :=
  ⟨by decide, by decide, by decide,
    C9_single_bit_error_rejected zeroBuf 0 0 38 ⟨0x12, 0x34, 0x26, 0x80⟩ ⟨0, 0, 0, 0⟩
      (by decide) (by decide) (by decide)⟩

/-- C10.  For every window that starts with a well-formed frame (any number of
encoded leading 0 bits, the start bit, six byte-plus-parity units with correct
parity, a trailing encoded 0 bit) whose sixth unit differs from
`(0x0C + hc1 + hc2 + address + command + extension) mod 256` of the first five,
the decoder returns false. -/
theorem C10_checksum_mismatch_rejected (buf : Nat → Nat) (bitStream lastByte z : Nat)
    (out : fht8v_msg_t) (hc1 hc2 address command extension sixth : Nat) (rest : List Bool)
    (hb : hc1 < 256 ∧ hc2 < 256 ∧ address < 256 ∧ command < 256 ∧ extension < 256 ∧
      sixth < 256)
    (hne : sixth ≠ (0x0C + hc1 + hc2 + address + command + extension) % 256)
    (h : spec_encodeBits (List.replicate z false ++ [true] ++ spec_unitBits hc1 ++
        spec_unitBits hc2 ++ spec_unitBits address ++ spec_unitBits command ++
        spec_unitBits extension ++ spec_unitBits sixth ++ [false]) ++ rest
      <+: windowBits buf bitStream lastByte) :
    (FHT8VDecodeBitStream buf bitStream lastByte out).map Prod.fst = some false := by
  obtain ⟨b1, b2, b3, b4, b5, b6⟩ := hb
  have d1 := decodedUnit_spec_unitBits _ b1
  have d2 := decodedUnit_spec_unitBits _ b2
  have d3 := decodedUnit_spec_unitBits _ b3
  have d4 := decodedUnit_spec_unitBits _ b4
  have d5 := decodedUnit_spec_unitBits _ b5
  have d6 := decodedUnit_spec_unitBits _ b6
  apply FHT8VDecodeBitStream_checksum_error buf bitStream lastByte z out (spec_unitBits hc1)
    (spec_unitBits hc2) (spec_unitBits address) (spec_unitBits command)
    (spec_unitBits extension) (spec_unitBits sixth) (spec_lineCode false ++ rest)
  · intro u hu
    simp only [List.mem_cons, List.mem_singleton, List.not_mem_nil, or_false] at hu
    rcases hu with rfl | rfl | rfl | rfl | rfl | rfl <;> exact spec_unitBits_length _
  · simp [d1, d2, d3, d4, d5, d6]
  · rw [d1, d2, d3, d4, d5, d6]
    exact fun e => hne e.symm
  · have e : spec_encodeBits (List.replicate z false ++ [true] ++ spec_unitBits hc1 ++
        spec_unitBits hc2 ++ spec_unitBits address ++ spec_unitBits command ++
        spec_unitBits extension ++ spec_unitBits sixth ++ [false]) ++ rest
        = spec_encodeBits (List.replicate z false ++ [true] ++
          [spec_unitBits hc1, spec_unitBits hc2, spec_unitBits address, spec_unitBits command,
            spec_unitBits extension, spec_unitBits sixth].flatten)
          ++ (spec_lineCode false ++ rest) := by
      simp [spec_encodeBits, List.append_assoc]
    rw [← e]
    exact h

/-- Witness for C10: the frame of hc1 = 0x12, hc2 = 0x34, address 0, command = 0x26,
extension = 0x80 carrying 0x03 (not the checksum 0xF8) as its sixth unit. -/
theorem C10_checksum_mismatch_rejected_witness :
    ((0x12 : Nat) < 256 ∧ (0x34 : Nat) < 256 ∧ (0 : Nat) < 256 ∧ (0x26 : Nat) < 256 ∧
        (0x80 : Nat) < 256 ∧ (0x03 : Nat) < 256) ∧
      (0x03 : Nat) ≠ (0x0C + 0x12 + 0x34 + 0 + 0x26 + 0x80) % 256 ∧
      (spec_encodeBits (List.replicate 12 false ++ [true] ++ spec_unitBits 0x12 ++
          spec_unitBits 0x34 ++ spec_unitBits 0 ++ spec_unitBits 0x26 ++
          spec_unitBits 0x80 ++ spec_unitBits 0x03 ++ [false]) ++ []
        <+: windowBits (packFrame zeroBuf 0 (spec_unitBits 0x12 ++ spec_unitBits 0x34 ++
          spec_unitBits 0 ++ spec_unitBits 0x26 ++ spec_unitBits 0x80 ++ spec_unitBits 0x03)).1
          0 37) ∧
      (FHT8VDecodeBitStream (packFrame zeroBuf 0 (spec_unitBits 0x12 ++ spec_unitBits 0x34 ++
          spec_unitBits 0 ++ spec_unitBits 0x26 ++ spec_unitBits 0x80 ++ spec_unitBits 0x03)).1
        0 37 ⟨0, 0, 0, 0⟩).map Prod.fst = some false :=
  ⟨by decide, by decide, by decide,
    C10_checksum_mismatch_rejected _ 0 37 12 ⟨0, 0, 0, 0⟩ 0x12 0x34 0 0x26 0x80 0x03 []
      (by decide) (by decide) (by decide)⟩

/-! ## Claims C11 to C20: decoder failure handling and the transmit scheduler -/

/-- C11.  For every byte-valued command and every window that starts at the frame,
lies within the bytes the encoder left before the terminator and ends before the
first trailer 0 bit is complete, the decoder returns false. -/
theorem C11_exhaustion_rejected (buf : Nat → Nat) (bptr last : Nat) (c out : fht8v_msg_t)
    (hc : c.IsBytes) (hl : last + 1 ≤ (FHT8VCreate200usBitStreamBptr buf bptr c).2)
    (hshort : 8 * (last + 1 - bptr)
      < (spec_encodeBits
          (List.replicate 12 false ++ [true] ++ spec_bodyBits c ++ [false])).length) :
    (FHT8VDecodeBitStream (FHT8VCreate200usBitStreamBptr buf bptr c).1 bptr last out).map
      Prod.fst = some false := by
  rw [FHT8VCreate200usBitStreamBptr_eq_packFrame, appendedBodyBits_eq_spec c hc] at hl ⊢
  exact packFrame_short_window_rejected buf bptr _ last out (spec_bodyBits_length c) hl hshort

/-- Witness for C11: the worked-example command, window of the first 20 bytes. -/
theorem C11_exhaustion_rejected_witness :
    (⟨0x12, 0x34, 0x26, 0x80⟩ : fht8v_msg_t).IsBytes ∧
      19 + 1 ≤ (FHT8VCreate200usBitStreamBptr zeroBuf 0 ⟨0x12, 0x34, 0x26, 0x80⟩).2 ∧
      8 * (19 + 1 - 0) < (spec_encodeBits (List.replicate 12 false ++ [true] ++
          spec_bodyBits ⟨0x12, 0x34, 0x26, 0x80⟩ ++ [false])).length ∧
      (FHT8VDecodeBitStream (FHT8VCreate200usBitStreamBptr zeroBuf 0 ⟨0x12, 0x34, 0x26, 0x80⟩).1
        0 19 ⟨0, 0, 0, 0⟩).map Prod.fst = some false :=
  ⟨by decide, by decide, by decide,
    C11_exhaustion_rejected zeroBuf 0 19 ⟨0x12, 0x34, 0x26, 0x80⟩ ⟨0, 0, 0, 0⟩
      (by decide) (by decide) (by decide)⟩

/-- C12.  For every decode state with `failed = true`, `readOneBit` and
`readOneByteWithParity` both return 0 and leave the state unchanged. -/
theorem C12_sticky_failure (buf : Nat → Nat) (st : decode_state_t) (hf : st.failed = true) :
    readOneBit buf st = (0, st) ∧ readOneByteWithParity buf st = (0, st) :=
  ⟨readOneBit_of_failed buf st hf, readOneByteWithParity_of_failed buf st hf⟩

/-- Witness for C12 at a failed state in the middle of a window. -/
theorem C12_sticky_failure_witness :
    (⟨3, 10, 0x30, true⟩ : decode_state_t).failed = true ∧
      readOneBit zeroBuf ⟨3, 10, 0x30, true⟩ = (0, ⟨3, 10, 0x30, true⟩) ∧
      readOneByteWithParity zeroBuf ⟨3, 10, 0x30, true⟩ = (0, ⟨3, 10, 0x30, true⟩) :=
  ⟨rfl, C12_sticky_failure zeroBuf ⟨3, 10, 0x30, true⟩ rfl⟩

/-- C13.  From the reset state, with the local valve enabled, byte house codes and
a TX buffer of at least 46 bytes, the polling protocol started at the first slot
of a duty cycle leaves the scheduler unsynchronised for 240 + (hc2 & 7) + 8 - 1
slots and sets synced in the next one; the frames handed to the radio up to then
are exactly the 120 sync-step frames (opcode 0x2c) with extensions 241, 239, ..., 3
in that order followed by the sync-final frame (opcode 0x20, extension 0). -/
theorem C13_sync_burst (env : Env) (allowDoubleTX : Bool) (b : Bool) (w : World)
    (he : env.localFHT8VTRVEnabled = true)
    (hb1 : env.FHT8VGetHC1 < 256) (hb2 : env.FHT8VGetHC2 < 256)
    (hsize : 46 ≤ env.FHT8V_200US_BIT_STREAM_FRAME_BUF_SIZE) :
    (∀ n, n < 240 + ((env.FHT8VGetHC2 &&& 7) + 8) →
        (pollSlots env allowDoubleTX n 0
          (b, { w with sched := FHT8VSyncAndTXReset w.sched })).2.sched.syncedWithFHT8V
            = false) ∧
      (pollSlots env allowDoubleTX (240 + ((env.FHT8VGetHC2 &&& 7) + 8)) 0
        (b, { w with sched := FHT8VSyncAndTXReset w.sched })).2.sched.syncedWithFHT8V = true ∧
      framesSent (pollSlots env allowDoubleTX (240 + ((env.FHT8VGetHC2 &&& 7) + 8)) 0
          (b, { w with sched := FHT8VSyncAndTXReset w.sched })).2.radio
        = framesSent w.radio
          ++ (List.range 120).map
              (fun i => txFrame ⟨env.FHT8VGetHC1, env.FHT8VGetHC2, 0x2c, 241 - 2 * i⟩)
          ++ [txFrame ⟨env.FHT8VGetHC1, env.FHT8VGetHC2, 0x20, 0⟩] := by
  generalize hw0 : ({ w with sched := FHT8VSyncAndTXReset w.sched } : World) = w0
  have w0u : w0.sched.syncedWithFHT8V = false := by rw [← hw0]; rfl
  have w0s : w0.sched.syncStateFHT8V = 0 := by rw [← hw0]; rfl
  have w0r : w0.radio = w.radio := by rw [← hw0]
  have hm := MAX_HSC_cases env
  -- slot 0: the countdown starts at 241
  have hz : 0 % (MAX_HSC env + 1) = 0 := Nat.zero_mod _
  have e1 : pollSlots env allowDoubleTX 1 0 (b, w0)
      = doSync env allowDoubleTX { w0 with sched := { w0.sched with
          halfSecondCount := 0, syncStateFHT8V := 241 } } := by
    show pollSlot env allowDoubleTX (0 % (MAX_HSC env + 1)) (b, w0) = _
    rw [hz, pollSlot_first, FHT8VPollSyncAndTX_First_unsynced env allowDoubleTX w0 w0u]
    exact doSync_zero env allowDoubleTX
      { w0 with sched := { w0.sched with halfSecondCount := 0 } } he w0s
  obtain ⟨a1, a2, a3⟩ := doSync_burst_odd env allowDoubleTX
    { w0 with sched := { w0.sched with halfSecondCount := 0, syncStateFHT8V := 241 } }
    he (by simp) (by simp) (by simp) hb1 hb2 hsize
  rw [← e1] at a1 a2 a3
  generalize hs1 : pollSlots env allowDoubleTX 1 0 (b, w0) = s1 at a1 a2 a3
  obtain ⟨b1, w1⟩ := s1
  simp only at a1 a2 a3
  subst a1
  have w1u : w1.sched.syncedWithFHT8V = false := by rw [a2]; exact w0u
  have w1s : w1.sched.syncStateFHT8V = 240 := by rw [a2]
  have w1h : w1.sched.halfSecondCount = 0 := by rw [a2]
  -- slots 1 to 238: the rest of the burst
  have hh1 : (0 + 1) % (MAX_HSC env + 1) ≠ 0 →
      w1.sched.halfSecondCount + 1 = (0 + 1) % (MAX_HSC env + 1) := by
    intro _
    rw [w1h]
    generalize MAX_HSC env = M at *
    rcases hm with hm | hm <;> subst hm <;> omega
  have burst : ∀ j, j ≤ 238 → _ := fun j hj =>
    pollSlots_burst env allowDoubleTX he hb1 hb2 hsize (0 + 1) w1 w1u (by omega) hh1 j
      (by omega)
  obtain ⟨c1, c2, c3, c4, c5⟩ := burst 238 (Nat.le_refl _)
  generalize hs239 : pollSlots env allowDoubleTX 238 (0 + 1) (true, w1) = s239 at c1 c2 c3 c4 c5
  obtain ⟨b239, w239⟩ := s239
  simp only at c1 c2 c3 c4 c5
  subst c1
  -- slot 239: the countdown reaches 1
  obtain ⟨d1, d2, d3, d4, d5, d6, d7⟩ := pollSlot_transition env allowDoubleTX (0 + 1 + 238)
    w239 he c2 (by omega) c4
  generalize hs240 : pollSlot env allowDoubleTX ((0 + 1 + 238) % (MAX_HSC env + 1))
    (true, w239) = s240 at d1 d2 d3 d4 d5 d6 d7
  -- the final wait
  obtain ⟨f1, f2, f3⟩ := pollSlots_wait env allowDoubleTX he hb1 hb2 hsize
    ((env.FHT8VGetHC2 &&& 7) + 7) (0 + 1 + 238 + 1) s240 d2 d3 d5 d6 (by omega)
  have p239 : pollSlots env allowDoubleTX 239 0 (b, w0) = (true, w239) := by
    have := pollSlots_add env allowDoubleTX 1 238 0 (b, w0)
    rw [hs1, hs239] at this
    exact this
  have p240 : pollSlots env allowDoubleTX 240 0 (b, w0) = s240 := by
    have := pollSlots_succ env allowDoubleTX 239 0 (b, w0)
    rw [p239] at this
    have e : (0 + 239) = 0 + 1 + 238 := by omega
    rw [e, hs240] at this
    exact this
  have pafter : ∀ k, pollSlots env allowDoubleTX (240 + k) 0 (b, w0)
      = pollSlots env allowDoubleTX k (0 + 1 + 238 + 1) s240 := by
    intro k
    rw [pollSlots_add, p240]
  refine ⟨?_, ?_, ?_⟩
  · intro n hn
    rcases Nat.lt_or_ge n 240 with hlt | hge
    · cases n with
      | zero => exact w0u
      | succ n =>
        rcases Nat.lt_or_ge n 239 with hlt2 | hge2
        · have e : n + 1 = 1 + n := by omega
          rw [e, pollSlots_add, hs1]
          exact (burst n (by omega)).2.1
        · have e : n = 239 := by omega
          subst e
          rw [p240]
          exact d2
    · obtain ⟨k, rfl⟩ : ∃ k, n = 240 + k := ⟨n - 240, by omega⟩
      rw [pafter]
      exact (f1 k (by omega)).1
  · have e : (env.FHT8VGetHC2 &&& 7) + 8 = (env.FHT8VGetHC2 &&& 7) + 7 + 1 := by omega
    rw [pafter, e]
    exact f2
  · have e : (env.FHT8VGetHC2 &&& 7) + 8 = (env.FHT8VGetHC2 &&& 7) + 7 + 1 := by omega
    have key : (List.range 120).map
          (fun i => txFrame ⟨env.FHT8VGetHC1, env.FHT8VGetHC2, 0x2c, 241 - 2 * i⟩)
        = ((List.range 120).map (fun i => 241 - 2 * i)).map
          (fun e => txFrame ⟨env.FHT8VGetHC1, env.FHT8VGetHC2, 0x2c, e⟩) := by
      rw [List.map_map]
      rfl
    rw [pafter, e, f3, d4, c5, a3, w0r, w1s, key, ← burst_extensions, List.map_cons]
    simp [List.append_assoc]

/-- Witness for C13: 2 s ticks, house code 0x12/0x34, reset of a world that was
synchronised. -/
theorem C13_sync_burst_witness :
    (∀ n, n < 240 + ((exampleEnv.FHT8VGetHC2 &&& 7) + 8) →
        (pollSlots exampleEnv false n 0
          (false,
            { sched := FHT8VSyncAndTXReset (exampleWorld true true 5 7 2).sched,
              radio := (exampleWorld true true 5 7 2).radio })).2.sched.syncedWithFHT8V
            = false) ∧
      (pollSlots exampleEnv false (240 + ((exampleEnv.FHT8VGetHC2 &&& 7) + 8)) 0
        (false,
          { sched := FHT8VSyncAndTXReset (exampleWorld true true 5 7 2).sched,
            radio := (exampleWorld true true 5 7 2).radio })).2.sched.syncedWithFHT8V = true ∧
      framesSent (pollSlots exampleEnv false (240 + ((exampleEnv.FHT8VGetHC2 &&& 7) + 8)) 0
          (false,
            { sched := FHT8VSyncAndTXReset (exampleWorld true true 5 7 2).sched,
              radio := (exampleWorld true true 5 7 2).radio })).2.radio
        = framesSent (exampleWorld true true 5 7 2).radio
          ++ (List.range 120).map
              (fun i =>
                txFrame ⟨exampleEnv.FHT8VGetHC1, exampleEnv.FHT8VGetHC2, 0x2c, 241 - 2 * i⟩)
          ++ [txFrame ⟨exampleEnv.FHT8VGetHC1, exampleEnv.FHT8VGetHC2, 0x20, 0⟩] :=
  C13_sync_burst exampleEnv false false (exampleWorld true true 5 7 2) rfl (by decide)
    (by decide) (by decide)

/-- C14 as stated is false: with 2 s ticks and house code 0x12/0x34, the call of
`FHT8VPollSyncAndTX_First` made in the burst at countdown 2 returns false although
it transmits nothing (so it is not the call that transmits sync-final) and leaves
the scheduler unsynchronised. -/
theorem C14_counterexample :
    (FHT8VPollSyncAndTX_First exampleEnv false (exampleWorld false false 2 0 0)).1 = false ∧
      (FHT8VPollSyncAndTX_First exampleEnv false (exampleWorld false false 2 0 0)).2.radio.ops
        = [] ∧
      (FHT8VPollSyncAndTX_First exampleEnv false
        (exampleWorld false false 2 0 0)).2.sched.syncedWithFHT8V = false := by
  decide

/-- C14 amended.  With the local valve enabled and the scheduler not synchronised
(burst or final wait), a poll call returns false in exactly two cases: the call
at which the countdown goes from 2 to 1, and the call in the final wait that finds
the counter at 1 (the one that transmits sync-final); every other call returns
true.  The call at countdown 2 issues no radio command and leaves the scheduler
unsynchronised with countdown 1; the call at counter 1 transmits the sync-final
frame and sets synced. -/
theorem C14_more_slots_amended (env : Env) (allowDoubleTX : Bool) (w : World)
    (he : env.localFHT8VTRVEnabled = true) (hu : w.sched.syncedWithFHT8V = false)
    (hss : w.sched.syncStateFHT8V < 256) (hhs : w.sched.halfSecondsToNextFHT8VTX < 256)
    (hb1 : env.FHT8VGetHC1 < 256) (hb2 : env.FHT8VGetHC2 < 256)
    (hsize : 46 ≤ env.FHT8V_200US_BIT_STREAM_FRAME_BUF_SIZE) :
    ((FHT8VPollSyncAndTX_First env allowDoubleTX w).1 = false ↔
        (w.sched.syncStateFHT8V = 2 ∨
          (w.sched.syncStateFHT8V = 1 ∧ w.sched.halfSecondsToNextFHT8VTX = 1))) ∧
      ((FHT8VPollSyncAndTX_Next env allowDoubleTX w).1 = false ↔
        (w.sched.syncStateFHT8V = 2 ∨
          (w.sched.syncStateFHT8V = 1 ∧ w.sched.halfSecondsToNextFHT8VTX = 1))) ∧
      (w.sched.syncStateFHT8V = 2 →
        (FHT8VPollSyncAndTX_First env allowDoubleTX w).2.radio = w.radio ∧
        (FHT8VPollSyncAndTX_Next env allowDoubleTX w).2.radio = w.radio ∧
        (FHT8VPollSyncAndTX_First env allowDoubleTX w).2.sched.syncedWithFHT8V = false ∧
        (FHT8VPollSyncAndTX_Next env allowDoubleTX w).2.sched.syncedWithFHT8V = false ∧
        (FHT8VPollSyncAndTX_First env allowDoubleTX w).2.sched.syncStateFHT8V = 1 ∧
        (FHT8VPollSyncAndTX_Next env allowDoubleTX w).2.sched.syncStateFHT8V = 1) ∧
      (w.sched.syncStateFHT8V = 1 ∧ w.sched.halfSecondsToNextFHT8VTX = 1 →
        framesSent (FHT8VPollSyncAndTX_First env allowDoubleTX w).2.radio
          = framesSent w.radio ++ [txFrame ⟨env.FHT8VGetHC1, env.FHT8VGetHC2, 0x20, 0⟩] ∧
        framesSent (FHT8VPollSyncAndTX_Next env allowDoubleTX w).2.radio
          = framesSent w.radio ++ [txFrame ⟨env.FHT8VGetHC1, env.FHT8VGetHC2, 0x20, 0⟩] ∧
        (FHT8VPollSyncAndTX_First env allowDoubleTX w).2.sched.syncedWithFHT8V = true ∧
        (FHT8VPollSyncAndTX_Next env allowDoubleTX w).2.sched.syncedWithFHT8V = true) := by
  rw [FHT8VPollSyncAndTX_First_unsynced env allowDoubleTX w hu,
    FHT8VPollSyncAndTX_Next_unsynced env allowDoubleTX w hu]
  refine ⟨?_, ?_, ?_, ?_⟩
  · exact doSync_returns_false_iff env allowDoubleTX _ he hss hhs hb1 hb2 hsize
  · exact doSync_returns_false_iff env allowDoubleTX _ he hss hhs hb1 hb2 hsize
  · intro h2
    have t1 := doSync_transition env allowDoubleTX
      { w with sched := { w.sched with halfSecondCount := 0 } } he h2
    have t2 := doSync_transition env allowDoubleTX
      { w with sched := { w.sched with
          halfSecondCount := toUint8 ((w.sched.halfSecondCount : Int) + 1) } } he h2
    rw [t1, t2]
    simp [hu]
  · rintro ⟨h1, hc⟩
    have hz : toUint8 ((w.sched.halfSecondsToNextFHT8VTX : Int) - 1) = 0 := by
      rw [hc]; decide
    obtain ⟨_, a2, a3⟩ := doSync_final env allowDoubleTX
      { w with sched := { w.sched with halfSecondCount := 0 } } he h1 hz hb1 hb2 hsize
    obtain ⟨_, b2, b3⟩ := doSync_final env allowDoubleTX
      { w with sched := { w.sched with
          halfSecondCount := toUint8 ((w.sched.halfSecondCount : Int) + 1) } } he h1 hz hb1 hb2
      hsize
    rw [a2, b2]
    exact ⟨a3, b3, rfl, rfl⟩

/-- Witness for C14 amended: 2 s ticks, final wait with the counter at 5. -/
theorem C14_more_slots_amended_witness :
    ((FHT8VPollSyncAndTX_First exampleEnv false (exampleWorld false false 1 5 0)).1 = false ↔
        ((exampleWorld false false 1 5 0).sched.syncStateFHT8V = 2 ∨
          ((exampleWorld false false 1 5 0).sched.syncStateFHT8V = 1 ∧
            (exampleWorld false false 1 5 0).sched.halfSecondsToNextFHT8VTX = 1))) ∧
      ((FHT8VPollSyncAndTX_Next exampleEnv false (exampleWorld false false 1 5 0)).1 = false ↔
        ((exampleWorld false false 1 5 0).sched.syncStateFHT8V = 2 ∨
          ((exampleWorld false false 1 5 0).sched.syncStateFHT8V = 1 ∧
            (exampleWorld false false 1 5 0).sched.halfSecondsToNextFHT8VTX = 1))) :=
  ⟨(C14_more_slots_amended exampleEnv false (exampleWorld false false 1 5 0) rfl rfl
      (by decide) (by decide) (by decide) (by decide) (by decide)).1,
    (C14_more_slots_amended exampleEnv false (exampleWorld false false 1 5 0) rfl rfl
      (by decide) (by decide) (by decide) (by decide) (by decide)).2.1⟩

/-- C15 as stated is false: with 2 s ticks (MAX_HSC = 3) and hc2 = 0x34, the call
of `FHT8VPollSyncAndTX_First` at countdown 2 (slot counter 0, no slot elapsed)
sets the counter to 9 = (0x34 & 7) + 8 - 3, not to (0x34 & 7) + 8 - 0 = 12. -/
theorem C15_counterexample :
    (FHT8VPollSyncAndTX_First exampleEnv false
        (exampleWorld false false 2 0 0)).2.sched.syncStateFHT8V = 1 ∧
      (FHT8VPollSyncAndTX_First exampleEnv false
        (exampleWorld false false 2 0 0)).2.sched.halfSecondCount = 0 ∧
      (FHT8VPollSyncAndTX_First exampleEnv false
        (exampleWorld false false 2 0 0)).2.sched.halfSecondsToNextFHT8VTX = 9 ∧
      ¬ ((FHT8VPollSyncAndTX_First exampleEnv false
          (exampleWorld false false 2 0 0)).2.sched.halfSecondsToNextFHT8VTX
        = (0x34 &&& 7) + 8
          - (FHT8VPollSyncAndTX_First exampleEnv false
              (exampleWorld false false 2 0 0)).2.sched.halfSecondCount) := by
  decide

/-- C15 amended.  On the poll call at which the sync countdown goes from 2 to 1
the half-second counter is set to (hc2 & 7) + 8 minus the number of slots that
remain in the duty cycle after the current one, MAX_HSC - halfSecondCount: with
`FHT8VPollSyncAndTX_First` (slot counter 0) to (hc2 & 7) + 8 - MAX_HSC, with
`FHT8VPollSyncAndTX_Next` (slot counter incremented to h) to
(hc2 & 7) + 8 - (MAX_HSC - h). -/
theorem C15_final_wait_init_amended (env : Env) (allowDoubleTX : Bool) (w : World)
    (he : env.localFHT8VTRVEnabled = true) (hu : w.sched.syncedWithFHT8V = false)
    (h2 : w.sched.syncStateFHT8V = 2) (hh : w.sched.halfSecondCount + 1 ≤ MAX_HSC env) :
    (FHT8VPollSyncAndTX_First env allowDoubleTX w).2.sched.syncStateFHT8V = 1 ∧
      (FHT8VPollSyncAndTX_First env allowDoubleTX w).2.sched.halfSecondCount = 0 ∧
      (FHT8VPollSyncAndTX_First env allowDoubleTX w).2.sched.halfSecondsToNextFHT8VTX
        = (env.FHT8VGetHC2 &&& 7) + 8 - (MAX_HSC env - 0) ∧
      (FHT8VPollSyncAndTX_Next env allowDoubleTX w).2.sched.syncStateFHT8V = 1 ∧
      (FHT8VPollSyncAndTX_Next env allowDoubleTX w).2.sched.halfSecondCount
        = w.sched.halfSecondCount + 1 ∧
      (FHT8VPollSyncAndTX_Next env allowDoubleTX w).2.sched.halfSecondsToNextFHT8VTX
        = (env.FHT8VGetHC2 &&& 7) + 8 - (MAX_HSC env - (w.sched.halfSecondCount + 1)) := by
  have t1 := doSync_transition env allowDoubleTX
    { w with sched := { w.sched with halfSecondCount := 0 } } he h2
  have t2 := doSync_transition env allowDoubleTX
    { w with sched := { w.sched with
        halfSecondCount := toUint8 ((w.sched.halfSecondCount : Int) + 1) } } he h2
  rw [FHT8VPollSyncAndTX_First_unsynced env allowDoubleTX w hu,
    FHT8VPollSyncAndTX_Next_unsynced env allowDoubleTX w hu, t1, t2]
  have := land_7_le env.FHT8VGetHC2
  have hm := MAX_HSC_cases env
  simp only
  unfold toUint8
  refine ⟨trivial, trivial, ?_, trivial, ?_, ?_⟩ <;> omega

/-- Witness for C15 amended: 2 s ticks, hc2 = 0x34, slot counter 1 before the call. -/
theorem C15_final_wait_init_amended_witness :
    (FHT8VPollSyncAndTX_First exampleEnv false
        (exampleWorld false false 2 0 1)).2.sched.halfSecondsToNextFHT8VTX
      = (exampleEnv.FHT8VGetHC2 &&& 7) + 8 - (MAX_HSC exampleEnv - 0) ∧
    (FHT8VPollSyncAndTX_Next exampleEnv false
        (exampleWorld false false 2 0 1)).2.sched.halfSecondsToNextFHT8VTX
      = (exampleEnv.FHT8VGetHC2 &&& 7) + 8
        - (MAX_HSC exampleEnv - ((exampleWorld false false 2 0 1).sched.halfSecondCount + 1)) :=
  ⟨(C15_final_wait_init_amended exampleEnv false (exampleWorld false false 2 0 1) rfl rfl rfl
      (by decide)).2.2.1,
    (C15_final_wait_init_amended exampleEnv false (exampleWorld false false 2 0 1) rfl rfl rfl
      (by decide)).2.2.2.2.2⟩

/-- C16.  For every hc2, both slot counts (MAX_HSC 1 or 3) and every slot `t` of
the polling protocol in which the burst countdown goes from 2 to 1: that call
returns false and sends nothing, so the rest of the duty cycle is skipped; in the
following (hc2 & 7) + 8 - 1 slots nothing is sent and the scheduler stays
unsynchronised; and the sync-final frame is sent in the slot exactly
(hc2 & 7) + 8 slots after slot `t`. -/
theorem C16_sync_final_delay (env : Env) (allowDoubleTX : Bool) (t : Nat) (w : World)
    (he : env.localFHT8VTRVEnabled = true)
    (hb1 : env.FHT8VGetHC1 < 256) (hb2 : env.FHT8VGetHC2 < 256)
    (hsize : 46 ≤ env.FHT8V_200US_BIT_STREAM_FRAME_BUF_SIZE)
    (hu : w.sched.syncedWithFHT8V = false) (h2 : w.sched.syncStateFHT8V = 2)
    (hh : t % (MAX_HSC env + 1) ≠ 0 → w.sched.halfSecondCount + 1 = t % (MAX_HSC env + 1)) :
    (pollSlot env allowDoubleTX (t % (MAX_HSC env + 1)) (true, w)).1 = false ∧
      (pollSlot env allowDoubleTX (t % (MAX_HSC env + 1)) (true, w)).2.sched.syncStateFHT8V
        = 1 ∧
      (∀ n, n < (env.FHT8VGetHC2 &&& 7) + 8 →
        (pollSlots env allowDoubleTX n (t + 1)
          (pollSlot env allowDoubleTX (t % (MAX_HSC env + 1))
            (true, w))).2.sched.syncedWithFHT8V = false ∧
        framesSent (pollSlots env allowDoubleTX n (t + 1)
          (pollSlot env allowDoubleTX (t % (MAX_HSC env + 1)) (true, w))).2.radio
            = framesSent w.radio) ∧
      (pollSlots env allowDoubleTX ((env.FHT8VGetHC2 &&& 7) + 8) (t + 1)
        (pollSlot env allowDoubleTX (t % (MAX_HSC env + 1))
          (true, w))).2.sched.syncedWithFHT8V = true ∧
      framesSent (pollSlots env allowDoubleTX ((env.FHT8VGetHC2 &&& 7) + 8) (t + 1)
        (pollSlot env allowDoubleTX (t % (MAX_HSC env + 1)) (true, w))).2.radio
          = framesSent w.radio ++ [txFrame ⟨env.FHT8VGetHC1, env.FHT8VGetHC2, 0x20, 0⟩] := by
  obtain ⟨d1, d2, d3, d4, d5, d6, d7⟩ := pollSlot_transition env allowDoubleTX t w he hu h2 hh
  generalize pollSlot env allowDoubleTX (t % (MAX_HSC env + 1)) (true, w) = s1 at *
  obtain ⟨f1, f2, f3⟩ := pollSlots_wait env allowDoubleTX he hb1 hb2 hsize
    ((env.FHT8VGetHC2 &&& 7) + 7) (t + 1) s1 d2 d3 d5 d6 (by omega)
  have e : (env.FHT8VGetHC2 &&& 7) + 8 = (env.FHT8VGetHC2 &&& 7) + 7 + 1 := by omega
  refine ⟨d1, d3, ?_, ?_, ?_⟩
  · intro n hn
    obtain ⟨g1, g2⟩ := f1 n (by omega)
    exact ⟨g1, by rw [g2, d4]⟩
  · rw [e]
    exact f2
  · rw [e, f3, d4]

/-- Witness for C16: 2 s ticks, hc2 = 0x34, transition in slot 2 of a cycle. -/
theorem C16_sync_final_delay_witness :
    (pollSlot exampleEnv true (2 % (MAX_HSC exampleEnv + 1))
        (true, exampleWorld false false 2 0 1)).1 = false ∧
      (pollSlot exampleEnv true (2 % (MAX_HSC exampleEnv + 1))
        (true, exampleWorld false false 2 0 1)).2.sched.syncStateFHT8V = 1 ∧
      (∀ n, n < (exampleEnv.FHT8VGetHC2 &&& 7) + 8 →
        (pollSlots exampleEnv true n (2 + 1)
          (pollSlot exampleEnv true (2 % (MAX_HSC exampleEnv + 1))
            (true, exampleWorld false false 2 0 1))).2.sched.syncedWithFHT8V = false ∧
        framesSent (pollSlots exampleEnv true n (2 + 1)
          (pollSlot exampleEnv true (2 % (MAX_HSC exampleEnv + 1))
            (true, exampleWorld false false 2 0 1))).2.radio
            = framesSent (exampleWorld false false 2 0 1).radio) ∧
      (pollSlots exampleEnv true ((exampleEnv.FHT8VGetHC2 &&& 7) + 8) (2 + 1)
        (pollSlot exampleEnv true (2 % (MAX_HSC exampleEnv + 1))
          (true, exampleWorld false false 2 0 1))).2.sched.syncedWithFHT8V = true ∧
      framesSent (pollSlots exampleEnv true ((exampleEnv.FHT8VGetHC2 &&& 7) + 8) (2 + 1)
        (pollSlot exampleEnv true (2 % (MAX_HSC exampleEnv + 1))
          (true, exampleWorld false false 2 0 1))).2.radio
          = framesSent (exampleWorld false false 2 0 1).radio
            ++ [txFrame ⟨exampleEnv.FHT8VGetHC1, exampleEnv.FHT8VGetHC2, 0x20, 0⟩] :=
  C16_sync_final_delay exampleEnv true 2 (exampleWorld false false 2 0 1) rfl (by decide)
    (by decide) (by decide) rfl rfl (by decide)

/-- C17.  With the local valve enabled, byte house codes, a requested opening of
at most 100 % and TX buffer of at least 46 bytes, the poll call in the final wait
that finds the counter at 1 (and so decrements it to 0) transmits the frame of
the command with opcode 0x20 and extension 0, sets synced to true and the
valve-open belief to false, and leaves in the TX buffer the frame of the
valve-set command (opcode 0x26, extension percent * 255 / 100) for the stored
house codes, followed by its terminator. -/
theorem C17_sync_final_effects (env : Env) (allowDoubleTX : Bool) (first : Bool) (w : World)
    (he : env.localFHT8VTRVEnabled = true) (hu : w.sched.syncedWithFHT8V = false)
    (h1 : w.sched.syncStateFHT8V = 1) (hc : w.sched.halfSecondsToNextFHT8VTX = 1)
    (hb1 : env.FHT8VGetHC1 < 256) (hb2 : env.FHT8VGetHC2 < 256)
    (hp : env.getTRVPercentOpen ≤ 100)
    (hsize : 46 ≤ env.FHT8V_200US_BIT_STREAM_FRAME_BUF_SIZE) :
    let r := if first then FHT8VPollSyncAndTX_First env allowDoubleTX w
      else FHT8VPollSyncAndTX_Next env allowDoubleTX w
    framesSent r.2.radio
        = framesSent w.radio ++ [txFrame ⟨env.FHT8VGetHC1, env.FHT8VGetHC2, 0x20, 0⟩] ∧
      r.2.sched.syncedWithFHT8V = true ∧
      r.2.sched.FHT8V_isValveOpen = false ∧
      getFHT8V_isValveOpen r.2.sched = false ∧
      frameToFF r.2.sched.FHT8VTXCommandArea env.FHT8V_200US_BIT_STREAM_FRAME_BUF_SIZE
        = txFrame ⟨env.FHT8VGetHC1, env.FHT8VGetHC2, 0x26, env.getTRVPercentOpen * 255 / 100⟩ ∧
      r.2.sched.FHT8VTXCommandArea
          (txFrame ⟨env.FHT8VGetHC1, env.FHT8VGetHC2, 0x26,
            env.getTRVPercentOpen * 255 / 100⟩).length = 0xff := by
  intro r
  have hz : toUint8 ((w.sched.halfSecondsToNextFHT8VTX : Int) - 1) = 0 := by
    rw [hc]; decide
  have hext : env.getTRVPercentOpen * 255 / 100 < 256 := by omega
  have key : ∀ w1 : World, w1.sched.syncStateFHT8V = 1 →
      w1.sched.halfSecondsToNextFHT8VTX = w.sched.halfSecondsToNextFHT8VTX →
      w1.radio = w.radio →
      framesSent (doSync env allowDoubleTX w1).2.radio
        = framesSent w.radio ++ [txFrame ⟨env.FHT8VGetHC1, env.FHT8VGetHC2, 0x20, 0⟩] ∧
      (doSync env allowDoubleTX w1).2.sched.syncedWithFHT8V = true ∧
      (doSync env allowDoubleTX w1).2.sched.FHT8V_isValveOpen = false ∧
      getFHT8V_isValveOpen (doSync env allowDoubleTX w1).2.sched = false ∧
      frameToFF (doSync env allowDoubleTX w1).2.sched.FHT8VTXCommandArea
          env.FHT8V_200US_BIT_STREAM_FRAME_BUF_SIZE
        = txFrame ⟨env.FHT8VGetHC1, env.FHT8VGetHC2, 0x26, env.getTRVPercentOpen * 255 / 100⟩ ∧
      (doSync env allowDoubleTX w1).2.sched.FHT8VTXCommandArea
          (txFrame ⟨env.FHT8VGetHC1, env.FHT8VGetHC2, 0x26,
            env.getTRVPercentOpen * 255 / 100⟩).length = 0xff := by
    intro w1 e1 e2 e3
    obtain ⟨_, a2, a3⟩ := doSync_final env allowDoubleTX w1 he e1 (by rw [e2]; exact hz)
      hb1 hb2 hsize
    have hmod : env.getTRVPercentOpen * 255 / 100 % 256 = env.getTRVPercentOpen * 255 / 100 :=
      Nat.mod_eq_of_lt hext
    rw [a2, a3, e3, hmod]
    obtain ⟨f1, _⟩ := frameToFF_encode
      (FHT8VCreate200usBitStreamBptr w1.sched.FHT8VTXCommandArea 0
        ⟨env.FHT8VGetHC1, env.FHT8VGetHC2, 0x20, 0⟩).1
      ⟨env.FHT8VGetHC1, env.FHT8VGetHC2, 0x26, env.getTRVPercentOpen * 255 / 100⟩
      env.FHT8V_200US_BIT_STREAM_FRAME_BUF_SIZE ⟨hb1, hb2, by simp, hext⟩ hsize
    refine ⟨rfl, rfl, rfl, by simp [getFHT8V_isValveOpen], f1, ?_⟩
    exact encode_terminator_at_txFrame_length _ _
  by_cases hf : first = true
  · have : r = FHT8VPollSyncAndTX_First env allowDoubleTX w := by simp [r, hf]
    rw [this, FHT8VPollSyncAndTX_First_unsynced env allowDoubleTX w hu]
    exact key _ h1 rfl rfl
  · have : r = FHT8VPollSyncAndTX_Next env allowDoubleTX w := by simp [r, hf]
    rw [this, FHT8VPollSyncAndTX_Next_unsynced env allowDoubleTX w hu]
    exact key _ h1 rfl rfl

/-- Witness for C17: 2 s ticks, house code 0x12/0x34, 50 % requested, final wait
with the counter at 1, call of `FHT8VPollSyncAndTX_First`. -/
theorem C17_sync_final_effects_witness :
    let r := if true = true
      then FHT8VPollSyncAndTX_First exampleEnv false (exampleWorld false true 1 1 0)
      else FHT8VPollSyncAndTX_Next exampleEnv false (exampleWorld false true 1 1 0)
    framesSent r.2.radio
        = framesSent (exampleWorld false true 1 1 0).radio
          ++ [txFrame ⟨exampleEnv.FHT8VGetHC1, exampleEnv.FHT8VGetHC2, 0x20, 0⟩] ∧
      r.2.sched.syncedWithFHT8V = true ∧
      r.2.sched.FHT8V_isValveOpen = false ∧
      getFHT8V_isValveOpen r.2.sched = false ∧
      frameToFF r.2.sched.FHT8VTXCommandArea exampleEnv.FHT8V_200US_BIT_STREAM_FRAME_BUF_SIZE
        = txFrame ⟨exampleEnv.FHT8VGetHC1, exampleEnv.FHT8VGetHC2, 0x26,
            exampleEnv.getTRVPercentOpen * 255 / 100⟩ ∧
      r.2.sched.FHT8VTXCommandArea
          (txFrame ⟨exampleEnv.FHT8VGetHC1, exampleEnv.FHT8VGetHC2, 0x26,
            exampleEnv.getTRVPercentOpen * 255 / 100⟩).length = 0xff :=
  C17_sync_final_effects exampleEnv false true (exampleWorld false true 1 1 0) rfl rfl rfl rfl
    (by decide) (by decide) (by decide) (by decide)

/-- C18 as stated is false: with 2 s ticks the two-argument gap for hc2 = 0x34 and
no slot elapsed is 231, not (0x34 & 7) + 230 = 234. -/
theorem C18_counterexample :
    ¬ (FHT8VTXGapHalfSeconds2 exampleEnv 0x34 0 = (0x34 &&& 7) + 230 ∧
        230 ≤ FHT8VTXGapHalfSeconds2 exampleEnv 0x34 0 ∧
        FHT8VTXGapHalfSeconds2 exampleEnv 0x34 0 ≤ 237) := by
  decide

/-- C18 amended.  For every hc2 the one-argument `FHT8VTXGapHalfSeconds(hc2)` is
(hc2 & 7) + 230 and lies in [230,237]; the two-argument form with no slot elapsed
is (hc2 & 7) + 230 - MAX_HSC, and with MAX_HSC slots elapsed it is
(hc2 & 7) + 230. -/
theorem C18_gap_amended (env : Env) (hc2 : Nat) :
    FHT8VTXGapHalfSeconds hc2 = (hc2 &&& 7) + 230 ∧
      230 ≤ FHT8VTXGapHalfSeconds hc2 ∧ FHT8VTXGapHalfSeconds hc2 ≤ 237 ∧
      FHT8VTXGapHalfSeconds2 env hc2 0 = (hc2 &&& 7) + 230 - MAX_HSC env ∧
      FHT8VTXGapHalfSeconds2 env hc2 (MAX_HSC env) = (hc2 &&& 7) + 230 := by
  have := land_7_le hc2
  have e1 := FHT8VTXGapHalfSeconds_eq hc2
  have e2 := FHT8VTXGapHalfSeconds2_eq env hc2 0 (Nat.zero_le _)
  have e3 := FHT8VTXGapHalfSeconds2_eq env hc2 (MAX_HSC env) (Nat.le_refl _)
  refine ⟨e1, by omega, by omega, by omega, by omega⟩

/-- C19.  Once synchronised, for every hc2 and both slot counts, under the polling
protocol started at the first slot of a duty cycle: whenever a frame is sent in
some slot, nothing is sent in the following (hc2 & 7) + 230 - 1 slots and the
buffered frame is sent again in the slot exactly (hc2 & 7) + 230 slots after it;
this period lies in [230,237] half-seconds. -/
theorem C19_retransmission_period (env : Env) (allowDoubleTX : Bool) (b : Bool) (w : World)
    (n : Nat) (hs : w.sched.syncedWithFHT8V = true)
    (hc : w.sched.halfSecondsToNextFHT8VTX < 256)
    (htx : framesSent (pollSlots env allowDoubleTX (n + 1) 0 (b, w)).2.radio
      ≠ framesSent (pollSlots env allowDoubleTX n 0 (b, w)).2.radio) :
    (∀ k, k < (env.FHT8VGetHC2 &&& 7) + 230 →
        framesSent (pollSlots env allowDoubleTX (n + 1 + k) 0 (b, w)).2.radio
          = framesSent (pollSlots env allowDoubleTX (n + 1) 0 (b, w)).2.radio) ∧
      framesSent (pollSlots env allowDoubleTX
          (n + 1 + ((env.FHT8VGetHC2 &&& 7) + 230)) 0 (b, w)).2.radio
        = framesSent (pollSlots env allowDoubleTX (n + 1) 0 (b, w)).2.radio
          ++ [frameToFF w.sched.FHT8VTXCommandArea
                env.FHT8V_200US_BIT_STREAM_FRAME_BUF_SIZE] ∧
      230 ≤ (env.FHT8VGetHC2 &&& 7) + 230 ∧ (env.FHT8VGetHC2 &&& 7) + 230 ≤ 237 := by
  have h7 := land_7_le env.FHT8VGetHC2
  obtain ⟨i1, i2, i3, i4⟩ := pollSlots_synced_inv env allowDoubleTX n 0 (b, w) hs hc
    (fun h => absurd (Nat.zero_mod _) h)
  rw [pollSlots_succ] at htx
  obtain ⟨a1, a2, a3, a4, a5⟩ := pollSlot_synced env allowDoubleTX (0 + n)
    (pollSlots env allowDoubleTX n 0 (b, w)) i1 i2 i4
  rcases a5 with ⟨hf, _⟩ | ⟨_, hne, hc1, hrem, _⟩
  · exact absurd hf htx
  · have hstep := pollSlots_succ env allowDoubleTX n 0 (b, w)
    rw [← hstep] at a1 a2 a3 a4 hc1 hrem
    obtain ⟨r1, r2⟩ := pollSlots_synced_run env allowDoubleTX ((env.FHT8VGetHC2 &&& 7) + 229)
      (0 + n + 1) (pollSlots env allowDoubleTX (n + 1) 0 (b, w)) a1 a2 a4 hc1
      (by rw [a3]; exact hne) (by omega)
    have hadd : ∀ k, pollSlots env allowDoubleTX (n + 1 + k) 0 (b, w)
        = pollSlots env allowDoubleTX k (0 + n + 1)
            (pollSlots env allowDoubleTX (n + 1) 0 (b, w)) := by
      intro k
      rw [pollSlots_add]
      have e : 0 + (n + 1) = 0 + n + 1 := by omega
      rw [e]
    refine ⟨?_, ?_, by omega, by omega⟩
    · intro k hk
      rw [hadd]
      exact r1 k (by omega)
    · rw [hadd]
      have e : (env.FHT8VGetHC2 &&& 7) + 230 = (env.FHT8VGetHC2 &&& 7) + 229 + 1 := by omega
      rw [e, r2, a3, i3]

/-- Witness for C19: 2 s ticks, hc2 = 0x34, synchronised with the counter at 1, so
that a frame is sent in slot 0. -/
theorem C19_retransmission_period_witness :
    (∀ k, k < (exampleEnv.FHT8VGetHC2 &&& 7) + 230 →
        framesSent (pollSlots exampleEnv false (0 + 1 + k) 0
            (false, exampleWorld true false 1 1 0)).2.radio
          = framesSent (pollSlots exampleEnv false (0 + 1) 0
            (false, exampleWorld true false 1 1 0)).2.radio) ∧
      framesSent (pollSlots exampleEnv false
          (0 + 1 + ((exampleEnv.FHT8VGetHC2 &&& 7) + 230)) 0
          (false, exampleWorld true false 1 1 0)).2.radio
        = framesSent (pollSlots exampleEnv false (0 + 1) 0
            (false, exampleWorld true false 1 1 0)).2.radio
          ++ [frameToFF (exampleWorld true false 1 1 0).sched.FHT8VTXCommandArea
                exampleEnv.FHT8V_200US_BIT_STREAM_FRAME_BUF_SIZE] ∧
      230 ≤ (exampleEnv.FHT8VGetHC2 &&& 7) + 230 ∧
      (exampleEnv.FHT8VGetHC2 &&& 7) + 230 ≤ 237 :=
  C19_retransmission_period exampleEnv false false (exampleWorld true false 1 1 0) 0 rfl
    (by decide) (by decide)

/-- C20.  When synchronised and the gap counter (a byte) exceeds MAX_HSC + 1,
`FHT8VPollSyncAndTX_First` returns false, issues no radio command (so transmits
nothing), decreases the counter by exactly MAX_HSC + 1, and leaves the synced
flag, the valve-open belief and the TX buffer unchanged. -/
theorem C20_no_tx_this_cycle (env : Env) (allowDoubleTX : Bool) (w : World)
    (hs : w.sched.syncedWithFHT8V = true)
    (hb : w.sched.halfSecondsToNextFHT8VTX < 256)
    (hg : w.sched.halfSecondsToNextFHT8VTX > MAX_HSC env + 1) :
    (FHT8VPollSyncAndTX_First env allowDoubleTX w).1 = false ∧
      (FHT8VPollSyncAndTX_First env allowDoubleTX w).2.radio = w.radio ∧
      (FHT8VPollSyncAndTX_First env allowDoubleTX w).2.sched.halfSecondsToNextFHT8VTX
        = w.sched.halfSecondsToNextFHT8VTX - (MAX_HSC env + 1) ∧
      (FHT8VPollSyncAndTX_First env allowDoubleTX w).2.sched.syncedWithFHT8V = true ∧
      (FHT8VPollSyncAndTX_First env allowDoubleTX w).2.sched.FHT8V_isValveOpen
        = w.sched.FHT8V_isValveOpen ∧
      getFHT8V_isValveOpen (FHT8VPollSyncAndTX_First env allowDoubleTX w).2.sched
        = getFHT8V_isValveOpen w.sched ∧
      (FHT8VPollSyncAndTX_First env allowDoubleTX w).2.sched.FHT8VTXCommandArea
        = w.sched.FHT8VTXCommandArea := by
  rw [FHT8VPollSyncAndTX_First_skip env allowDoubleTX w hs hg]
  have hm := MAX_HSC_cases env
  have e : toUint8 ((w.sched.halfSecondsToNextFHT8VTX : Int) - ((MAX_HSC env : Int) + 1))
      = w.sched.halfSecondsToNextFHT8VTX - (MAX_HSC env + 1) := by
    unfold toUint8
    omega
  simp [e, hs, getFHT8V_isValveOpen]

/-- Witness for C20: 2 s ticks, synchronised, counter 100. -/
theorem C20_no_tx_this_cycle_witness :
    (FHT8VPollSyncAndTX_First exampleEnv true (exampleWorld true true 1 100 3)).1 = false ∧
      (FHT8VPollSyncAndTX_First exampleEnv true (exampleWorld true true 1 100 3)).2.radio
        = (exampleWorld true true 1 100 3).radio ∧
      (FHT8VPollSyncAndTX_First exampleEnv true
          (exampleWorld true true 1 100 3)).2.sched.halfSecondsToNextFHT8VTX
        = (exampleWorld true true 1 100 3).sched.halfSecondsToNextFHT8VTX
          - (MAX_HSC exampleEnv + 1) ∧
      (FHT8VPollSyncAndTX_First exampleEnv true
          (exampleWorld true true 1 100 3)).2.sched.syncedWithFHT8V = true ∧
      (FHT8VPollSyncAndTX_First exampleEnv true
          (exampleWorld true true 1 100 3)).2.sched.FHT8V_isValveOpen
        = (exampleWorld true true 1 100 3).sched.FHT8V_isValveOpen ∧
      getFHT8V_isValveOpen (FHT8VPollSyncAndTX_First exampleEnv true
          (exampleWorld true true 1 100 3)).2.sched
        = getFHT8V_isValveOpen (exampleWorld true true 1 100 3).sched ∧
      (FHT8VPollSyncAndTX_First exampleEnv true
          (exampleWorld true true 1 100 3)).2.sched.FHT8VTXCommandArea
        = (exampleWorld true true 1 100 3).sched.FHT8VTXCommandArea :=
  C20_no_tx_this_cycle exampleEnv true (exampleWorld true true 1 100 3) rfl (by decide)
    (by decide)

/-! ## Claims C21 to C30: valve-open belief, disable, reset, extra TX, hub receiver -/

/-- C21.  When synchronised, the poll call (either entry point) that finds the gap
counter at 1, and so decrements it to 0, hands the buffered frame to the radio
(unless the buffer starts with the terminator, in which case there is no frame),
sets the belief to (requested percent >= minimum really-open percent), stays
synchronised and returns false; and `getFHT8V_isValveOpen` is synced && belief in
every state, so it is false whenever synced is false. -/
theorem C21_valve_open_belief (env : Env) (allowDoubleTX : Bool) (first : Bool) (w : World)
    (hs : w.sched.syncedWithFHT8V = true) (hc : w.sched.halfSecondsToNextFHT8VTX = 1) :
    let r := if first then FHT8VPollSyncAndTX_First env allowDoubleTX w
      else FHT8VPollSyncAndTX_Next env allowDoubleTX w
    r.1 = false ∧
      framesSent r.2.radio
        = framesSent w.radio ++
          (if w.sched.FHT8VTXCommandArea 0 = 0xff then []
            else [frameToFF w.sched.FHT8VTXCommandArea
              env.FHT8V_200US_BIT_STREAM_FRAME_BUF_SIZE]) ∧
      r.2.sched.FHT8V_isValveOpen
        = decide (env.getTRVPercentOpen ≥ env.FHT8V_MIN_VALVE_PC_REALLY_OPEN) ∧
      r.2.sched.syncedWithFHT8V = true ∧
      getFHT8V_isValveOpen r.2.sched
        = decide (env.getTRVPercentOpen ≥ env.FHT8V_MIN_VALVE_PC_REALLY_OPEN) ∧
      (∀ s : SchedulerState,
        getFHT8V_isValveOpen s = (s.syncedWithFHT8V && s.FHT8V_isValveOpen)) ∧
      (∀ s : SchedulerState, s.syncedWithFHT8V = false → getFHT8V_isValveOpen s = false) := by
  intro r
  have hz : toUint8 ((w.sched.halfSecondsToNextFHT8VTX : Int) - 1) = 0 := by
    rw [hc]; decide
  have hm := MAX_HSC_cases env
  have hg : ¬ w.sched.halfSecondsToNextFHT8VTX > MAX_HSC env + 1 := by omega
  have hframes : ∀ r0 : RadioState, framesSent r0 = framesSent w.radio →
      framesSent (FHT8VTXFHTQueueAndSendCmd env w.sched.FHT8VTXCommandArea allowDoubleTX r0)
        = framesSent w.radio ++
          (if w.sched.FHT8VTXCommandArea 0 = 0xff then []
            else [frameToFF w.sched.FHT8VTXCommandArea
              env.FHT8V_200US_BIT_STREAM_FRAME_BUF_SIZE]) := by
    intro r0 h0
    by_cases hempty : w.sched.FHT8VTXCommandArea 0 = 0xff
    · rw [FHT8VTXFHTQueueAndSendCmd_empty env _ _ _ hempty, if_pos hempty, h0]
      simp
    · rw [framesSent_TX env _ _ _ hempty, if_neg hempty, h0]
  refine ⟨?_, ?_, ?_, ?_, ?_, fun s => rfl, ?_⟩
  · cases first
    · simp only [r, Bool.false_eq_true, if_false]
      rw [FHT8VPollSyncAndTX_Next_tx env allowDoubleTX w hs hz]
    · simp only [r, if_true]
      rw [FHT8VPollSyncAndTX_First_tx env allowDoubleTX w hs hg hz]
  · cases first
    · simp only [r, Bool.false_eq_true, if_false]
      rw [FHT8VPollSyncAndTX_Next_tx env allowDoubleTX w hs hz]
      exact hframes _ (framesSent_sleep env w.radio)
    · simp only [r, if_true]
      rw [FHT8VPollSyncAndTX_First_tx env allowDoubleTX w hs hg hz]
      exact hframes _ rfl
  · cases first
    · simp only [r, Bool.false_eq_true, if_false]
      rw [FHT8VPollSyncAndTX_Next_tx env allowDoubleTX w hs hz]
    · simp only [r, if_true]
      rw [FHT8VPollSyncAndTX_First_tx env allowDoubleTX w hs hg hz]
  · cases first
    · simp only [r, Bool.false_eq_true, if_false]
      rw [FHT8VPollSyncAndTX_Next_tx env allowDoubleTX w hs hz]
      exact hs
    · simp only [r, if_true]
      rw [FHT8VPollSyncAndTX_First_tx env allowDoubleTX w hs hg hz]
      exact hs
  · cases first
    · simp only [r, Bool.false_eq_true, if_false]
      rw [FHT8VPollSyncAndTX_Next_tx env allowDoubleTX w hs hz]
      simp [getFHT8V_isValveOpen, hs]
    · simp only [r, if_true]
      rw [FHT8VPollSyncAndTX_First_tx env allowDoubleTX w hs hg hz]
      simp [getFHT8V_isValveOpen, hs]
  · intro s h
    simp [getFHT8V_isValveOpen, h]

/-- Witness for C21: 2 s ticks, synchronised with the counter at 1, 50 % requested
against a threshold of 10 %, call of `FHT8VPollSyncAndTX_Next`. -/
theorem C21_valve_open_belief_witness :
    (FHT8VPollSyncAndTX_Next exampleEnv false (exampleWorld true false 1 1 0)).1 = false ∧
      (FHT8VPollSyncAndTX_Next exampleEnv false
        (exampleWorld true false 1 1 0)).2.sched.FHT8V_isValveOpen
          = decide (exampleEnv.getTRVPercentOpen ≥ exampleEnv.FHT8V_MIN_VALVE_PC_REALLY_OPEN) :=
  ⟨(C21_valve_open_belief exampleEnv false false (exampleWorld true false 1 1 0)
      rfl rfl).1,
    (C21_valve_open_belief exampleEnv false false (exampleWorld true false 1 1 0)
      rfl rfl).2.2.1⟩

/-- C22 (code defect).  With the local valve disabled, a synchronised scheduler
keeps transmitting.  Evaluated: synchronised with the valve-set frame in the
buffer and gap counter 1, `FHT8VPollSyncAndTX_First` hands that frame to the radio,
fires one transmission and stays synchronised; with gap counter 2 it returns true,
asking for further calls.  In general, when synchronised both entry points give the
same result with the valve disabled as with it enabled, and at gap counter 1 with
a non-empty buffer they hand the buffered frame over and stay synchronised.  Only
an unsynchronised scheduler honours the flag: then a poll returns false, issues no
radio command and leaves synced false, and it leaves the sync countdown as it was
(it is not set to 0). -/
theorem C22_disabled_synced_still_transmits :
    exampleEnvDisabled.localFHT8VTRVEnabled = false ∧
      (exampleSyncedWorld 1 0).sched.syncedWithFHT8V = true ∧
      framesSent (FHT8VPollSyncAndTX_First exampleEnvDisabled false
          (exampleSyncedWorld 1 0)).2.radio
        = [txFrame ⟨0x12, 0x34, 0x26, 127⟩] ∧
      txFIFOCount (FHT8VPollSyncAndTX_First exampleEnvDisabled false
          (exampleSyncedWorld 1 0)).2.radio = 1 ∧
      (FHT8VPollSyncAndTX_First exampleEnvDisabled false
          (exampleSyncedWorld 1 0)).2.sched.syncedWithFHT8V = true ∧
      (FHT8VPollSyncAndTX_First exampleEnvDisabled false (exampleSyncedWorld 2 0)).1 = true ∧
      (∀ (env : Env) (allowDoubleTX : Bool) (w : World),
        w.sched.syncedWithFHT8V = true →
        FHT8VPollSyncAndTX_First { env with localFHT8VTRVEnabled := false } allowDoubleTX w
            = FHT8VPollSyncAndTX_First { env with localFHT8VTRVEnabled := true }
                allowDoubleTX w ∧
          FHT8VPollSyncAndTX_Next { env with localFHT8VTRVEnabled := false } allowDoubleTX w
            = FHT8VPollSyncAndTX_Next { env with localFHT8VTRVEnabled := true }
                allowDoubleTX w) ∧
      (∀ (env : Env) (allowDoubleTX : Bool) (first : Bool) (w : World),
        env.localFHT8VTRVEnabled = false → w.sched.syncedWithFHT8V = true →
        w.sched.halfSecondsToNextFHT8VTX = 1 → w.sched.FHT8VTXCommandArea 0 ≠ 0xff →
        let r := if first then FHT8VPollSyncAndTX_First env allowDoubleTX w
          else FHT8VPollSyncAndTX_Next env allowDoubleTX w
        framesSent r.2.radio
            = framesSent w.radio
              ++ [frameToFF w.sched.FHT8VTXCommandArea
                    env.FHT8V_200US_BIT_STREAM_FRAME_BUF_SIZE] ∧
          r.2.sched.syncedWithFHT8V = true) ∧
      (∀ (env : Env) (allowDoubleTX : Bool) (first : Bool) (w : World),
        env.localFHT8VTRVEnabled = false → w.sched.syncedWithFHT8V = false →
        let r := if first then FHT8VPollSyncAndTX_First env allowDoubleTX w
          else FHT8VPollSyncAndTX_Next env allowDoubleTX w
        r.1 = false ∧ r.2.radio = w.radio ∧
          r.2.sched.syncedWithFHT8V = false ∧
          r.2.sched.syncStateFHT8V = w.sched.syncStateFHT8V ∧
          r.2.sched.halfSecondsToNextFHT8VTX = w.sched.halfSecondsToNextFHT8VTX ∧
          r.2.sched.FHT8V_isValveOpen = w.sched.FHT8V_isValveOpen ∧
          r.2.sched.FHT8VTXCommandArea = w.sched.FHT8VTXCommandArea) := by
  refine ⟨rfl, rfl, by decide, by decide, by decide, by decide, ?_, ?_, ?_⟩
  · intro env allowDoubleTX w hs
    obtain ⟨a1, a2⟩ := pollSynced_enabled_irrelevant env false allowDoubleTX w hs
    obtain ⟨b1, b2⟩ := pollSynced_enabled_irrelevant env true allowDoubleTX w hs
    exact ⟨a1.trans b1.symm, a2.trans b2.symm⟩
  · intro env allowDoubleTX first w _ hs h1 hne
    have hm := MAX_HSC_cases env
    have hg : ¬ w.sched.halfSecondsToNextFHT8VTX > MAX_HSC env + 1 := by
      rw [h1]
      omega
    have hz : toUint8 ((w.sched.halfSecondsToNextFHT8VTX : Int) - 1) = 0 := by
      rw [h1]
      decide
    intro r
    cases first
    · have hr : r = FHT8VPollSyncAndTX_Next env allowDoubleTX w := rfl
      rw [hr, FHT8VPollSyncAndTX_Next_tx env allowDoubleTX w hs hz]
      refine ⟨?_, hs⟩
      show framesSent (FHT8VTXFHTQueueAndSendCmd env w.sched.FHT8VTXCommandArea allowDoubleTX
        (sleepUntilSubCycleTimeOptionalRX env w.radio)) = _
      rw [framesSent_TX env _ allowDoubleTX _ hne, framesSent_sleep]
    · have hr : r = FHT8VPollSyncAndTX_First env allowDoubleTX w := rfl
      rw [hr, FHT8VPollSyncAndTX_First_tx env allowDoubleTX w hs hg hz]
      refine ⟨?_, hs⟩
      show framesSent (FHT8VTXFHTQueueAndSendCmd env w.sched.FHT8VTXCommandArea allowDoubleTX
        w.radio) = _
      rw [framesSent_TX env _ allowDoubleTX _ hne]
  · intro env allowDoubleTX first w hd hu r
    have key : ∀ w1 : World, doSync env allowDoubleTX w1
        = (false, { w1 with sched := { w1.sched with syncedWithFHT8V := false } }) := by
      intro w1
      simp [doSync, hd]
    have hr : r = if first
        then doSync env allowDoubleTX { w with sched := { w.sched with halfSecondCount := 0 } }
        else doSync env allowDoubleTX { w with sched := { w.sched with
          halfSecondCount := toUint8 ((w.sched.halfSecondCount : Int) + 1) } } := by
      simp only [r]
      rw [FHT8VPollSyncAndTX_First_unsynced env allowDoubleTX w hu,
        FHT8VPollSyncAndTX_Next_unsynced env allowDoubleTX w hu]
    rw [hr, key, key]
    cases first <;> exact ⟨rfl, rfl, rfl, rfl, rfl, rfl, rfl⟩

/-- C23.  After `FHT8VSyncAndTXReset` from any state, synced is false, the sync
countdown is 0, the gap counter is 0 and `getFHT8V_isValveOpen` is false; and the
next poll call (either entry point) with the local valve enabled, byte house codes
and a TX buffer of at least 46 bytes hands exactly the sync-step frame (opcode
0x2c) with extension 241 to the radio, leaves the countdown at 240 and returns
true. -/
theorem C23_reset (env : Env) (allowDoubleTX : Bool) (first : Bool) (w : World)
    (he : env.localFHT8VTRVEnabled = true)
    (hb1 : env.FHT8VGetHC1 < 256) (hb2 : env.FHT8VGetHC2 < 256)
    (hsize : 46 ≤ env.FHT8V_200US_BIT_STREAM_FRAME_BUF_SIZE) :
    let r := if first
      then FHT8VPollSyncAndTX_First env allowDoubleTX
        { sched := FHT8VSyncAndTXReset w.sched, radio := w.radio }
      else FHT8VPollSyncAndTX_Next env allowDoubleTX
        { sched := FHT8VSyncAndTXReset w.sched, radio := w.radio }
    (FHT8VSyncAndTXReset w.sched).syncedWithFHT8V = false ∧
      (FHT8VSyncAndTXReset w.sched).syncStateFHT8V = 0 ∧
      (FHT8VSyncAndTXReset w.sched).halfSecondsToNextFHT8VTX = 0 ∧
      getFHT8V_isValveOpen (FHT8VSyncAndTXReset w.sched) = false ∧
      framesSent r.2.radio
        = framesSent w.radio ++ [txFrame ⟨env.FHT8VGetHC1, env.FHT8VGetHC2, 0x2c, 241⟩] ∧
      r.2.sched.syncStateFHT8V = 240 ∧ r.2.sched.syncedWithFHT8V = false ∧ r.1 = true := by
  intro r
  have key : ∀ w1 : World, w1.sched.syncStateFHT8V = 0 → w1.sched.syncedWithFHT8V = false →
      w1.radio = w.radio →
      framesSent (doSync env allowDoubleTX w1).2.radio
        = framesSent w.radio ++ [txFrame ⟨env.FHT8VGetHC1, env.FHT8VGetHC2, 0x2c, 241⟩] ∧
      (doSync env allowDoubleTX w1).2.sched.syncStateFHT8V = 240 ∧
      (doSync env allowDoubleTX w1).2.sched.syncedWithFHT8V = false ∧
      (doSync env allowDoubleTX w1).1 = true := by
    intro w1 e0 eu er
    rw [doSync_zero env allowDoubleTX w1 he e0]
    obtain ⟨a1, a2, a3⟩ := doSync_burst_odd env allowDoubleTX
      { w1 with sched := { w1.sched with syncStateFHT8V := 241 } } he (by simp) (by simp)
      (by simp) hb1 hb2 hsize
    rw [a1, a2, a3]
    exact ⟨by rw [← er], rfl, eu, rfl⟩
  refine ⟨rfl, rfl, rfl, rfl, ?_⟩
  cases first
  · simp only [r, Bool.false_eq_true, if_false]
    rw [FHT8VPollSyncAndTX_Next_unsynced env allowDoubleTX _ rfl]
    exact key _ rfl rfl rfl
  · simp only [r, if_true]
    rw [FHT8VPollSyncAndTX_First_unsynced env allowDoubleTX _ rfl]
    exact key _ rfl rfl rfl

/-- Witness for C23: 2 s ticks, house code 0x12/0x34, reset of a synchronised world,
then `FHT8VPollSyncAndTX_First`. -/
theorem C23_reset_witness :
    framesSent (FHT8VPollSyncAndTX_First exampleEnv false
        { sched := FHT8VSyncAndTXReset (exampleWorld true true 7 100 2).sched,
          radio := (exampleWorld true true 7 100 2).radio }).2.radio
      = framesSent (exampleWorld true true 7 100 2).radio
        ++ [txFrame ⟨exampleEnv.FHT8VGetHC1, exampleEnv.FHT8VGetHC2, 0x2c, 241⟩] :=
  (C23_reset exampleEnv false true (exampleWorld true true 7 100 2) rfl (by decide)
    (by decide) (by decide)).2.2.2.2.1

/-- C24 as stated is false: with the gap counter at exactly 20 (not strictly
between 20 and 210), synchronised and 50 % requested against a threshold of 10 %,
`FHT8VDoSafeExtraTXToHub` returns true and transmits once. -/
theorem C24_counterexample :
    (FHT8VDoSafeExtraTXToHub exampleEnv (exampleWorld true true 1 20 0)).1 = true ∧
      txFIFOCount (FHT8VDoSafeExtraTXToHub exampleEnv (exampleWorld true true 1 20 0)).2.radio
        = 1 ∧
      (FHT8VDoSafeExtraTXToHub exampleEnv (exampleWorld true true 1 210 0)).1 = true ∧
      ¬ (20 < (exampleWorld true true 1 20 0).sched.halfSecondsToNextFHT8VTX) := by
  decide

/-- C24 amended.  `FHT8VDoSafeExtraTXToHub` returns true if and only if the
scheduler is synchronised, the gap counter is at least 20 and at most 210, and the
requested percentage is at or above the minimum really-open threshold.  When it
returns true it hands the buffered frame to the radio and transmits it exactly once
(nothing if the buffer starts with the terminator); when it returns false the whole
state, radio included, is unchanged. -/
theorem C24_extra_tx_guard_amended (env : Env) (w : World) :
    ((FHT8VDoSafeExtraTXToHub env w).1 = true ↔
        (w.sched.syncedWithFHT8V = true ∧ 20 ≤ w.sched.halfSecondsToNextFHT8VTX ∧
          w.sched.halfSecondsToNextFHT8VTX ≤ 210 ∧
          env.getTRVPercentOpen ≥ env.FHT8V_MIN_VALVE_PC_REALLY_OPEN)) ∧
      ((FHT8VDoSafeExtraTXToHub env w).1 = true →
        w.sched.FHT8VTXCommandArea 0 ≠ 0xff →
        framesSent (FHT8VDoSafeExtraTXToHub env w).2.radio
          = framesSent w.radio
            ++ [frameToFF w.sched.FHT8VTXCommandArea
                  env.FHT8V_200US_BIT_STREAM_FRAME_BUF_SIZE] ∧
        txFIFOCount (FHT8VDoSafeExtraTXToHub env w).2.radio = txFIFOCount w.radio + 1) ∧
      ((FHT8VDoSafeExtraTXToHub env w).1 = true →
        w.sched.FHT8VTXCommandArea 0 = 0xff →
        (FHT8VDoSafeExtraTXToHub env w).2 = w) ∧
      ((FHT8VDoSafeExtraTXToHub env w).1 = false → (FHT8VDoSafeExtraTXToHub env w).2 = w) := by
  unfold FHT8VDoSafeExtraTXToHub
  by_cases h1 : w.sched.syncedWithFHT8V = true
  · by_cases h2 : w.sched.halfSecondsToNextFHT8VTX < 20 ∨ w.sched.halfSecondsToNextFHT8VTX > 210
    · simp only [h1, Bool.not_true, Bool.false_eq_true, if_false, h2, if_true]
      refine ⟨?_, ?_, ?_, ?_⟩
      · constructor
        · intro h; exact absurd h (by simp)
        · rintro ⟨_, a, b, _⟩; omega
      · intro h; exact absurd h (by simp)
      · intro h; exact absurd h (by simp)
      · intro _; first | rfl | trivial
    · by_cases h3 : env.getTRVPercentOpen < env.FHT8V_MIN_VALVE_PC_REALLY_OPEN
      · simp only [h1, Bool.not_true, Bool.false_eq_true, if_false, h2, h3, if_true]
        refine ⟨?_, ?_, ?_, ?_⟩
        · constructor
          · intro h; exact absurd h (by simp)
          · rintro ⟨_, _, _, c⟩; omega
        · intro h; exact absurd h (by simp)
        · intro h; exact absurd h (by simp)
        · intro _; first | rfl | trivial
      · simp only [h1, Bool.not_true, Bool.false_eq_true, if_false, h2, h3]
        refine ⟨?_, ?_, ?_, ?_⟩
        · constructor
          · intro _; exact ⟨trivial, by omega, by omega, by omega⟩
          · intro _; trivial
        · intro _ hne
          exact ⟨framesSent_TX env _ false _ hne, txFIFOCount_TX_single env _ _ hne⟩
        · intro _ hempty
          rw [FHT8VTXFHTQueueAndSendCmd_empty env _ _ _ hempty]
        · intro h; exact absurd h (by simp)
  · have h1f : w.sched.syncedWithFHT8V = false := by simpa using h1
    simp only [h1f, Bool.not_false, if_true]
    refine ⟨?_, ?_, ?_, ?_⟩
    · constructor
      · intro h; exact absurd h (by simp)
      · rintro ⟨a, _⟩; exact absurd a (by simp)
    · intro h; exact absurd h (by simp)
    · intro h; exact absurd h (by simp)
    · intro _; first | rfl | trivial

/-- C25.  In every state `FHT8VDoSafeExtraTXToHub` leaves all scheduler variables
unchanged, whether or not it transmits: the synced flag, the sync countdown, the
gap counter, the slot counter, the TX buffer (and the valve-open belief too). -/
theorem C25_extra_tx_frame (env : Env) (w : World) :
    (FHT8VDoSafeExtraTXToHub env w).2.sched = w.sched ∧
      (FHT8VDoSafeExtraTXToHub env w).2.sched.syncedWithFHT8V = w.sched.syncedWithFHT8V ∧
      (FHT8VDoSafeExtraTXToHub env w).2.sched.syncStateFHT8V = w.sched.syncStateFHT8V ∧
      (FHT8VDoSafeExtraTXToHub env w).2.sched.halfSecondsToNextFHT8VTX
        = w.sched.halfSecondsToNextFHT8VTX ∧
      (FHT8VDoSafeExtraTXToHub env w).2.sched.halfSecondCount = w.sched.halfSecondCount ∧
      (FHT8VDoSafeExtraTXToHub env w).2.sched.FHT8VTXCommandArea
        = w.sched.FHT8VTXCommandArea := by
  have h : (FHT8VDoSafeExtraTXToHub env w).2.sched = w.sched := by
    unfold FHT8VDoSafeExtraTXToHub
    split_ifs <;> rfl
  rw [h]
  exact ⟨rfl, rfl, rfl, rfl, rfl, rfl⟩

/-- C26 as stated is false: for 1 % the extension written is 2 (the quotient
1 * 255 / 100 truncated), not round(2.55) = 3. -/
theorem C26_counterexample :
    (FHT8VCreateValveSetCmdFrame_r zeroBuf 0 ⟨0x12, 0x34, 0, 0⟩ 1).2.extension = 2 ∧
      spec_roundPercent 1 = 3 ∧
      ¬ ((FHT8VCreateValveSetCmdFrame_r zeroBuf 0 ⟨0x12, 0x34, 0, 0⟩ 1).2.extension
        = spec_roundPercent 1) := by
  decide

/-- C26 amended.  For every percent p in [0,100], `FHT8VCreateValveSetCmdFrame_r`
sets command = 0x26 and extension = p * 255 / 100 rounded down (integer division),
leaves hc1 and hc2 unchanged, writes the encoding of that command at the buffer
pointer and returns the pointer to its terminator. -/
theorem C26_valve_set_frame_amended (buf : Nat → Nat) (bptr : Nat) (command : fht8v_msg_t)
    (p : Nat) (hp : p ≤ 100) :
    (FHT8VCreateValveSetCmdFrame_r buf bptr command p).2.command = 0x26 ∧
      (FHT8VCreateValveSetCmdFrame_r buf bptr command p).2.extension = p * 255 / 100 ∧
      (FHT8VCreateValveSetCmdFrame_r buf bptr command p).2.hc1 = command.hc1 ∧
      (FHT8VCreateValveSetCmdFrame_r buf bptr command p).2.hc2 = command.hc2 ∧
      (FHT8VCreateValveSetCmdFrame_r buf bptr command p).1
        = FHT8VCreate200usBitStreamBptr buf bptr
            ⟨command.hc1, command.hc2, 0x26, p * 255 / 100⟩ ∧
      (FHT8VCreateValveSetCmdFrame_r buf bptr command p).1.1
        (FHT8VCreateValveSetCmdFrame_r buf bptr command p).1.2 = 0xff ∧
      (command.hc1 < 256 → command.hc2 < 256 →
        bytesBetween (FHT8VCreateValveSetCmdFrame_r buf bptr command p).1.1 bptr
            (FHT8VCreateValveSetCmdFrame_r buf bptr command p).1.2
          = (spec_pack (spec_encodeBits (spec_frameBits
              ⟨command.hc1, command.hc2, 0x26, p * 255 / 100⟩))).take
              ((spec_encodeBits (spec_frameBits
                ⟨command.hc1, command.hc2, 0x26, p * 255 / 100⟩)).length / 8)) := by
  have hext : p * 255 / 100 < 256 := by omega
  have hmod : p * 255 / 100 % 256 = p * 255 / 100 := Nat.mod_eq_of_lt hext
  have e : FHT8VCreateValveSetCmdFrame_r buf bptr command p
      = (FHT8VCreate200usBitStreamBptr buf bptr ⟨command.hc1, command.hc2, 0x26, p * 255 / 100⟩,
          ⟨command.hc1, command.hc2, 0x26, p * 255 / 100⟩) := by
    simp [FHT8VCreateValveSetCmdFrame_r, hmod]
  rw [e]
  refine ⟨rfl, rfl, rfl, rfl, rfl, ?_, ?_⟩
  · rw [FHT8VCreate200usBitStreamBptr_eq_packFrame]
    exact (packFrame_spec buf bptr _).2.2.1
  · intro h1 h2
    have hb : (⟨command.hc1, command.hc2, 0x26, p * 255 / 100⟩ : fht8v_msg_t).IsBytes :=
      ⟨h1, h2, by simp, hext⟩
    exact (FHT8VCreate200usBitStreamBptr_spec buf bptr
      ⟨command.hc1, command.hc2, 0x26, p * 255 / 100⟩ hb).2

/-- Witness for C26 amended: 50 % gives extension 127. -/
theorem C26_valve_set_frame_amended_witness :
    (FHT8VCreateValveSetCmdFrame_r zeroBuf 0 ⟨0x12, 0x34, 0, 0⟩ 50).2.command = 0x26 ∧
      (FHT8VCreateValveSetCmdFrame_r zeroBuf 0 ⟨0x12, 0x34, 0, 0⟩ 50).2.extension
        = 50 * 255 / 100 :=
  ⟨(C26_valve_set_frame_amended zeroBuf 0 ⟨0x12, 0x34, 0, 0⟩ 50 (by decide)).1,
    (C26_valve_set_frame_amended zeroBuf 0 ⟨0x12, 0x34, 0, 0⟩ 50 (by decide)).2.1⟩

/-- C27.  For every house code (hc1, hc2) and every extension at or above the
threshold: when the hub is eavesdropping with an empty latch (nIRQ active), the
radio reports a received frame, and the bytes delivered are six 0xCC bytes followed
by the line code of the start bit, the six units of the command (hc1, hc2, 0x26,
extension) and the trailer bit, `FHT8VCallForHeatPoll` returns true, records
(hc1 << 8) | hc2 in the latch and stops eavesdropping; the next
`FHT8VCallForHeatHeardGetAndClear` returns (hc1 << 8) | hc2 and the one after
returns 0xFFFF. -/
theorem C27_hub_latch (env : Env) (r : RadioState) (inp : RxInput) (rest : List RxInput)
    (hc1 hc2 ext : Nat) (h1 : hc1 < 256) (h2 : hc2 < 256) (h3 : ext < 256)
    (hthr : ext ≥ env.FHT8V_MIN_VALVE_PC_REALLY_OPEN)
    (he : r.eavesdropping = true) (hn : env.nIRQNotLow = false)
    (hl : r.lastCallForHeatHC = 0xFFFF) (hrx : r.rx = inp :: rest)
    (hst : inp.status &&& 0x1000 ≠ 0)
    (h6 : ∀ i, i < 6 → inp.fifo i % 256 = 0xcc)
    (hframe : spec_encodeBits ([true] ++ spec_bodyBits ⟨hc1, hc2, 0x26, ext⟩ ++ [false])
      <+: windowBits (fun i => inp.fifo i % 256) 6
        (env.FHT8V_200US_BIT_STREAM_FRAME_BUF_SIZE - 1)) :
    (FHT8VCallForHeatPoll env r).1 = some true ∧
      (FHT8VCallForHeatPoll env r).2.lastCallForHeatHC = (hc1 <<< 8) ||| hc2 ∧
      (FHT8VCallForHeatPoll env r).2.eavesdropping = false ∧
      (FHT8VCallForHeatHeardGetAndClear (FHT8VCallForHeatPoll env r).2).1
        = (hc1 <<< 8) ||| hc2 ∧
      (FHT8VCallForHeatHeardGetAndClear
        (FHT8VCallForHeatHeardGetAndClear (FHT8VCallForHeatPoll env r).2).2).1 = 0xFFFF := by
  have hlen := hframe.length_le
  rw [windowBits_length, spec_encodeBits_length] at hlen
  simp only [List.length_append, List.length_cons, List.length_nil] at hlen
  have hsz : 7 ≤ env.FHT8V_200US_BIT_STREAM_FRAME_BUF_SIZE := by omega
  have harea : ∀ i, i < env.FHT8V_200US_BIT_STREAM_FRAME_BUF_SIZE →
      receivedArea env r inp i = inp.fifo i % 256 := by
    intro i hi
    simp [receivedArea, hi]
  have hpos : preambleScan (receivedArea env r inp) 6 0 = 6 :=
    preambleScan_six _ (fun i hi => by rw [harea i (by omega)]; exact h6 i hi)
  have hw : windowBits (receivedArea env r inp) 6 (env.FHT8V_200US_BIT_STREAM_FRAME_BUF_SIZE - 1)
      = windowBits (fun i => inp.fifo i % 256) 6
          (env.FHT8V_200US_BIT_STREAM_FRAME_BUF_SIZE - 1) :=
    windowBits_congr _ _ _ _ (fun i _ hi => harea i (by omega))
  have hdec := FHT8VDecodeBitStream_of_spec_body (receivedArea env r inp) 6
    (env.FHT8V_200US_BIT_STREAM_FRAME_BUF_SIZE - 1) 0 ⟨0, 0, 0, 0⟩ ⟨hc1, hc2, 0x26, ext⟩
    ⟨h1, h2, by simp, h3⟩ (by rw [hw]; simpa using hframe)
  have hpoll := FHT8VCallForHeatPoll_frame env r inp rest he hn hl hrx hst
  rw [hpos, hdec] at hpoll
  have hcond : (0x26 : Nat) = (⟨hc1, hc2, 0x26, ext⟩ : fht8v_msg_t).command ∧
      (⟨hc1, hc2, 0x26, ext⟩ : fht8v_msg_t).extension
        ≥ env.FHT8V_MIN_VALVE_PC_REALLY_OPEN := ⟨rfl, hthr⟩
  have h62 : ¬ (6 < 2) := by decide
  rw [if_neg h62] at hpoll
  have hpoll2 : FHT8VCallForHeatPoll env r
      = (some true, StopEavesdropOnFHT8V false
          { afterRXFIFO env r inp rest with
            lastCallForHeatHC := ((hc1 <<< 8) ||| hc2) % 65536 }) := by
    rw [hpoll]
    exact if_pos hcond
  rw [hpoll2, compoundHC_lt hc1 hc2 h1 h2]
  have hstop : StopEavesdropOnFHT8V false
      { afterRXFIFO env r inp rest with lastCallForHeatHC := (hc1 <<< 8) ||| hc2 }
      = { FHT8VRXHubArea := receivedArea env r inp, eavesdropping := false,
          lastCallForHeatHC := (hc1 <<< 8) ||| hc2,
          ops := r.ops ++ [RadioOp.readStatusBoth,
            RadioOp.rxFIFO env.FHT8V_200US_BIT_STREAM_FRAME_BUF_SIZE] ++ [RadioOp.standby],
          rx := rest } := by
    unfold StopEavesdropOnFHT8V afterRXFIFO RadioState.issue
    simp only [he, Bool.not_true, Bool.and_false, Bool.false_eq_true, if_false]
  rw [hstop]
  exact ⟨rfl, rfl, rfl, rfl, rfl⟩

/-- Witness for C27: threshold 10, house code 0x12/0x34, extension 0x80; the radio
delivers the encoder's output for that command. -/
theorem C27_hub_latch_witness :
    (FHT8VCallForHeatPoll exampleEnv
        (exampleHubRadio 0xFFFF [exampleRxInput 0x1000 ⟨0x12, 0x34, 0x26, 0x80⟩])).1
      = some true ∧
    (FHT8VCallForHeatPoll exampleEnv
        (exampleHubRadio 0xFFFF
          [exampleRxInput 0x1000 ⟨0x12, 0x34, 0x26, 0x80⟩])).2.lastCallForHeatHC
      = (0x12 <<< 8) ||| 0x34 :=
  ⟨(C27_hub_latch exampleEnv
      (exampleHubRadio 0xFFFF [exampleRxInput 0x1000 ⟨0x12, 0x34, 0x26, 0x80⟩])
      (exampleRxInput 0x1000 ⟨0x12, 0x34, 0x26, 0x80⟩) [] 0x12 0x34 0x80
      (by decide) (by decide) (by decide) (by decide) rfl rfl rfl rfl (by decide) (by decide)
      (by decide)).1,
    (C27_hub_latch exampleEnv
      (exampleHubRadio 0xFFFF [exampleRxInput 0x1000 ⟨0x12, 0x34, 0x26, 0x80⟩])
      (exampleRxInput 0x1000 ⟨0x12, 0x34, 0x26, 0x80⟩) [] 0x12 0x34 0x80
      (by decide) (by decide) (by decide) (by decide) rfl rfl rfl rfl (by decide) (by decide)
      (by decide)).2.1⟩

/-- C28 as stated is false: a hub that is eavesdropping with house code 0x1234 in
the latch and polls while the radio holds a valid call-for-heat frame from house
code 0x56/0x78 returns false without touching the radio and keeps 0x1234 in the
latch; the same frame is accepted when the latch is empty. -/
theorem C28_counterexample :
    (FHT8VCallForHeatPoll exampleEnv
        (exampleHubRadio 0x1234 [exampleRxInput 0x1000 ⟨0x56, 0x78, 0x26, 0x80⟩])).1
      = some false ∧
    (FHT8VCallForHeatPoll exampleEnv
        (exampleHubRadio 0x1234
          [exampleRxInput 0x1000 ⟨0x56, 0x78, 0x26, 0x80⟩])).2.lastCallForHeatHC = 0x1234 ∧
    (FHT8VCallForHeatPoll exampleEnv
        (exampleHubRadio 0x1234 [exampleRxInput 0x1000 ⟨0x56, 0x78, 0x26, 0x80⟩])).2.ops = [] ∧
    (FHT8VCallForHeatPoll exampleEnv
        (exampleHubRadio 0xFFFF
          [exampleRxInput 0x1000 ⟨0x56, 0x78, 0x26, 0x80⟩])).2.lastCallForHeatHC = 0x5678 := by
  decide

/-- C28 amended.  While the latch holds an unconsumed house code (any value other
than 0xFFFF), `FHT8VCallForHeatPoll` returns false and changes nothing: the radio
is not read and the latch is not overwritten; consequently a poll changes the
latch only if it was empty. -/
theorem C28_latch_kept_amended (env : Env) (r : RadioState)
    (hl : r.lastCallForHeatHC ≠ 0xFFFF) :
    FHT8VCallForHeatPoll env r = (some false, r) ∧
      (FHT8VCallForHeatPoll env r).2.lastCallForHeatHC = r.lastCallForHeatHC ∧
      (FHT8VCallForHeatPoll env r).2.ops = r.ops := by
  rw [FHT8VCallForHeatPoll_latched env r hl]
  exact ⟨rfl, rfl, rfl⟩

/-- Witness for C28 amended: latch 0x1234, valid frame from 0x56/0x78 pending. -/
theorem C28_latch_kept_amended_witness :
    FHT8VCallForHeatPoll exampleEnv
        (exampleHubRadio 0x1234 [exampleRxInput 0x1000 ⟨0x56, 0x78, 0x26, 0x80⟩])
      = (some false,
          exampleHubRadio 0x1234 [exampleRxInput 0x1000 ⟨0x56, 0x78, 0x26, 0x80⟩]) :=
  (C28_latch_kept_amended exampleEnv
    (exampleHubRadio 0x1234 [exampleRxInput 0x1000 ⟨0x56, 0x78, 0x26, 0x80⟩])
    (by decide)).1

/-- C29.  When the hub is eavesdropping with an empty latch (nIRQ active), the radio
reports a received frame with at least two bytes of preamble, and the frame decodes
successfully to `cmd`, `FHT8VCallForHeatPoll` returns true whatever `cmd` is; the
accept-list passes every house code; if the opcode is 0x26 and the extension is at
or above the threshold the latch is set to (hc1 << 8) | hc2 and eavesdropping is
switched off; otherwise the latch and the eavesdropping flag are unchanged.  So
eavesdropping is switched off if and only if opcode and extension qualify. -/
theorem C29_hub_acceptance (env : Env) (r : RadioState) (inp : RxInput)
    (rest : List RxInput) (cmd : fht8v_msg_t)
    (he : r.eavesdropping = true) (hn : env.nIRQNotLow = false)
    (hl : r.lastCallForHeatHC = 0xFFFF) (hrx : r.rx = inp :: rest)
    (hst : inp.status &&& 0x1000 ≠ 0)
    (hpos : ¬ preambleScan (receivedArea env r inp) 6 0 < 2)
    (hdec : FHT8VDecodeBitStream (receivedArea env r inp)
        (preambleScan (receivedArea env r inp) 6 0)
        (env.FHT8V_200US_BIT_STREAM_FRAME_BUF_SIZE - 1) ⟨0, 0, 0, 0⟩ = some (true, cmd)) :
    (FHT8VCallForHeatPoll env r).1 = some true ∧
      FHT8VHubAcceptedHouseCode cmd.hc1 cmd.hc2 = true ∧
      ((cmd.command = 0x26 ∧ cmd.extension ≥ env.FHT8V_MIN_VALVE_PC_REALLY_OPEN) →
        (FHT8VCallForHeatPoll env r).2.lastCallForHeatHC
          = ((cmd.hc1 <<< 8) ||| cmd.hc2) % 65536 ∧
        (FHT8VCallForHeatPoll env r).2.eavesdropping = false) ∧
      (¬ (cmd.command = 0x26 ∧ cmd.extension ≥ env.FHT8V_MIN_VALVE_PC_REALLY_OPEN) →
        (FHT8VCallForHeatPoll env r).2.lastCallForHeatHC = r.lastCallForHeatHC ∧
        (FHT8VCallForHeatPoll env r).2.eavesdropping = r.eavesdropping) ∧
      ((FHT8VCallForHeatPoll env r).2.eavesdropping = false ↔
        (cmd.command = 0x26 ∧ cmd.extension ≥ env.FHT8V_MIN_VALVE_PC_REALLY_OPEN)) := by
  have hpoll := FHT8VCallForHeatPoll_frame env r inp rest he hn hl hrx hst
  rw [if_neg hpos, hdec] at hpoll
  simp only at hpoll
  by_cases hcond : cmd.command = 0x26 ∧ cmd.extension ≥ env.FHT8V_MIN_VALVE_PC_REALLY_OPEN
  · have hcond2 : 0x26 = cmd.command ∧ cmd.extension ≥ env.FHT8V_MIN_VALVE_PC_REALLY_OPEN :=
      ⟨hcond.1.symm, hcond.2⟩
    rw [if_pos hcond2] at hpoll
    rw [hpoll]
    simp [StopEavesdropOnFHT8V, afterRXFIFO, he, RadioState.issue, FHT8VHubAcceptedHouseCode,
      hcond]
  · have hcond2 : ¬ (0x26 = cmd.command ∧
        cmd.extension ≥ env.FHT8V_MIN_VALVE_PC_REALLY_OPEN) :=
      fun h => hcond ⟨h.1.symm, h.2⟩
    rw [if_neg hcond2] at hpoll
    rw [hpoll]
    refine ⟨rfl, rfl, fun h => absurd h hcond, fun _ => ⟨rfl, rfl⟩, ?_⟩
    constructor
    · intro h
      have h2 : r.eavesdropping = false := h
      rw [he] at h2
      exact absurd h2 (by decide)
    · intro h
      exact absurd h hcond

/-- Witness for C29: threshold 10; the radio delivers the encoder's output for the
sync-final command (0x12, 0x34, 0x20, 0), which decodes but does not qualify. -/
theorem C29_hub_acceptance_witness :
    (FHT8VCallForHeatPoll exampleEnv
        (exampleHubRadio 0xFFFF [exampleRxInput 0x1000 ⟨0x12, 0x34, 0x20, 0⟩])).1
      = some true ∧
    ((FHT8VCallForHeatPoll exampleEnv
        (exampleHubRadio 0xFFFF
          [exampleRxInput 0x1000 ⟨0x12, 0x34, 0x20, 0⟩])).2.eavesdropping = false ↔
      ((⟨0x12, 0x34, 0x20, 0⟩ : fht8v_msg_t).command = 0x26 ∧
        (⟨0x12, 0x34, 0x20, 0⟩ : fht8v_msg_t).extension
          ≥ exampleEnv.FHT8V_MIN_VALVE_PC_REALLY_OPEN)) :=
  ⟨(C29_hub_acceptance exampleEnv
      (exampleHubRadio 0xFFFF [exampleRxInput 0x1000 ⟨0x12, 0x34, 0x20, 0⟩])
      (exampleRxInput 0x1000 ⟨0x12, 0x34, 0x20, 0⟩) [] ⟨0x12, 0x34, 0x20, 0⟩
      rfl rfl rfl rfl (by decide) (by decide) (by decide)).1,
    (C29_hub_acceptance exampleEnv
      (exampleHubRadio 0xFFFF [exampleRxInput 0x1000 ⟨0x12, 0x34, 0x20, 0⟩])
      (exampleRxInput 0x1000 ⟨0x12, 0x34, 0x20, 0⟩) [] ⟨0x12, 0x34, 0x20, 0⟩
      rfl rfl rfl rfl (by decide) (by decide) (by decide)).2.2.2.2⟩

/-- C30 as stated is false for a radio that reports an RX FIFO fault together with
a received frame: with status 0x9000 (bits 0x8000 and 0x1000) and a valid
call-for-heat frame in the FIFO, `FHT8VCallForHeatPoll` returns true, records the
house code in the latch and stops eavesdropping. -/
theorem C30_counterexample :
    (0x9000 : Nat) &&& 0x8000 ≠ 0 ∧
    (FHT8VCallForHeatPoll exampleEnv
        (exampleHubRadio 0xFFFF [exampleRxInput 0x9000 ⟨0x12, 0x34, 0x26, 0x80⟩])).1
      = some true ∧
    (FHT8VCallForHeatPoll exampleEnv
        (exampleHubRadio 0xFFFF
          [exampleRxInput 0x9000 ⟨0x12, 0x34, 0x26, 0x80⟩])).2.lastCallForHeatHC = 0x1234 ∧
    (FHT8VCallForHeatPoll exampleEnv
        (exampleHubRadio 0xFFFF
          [exampleRxInput 0x9000 ⟨0x12, 0x34, 0x26, 0x80⟩])).2.eavesdropping = false := by
  decide

/-- C30 amended.  When the hub is eavesdropping with an empty latch (nIRQ active)
and either (a) the radio reports a received frame whose first or second byte is
not 0xCC, or (b) it reports a received frame with at least two bytes of preamble
that does not decode, or (c) it reports an RX FIFO fault (status bit 0x8000) and no
received frame (status bit 0x1000 clear), `FHT8VCallForHeatPoll` returns false,
resets receive mode (its last two radio commands are standby and RX set-up), leaves
the eavesdropping flag true and leaves the latch unchanged. -/
theorem C30_hub_rejection_amended (env : Env) (r : RadioState) (inp : RxInput)
    (rest : List RxInput)
    (he : r.eavesdropping = true) (hn : env.nIRQNotLow = false)
    (hl : r.lastCallForHeatHC = 0xFFFF) (hrx : r.rx = inp :: rest)
    (hcase :
      (inp.status &&& 0x1000 ≠ 0 ∧
        (receivedArea env r inp 0 ≠ 0xcc ∨ receivedArea env r inp 1 ≠ 0xcc)) ∨
      (inp.status &&& 0x1000 ≠ 0 ∧
        ¬ preambleScan (receivedArea env r inp) 6 0 < 2 ∧
        ∀ cmd, FHT8VDecodeBitStream (receivedArea env r inp)
          (preambleScan (receivedArea env r inp) 6 0)
          (env.FHT8V_200US_BIT_STREAM_FRAME_BUF_SIZE - 1) ⟨0, 0, 0, 0⟩ ≠ some (true, cmd)) ∨
      (inp.status &&& 0x1000 = 0 ∧ inp.status &&& 0x8000 ≠ 0)) :
    (FHT8VCallForHeatPoll env r).1 = some false ∧
      (FHT8VCallForHeatPoll env r).2.eavesdropping = true ∧
      (FHT8VCallForHeatPoll env r).2.lastCallForHeatHC = r.lastCallForHeatHC ∧
      (FHT8VCallForHeatPoll env r).2.ops
        = r.ops ++ [RadioOp.readStatusBoth]
          ++ (if inp.status &&& 0x1000 ≠ 0
              then [RadioOp.rxFIFO env.FHT8V_200US_BIT_STREAM_FRAME_BUF_SIZE] else [])
          ++ [RadioOp.standby, RadioOp.setUpRX env.MIN_FHT8V_200US_BIT_STREAM_BUF_SIZE] := by
  have frameReset : inp.status &&& 0x1000 ≠ 0 →
      FHT8VCallForHeatPoll env r
        = (some false, _SetupRFM22ToEavesdropOnFHT8V env (afterRXFIFO env r inp rest)) →
      (FHT8VCallForHeatPoll env r).1 = some false ∧
      (FHT8VCallForHeatPoll env r).2.eavesdropping = true ∧
      (FHT8VCallForHeatPoll env r).2.lastCallForHeatHC = r.lastCallForHeatHC ∧
      (FHT8VCallForHeatPoll env r).2.ops
        = r.ops ++ [RadioOp.readStatusBoth]
          ++ (if inp.status &&& 0x1000 ≠ 0
              then [RadioOp.rxFIFO env.FHT8V_200US_BIT_STREAM_FRAME_BUF_SIZE] else [])
          ++ [RadioOp.standby, RadioOp.setUpRX env.MIN_FHT8V_200US_BIT_STREAM_BUF_SIZE] := by
    intro hst h
    rw [h, if_pos hst]
    simp [_SetupRFM22ToEavesdropOnFHT8V, afterRXFIFO, RadioState.issue, he]
  rcases hcase with ⟨hst, hbad⟩ | ⟨hst, hpos, hdec⟩ | ⟨hst, hf⟩
  · have hpoll := FHT8VCallForHeatPoll_frame env r inp rest he hn hl hrx hst
    rw [if_pos ((preambleScan_lt_two_iff _).2 hbad)] at hpoll
    exact frameReset hst hpoll
  · have hpoll := FHT8VCallForHeatPoll_frame env r inp rest he hn hl hrx hst
    rw [if_neg hpos] at hpoll
    obtain ⟨res, hres⟩ := FHT8VDecodeBitStream_total (receivedArea env r inp)
      (preambleScan (receivedArea env r inp) 6 0)
      (env.FHT8V_200US_BIT_STREAM_FRAME_BUF_SIZE - 1) ⟨0, 0, 0, 0⟩
    obtain ⟨ok, cmd⟩ := res
    cases ok
    · rw [hres] at hpoll
      exact frameReset hst hpoll
    · exact absurd hres (hdec cmd)
  · rw [FHT8VCallForHeatPoll_fault env r inp rest he hn hl hrx hst hf]
    have hst2 : ¬ (inp.status &&& 0x1000 ≠ 0) := fun h => h hst
    rw [if_neg hst2]
    simp [_SetupRFM22ToEavesdropOnFHT8V, afterReadStatus, RadioState.issue, he]

/-- Witness for C30 amended: an RX FIFO fault with no frame flagged (status 0x8000). -/
theorem C30_hub_rejection_amended_witness :
    (FHT8VCallForHeatPoll exampleEnv
        (exampleHubRadio 0xFFFF [exampleRxInput 0x8000 ⟨0x12, 0x34, 0x26, 0x80⟩])).1
      = some false ∧
    (FHT8VCallForHeatPoll exampleEnv
        (exampleHubRadio 0xFFFF
          [exampleRxInput 0x8000 ⟨0x12, 0x34, 0x26, 0x80⟩])).2.eavesdropping = true :=
  ⟨(C30_hub_rejection_amended exampleEnv
      (exampleHubRadio 0xFFFF [exampleRxInput 0x8000 ⟨0x12, 0x34, 0x26, 0x80⟩])
      (exampleRxInput 0x8000 ⟨0x12, 0x34, 0x26, 0x80⟩) [] rfl rfl rfl rfl
      (Or.inr (Or.inr ⟨by decide, by decide⟩))).1,
    (C30_hub_rejection_amended exampleEnv
      (exampleHubRadio 0xFFFF [exampleRxInput 0x8000 ⟨0x12, 0x34, 0x26, 0x80⟩])
      (exampleRxInput 0x8000 ⟨0x12, 0x34, 0x26, 0x80⟩) [] rfl rfl rfl rfl
      (Or.inr (Or.inr ⟨by decide, by decide⟩))).2.1⟩

/-! ## Claims C31 to C40: receiver housekeeping, reachability, codec safety, supply voltage -/

/-- C31 (code defect).  A hub that is eavesdropping with an empty latch, whose radio
status has neither the received-frame bit 0x1000 nor the fault bit 0x8000, reaches
the end of `FHT8VCallForHeatPoll` without executing a `return`: the call has no
defined result (here for status 0), although the latch and the eavesdropping flag
are unchanged.  The other quiet paths do return false and change nothing: not
eavesdropping, and latch already full. -/
theorem C31_quiet_poll_no_return :
    (FHT8VCallForHeatPoll exampleEnv
        (exampleHubRadio 0xFFFF [exampleRxInput 0 ⟨0x12, 0x34, 0x26, 0x80⟩])).1 = none ∧
      (FHT8VCallForHeatPoll exampleEnv
        (exampleHubRadio 0xFFFF [exampleRxInput 0 ⟨0x12, 0x34, 0x26, 0x80⟩])).1
          ≠ some false ∧
      (∀ (env : Env) (r : RadioState) (inp : RxInput) (rest : List RxInput),
        r.eavesdropping = true → env.nIRQNotLow = false → r.lastCallForHeatHC = 0xFFFF →
        r.rx = inp :: rest → inp.status &&& 0x1000 = 0 → inp.status &&& 0x8000 = 0 →
        (FHT8VCallForHeatPoll env r).1 = none ∧
        (FHT8VCallForHeatPoll env r).2.lastCallForHeatHC = r.lastCallForHeatHC ∧
        (FHT8VCallForHeatPoll env r).2.eavesdropping = r.eavesdropping) ∧
      (∀ (env : Env) (r : RadioState), r.eavesdropping = false →
        FHT8VCallForHeatPoll env r = (some false, r)) ∧
      (∀ (env : Env) (r : RadioState), r.lastCallForHeatHC ≠ 0xFFFF →
        FHT8VCallForHeatPoll env r = (some false, r)) := by
  refine ⟨by decide, by decide, ?_, ?_, ?_⟩
  · intro env r inp rest he hn hl hrx hst hf
    rw [FHT8VCallForHeatPoll_quiet env r inp rest he hn hl hrx hst hf]
    exact ⟨rfl, rfl, rfl⟩
  · intro env r he
    exact FHT8VCallForHeatPoll_not_eavesdropping env r he
  · intro env r hl
    exact FHT8VCallForHeatPoll_latched env r hl

/-- C32.  `SetupToEavesdropOnFHT8V(false)` when already eavesdropping and
`StopEavesdropOnFHT8V(false)` when not eavesdropping return the state unchanged
(so issue no radio command); after `SetupToEavesdropOnFHT8V` (forced or not) the
eavesdropping flag is true and after `StopEavesdropOnFHT8V` (forced or not) it is
false; neither changes the call-for-heat latch. -/
theorem C32_enable_disable_idempotent (env : Env) (force : Bool) (r : RadioState) :
    (r.eavesdropping = true → SetupToEavesdropOnFHT8V env false r = r) ∧
      (r.eavesdropping = false → StopEavesdropOnFHT8V false r = r) ∧
      (SetupToEavesdropOnFHT8V env force r).eavesdropping = true ∧
      (StopEavesdropOnFHT8V force r).eavesdropping = false ∧
      (SetupToEavesdropOnFHT8V env force r).lastCallForHeatHC = r.lastCallForHeatHC ∧
      (StopEavesdropOnFHT8V force r).lastCallForHeatHC = r.lastCallForHeatHC ∧
      SetupToEavesdropOnFHT8V env false (SetupToEavesdropOnFHT8V env force r)
        = SetupToEavesdropOnFHT8V env force r ∧
      StopEavesdropOnFHT8V false (StopEavesdropOnFHT8V force r)
        = StopEavesdropOnFHT8V force r := by
  have s1 : ∀ r0 : RadioState, r0.eavesdropping = true →
      SetupToEavesdropOnFHT8V env false r0 = r0 := by
    intro r0 h
    simp [SetupToEavesdropOnFHT8V, h]
  have s2 : ∀ r0 : RadioState, r0.eavesdropping = false →
      StopEavesdropOnFHT8V false r0 = r0 := by
    intro r0 h
    simp [StopEavesdropOnFHT8V, h]
  refine ⟨s1 r, s2 r, SetupToEavesdropOnFHT8V_eavesdropping env force r,
    StopEavesdropOnFHT8V_eavesdropping force r, ?_, ?_,
    s1 _ (SetupToEavesdropOnFHT8V_eavesdropping env force r),
    s2 _ (StopEavesdropOnFHT8V_eavesdropping force r)⟩
  · unfold SetupToEavesdropOnFHT8V
    split <;> simp [_SetupRFM22ToEavesdropOnFHT8V, RadioState.issue]
  · unfold StopEavesdropOnFHT8V
    split <;> simp [RadioState.issue]

/-- C33 as stated is false: outside hub mode a radio that was eavesdropping is not
eavesdropping after the transmission of a valve-set frame, and in hub mode a radio
that was not eavesdropping is eavesdropping after it. -/
theorem C33_counterexample :
    (exampleHubRadio 0xFFFF []).eavesdropping = true ∧
      (FHT8VTXFHTQueueAndSendCmd exampleEnv
        (FHT8VCreate200usBitStreamBptr zeroBuf 0 ⟨0x12, 0x34, 0x26, 0x80⟩).1 false
        (exampleHubRadio 0xFFFF [])).eavesdropping = false ∧
      (exampleWorld true true 1 100 0).radio.eavesdropping = false ∧
      (FHT8VTXFHTQueueAndSendCmd exampleEnvHub
        (FHT8VCreate200usBitStreamBptr zeroBuf 0 ⟨0x12, 0x34, 0x26, 0x80⟩).1 false
        (exampleWorld true true 1 100 0).radio).eavesdropping = true := by
  decide

/-- C33 amended.  For every transmission made through `FHT8VTXFHTQueueAndSendCmd`
(buffer not starting with the terminator): at the point where the frame is queued
the eavesdropping flag is false (after the final poll made in hub mode,
`StopEavesdropOnFHT8V` has run, putting the radio in standby if it was
eavesdropping); the frame is queued and sent after that; and after the
transmission the eavesdropping flag equals `inHubMode()`, whatever it was before:
reception is resumed in hub mode and only in hub mode. -/
theorem C33_tx_preempts_rx_amended (env : Env) (area : Nat → Nat) (doubleTX : Bool)
    (r : RadioState) (h : area 0 ≠ 0xff) :
    (StopEavesdropOnFHT8V false
        (if env.inHubMode then (FHT8VCallForHeatPoll env r).2 else r)).eavesdropping
      = false ∧
    ((if env.inHubMode then (FHT8VCallForHeatPoll env r).2 else r).eavesdropping = true →
      (StopEavesdropOnFHT8V false
        (if env.inHubMode then (FHT8VCallForHeatPoll env r).2 else r)).ops
        = (if env.inHubMode then (FHT8VCallForHeatPoll env r).2 else r).ops
          ++ [RadioOp.standby]) ∧
    (FHT8VTXFHTQueueAndSendCmd env area doubleTX r).ops
      = (StopEavesdropOnFHT8V false
          (if env.inHubMode then (FHT8VCallForHeatPoll env r).2 else r)).ops
        ++ [RadioOp.queueCmdToFF (frameToFF area env.FHT8V_200US_BIT_STREAM_FRAME_BUF_SIZE),
            RadioOp.txFIFO]
        ++ (if doubleTX then [RadioOp.txFIFO] else [])
        ++ (if env.inHubMode
            then [RadioOp.standby, RadioOp.setUpRX env.MIN_FHT8V_200US_BIT_STREAM_BUF_SIZE]
            else [RadioOp.standby]) ∧
    (FHT8VTXFHTQueueAndSendCmd env area doubleTX r).eavesdropping = env.inHubMode := by
  have h2 : ¬ (0xff = area 0) := fun e => h e.symm
  generalize hr0 : (if env.inHubMode then (FHT8VCallForHeatPoll env r).2 else r) = r0
  have hstop := StopEavesdropOnFHT8V_eavesdropping false r0
  have hTX : FHT8VTXFHTQueueAndSendCmd env area doubleTX r
      = (if env.inHubMode then
          SetupToEavesdropOnFHT8V env false
            (let r2 := ((StopEavesdropOnFHT8V false r0).issue
                (RadioOp.queueCmdToFF
                  (frameToFF area env.FHT8V_200US_BIT_STREAM_FRAME_BUF_SIZE))).issue
                RadioOp.txFIFO
             if doubleTX then r2.issue RadioOp.txFIFO else r2)
        else
          (let r2 := ((StopEavesdropOnFHT8V false r0).issue
                (RadioOp.queueCmdToFF
                  (frameToFF area env.FHT8V_200US_BIT_STREAM_FRAME_BUF_SIZE))).issue
                RadioOp.txFIFO
           if doubleTX then r2.issue RadioOp.txFIFO else r2).issue RadioOp.standby) := by
    unfold FHT8VTXFHTQueueAndSendCmd
    rw [if_neg h2, ← hr0]
  refine ⟨hstop, ?_, ?_, ?_⟩
  · intro he
    simp [StopEavesdropOnFHT8V, he, RadioState.issue]
  · rw [hTX]
    generalize StopEavesdropOnFHT8V false r0 = r1 at hstop ⊢
    cases env.inHubMode <;> cases doubleTX <;>
      simp [SetupToEavesdropOnFHT8V, _SetupRFM22ToEavesdropOnFHT8V, RadioState.issue, hstop]
  · rw [hTX]
    generalize StopEavesdropOnFHT8V false r0 = r1 at hstop ⊢
    cases env.inHubMode <;> cases doubleTX <;>
      simp [SetupToEavesdropOnFHT8V, _SetupRFM22ToEavesdropOnFHT8V, RadioState.issue, hstop]

/-- Witness for C33 amended: a transmission outside hub mode from an eavesdropping
radio. -/
theorem C33_tx_preempts_rx_amended_witness :
    (FHT8VCreate200usBitStreamBptr zeroBuf 0 ⟨0x12, 0x34, 0x26, 0x80⟩).1 0 ≠ 0xff ∧
      (FHT8VTXFHTQueueAndSendCmd exampleEnv
        (FHT8VCreate200usBitStreamBptr zeroBuf 0 ⟨0x12, 0x34, 0x26, 0x80⟩).1 false
        (exampleHubRadio 0xFFFF [])).eavesdropping = exampleEnv.inHubMode :=
  ⟨by decide,
    (C33_tx_preempts_rx_amended exampleEnv
      (FHT8VCreate200usBitStreamBptr zeroBuf 0 ⟨0x12, 0x34, 0x26, 0x80⟩).1 false
      (exampleHubRadio 0xFFFF []) (by decide)).2.2.2⟩

/-- C34.  In this build `FHT8VHubListenCount()` is 0 and
`FHT8VHubAcceptedHouseCode(hc1, hc2)` is true for every house code: with the empty
accept-list nothing is filtered. -/
theorem C34_accept_all (hc1 hc2 : Nat) :
    FHT8VHubListenCount = 0 ∧
      (FHT8VHubListenCount = 0 → FHT8VHubAcceptedHouseCode hc1 hc2 = true) ∧
      FHT8VHubAcceptedHouseCode hc1 hc2 = true :=
  ⟨rfl, fun _ => rfl, rfl⟩

/-- C35.  From reset, under the polling protocol started at the beginning of a
duty cycle, whenever the scheduler is synchronised at a slot boundary (in
particular whenever `FHT8VPollSyncAndTX_First` is entered with the synchronised
flag set) the gap counter `halfSecondsToNextFHT8VTX` is in [1,237]: it is not 0,
and the 8-bit decrement made by the next call does not wrap.  This holds for every
configuration, with the local valve enabled or not. -/
theorem C35_gap_never_zero (env : Env) (allowDoubleTX : Bool) (b : Bool) (w : World) (n : Nat)
    (hsync : (pollSlots env allowDoubleTX n 0
      (b, { w with sched := FHT8VSyncAndTXReset w.sched })).2.sched.syncedWithFHT8V = true) :
    (pollSlots env allowDoubleTX n 0
        (b, { w with sched := FHT8VSyncAndTXReset w.sched })).2.sched.halfSecondsToNextFHT8VTX
          ≠ 0 ∧
      1 ≤ (pollSlots env allowDoubleTX n 0
        (b, { w with sched := FHT8VSyncAndTXReset w.sched })).2.sched.halfSecondsToNextFHT8VTX ∧
      (pollSlots env allowDoubleTX n 0
        (b, { w with sched := FHT8VSyncAndTXReset w.sched })).2.sched.halfSecondsToNextFHT8VTX
          ≤ 237 ∧
      toUint8
          (((pollSlots env allowDoubleTX n 0
            (b, { w with sched := FHT8VSyncAndTXReset w.sched })
              ).2.sched.halfSecondsToNextFHT8VTX : Int) - 1) + 1
        = (pollSlots env allowDoubleTX n 0
          (b, { w with sched := FHT8VSyncAndTXReset w.sched })
            ).2.sched.halfSecondsToNextFHT8VTX := by
  have h0 : GapInvariant env 0 (b, { w with sched := FHT8VSyncAndTXReset w.sched }) := by
    refine ⟨fun hne => absurd (Nat.zero_mod _) hne, fun hs => ?_⟩
    exact absurd hs (by simp [FHT8VSyncAndTXReset])
  have hn := pollSlots_gapInvariant env allowDoubleTX n 0 _ h0
  rw [Nat.zero_add] at hn
  obtain ⟨c1, c2, _⟩ := hn.2 hsync
  refine ⟨by omega, c1, c2, ?_⟩
  rw [toUint8_pred _ c1 (by omega)]
  omega

/-- Witness for C35: 2 s ticks, house code 0x12/0x34; 252 slots after reset the
scheduler is synchronised and `FHT8VPollSyncAndTX_First` is about to be entered. -/
theorem C35_gap_never_zero_witness :
    (pollSlots exampleEnv false (240 + ((exampleEnv.FHT8VGetHC2 &&& 7) + 8)) 0
        (false,
          { sched := FHT8VSyncAndTXReset (exampleWorld true true 5 7 2).sched,
            radio := (exampleWorld true true 5 7 2).radio })).2.sched.syncedWithFHT8V = true ∧
      (240 + ((exampleEnv.FHT8VGetHC2 &&& 7) + 8)) % (MAX_HSC exampleEnv + 1) = 0 ∧
      1 ≤ (pollSlots exampleEnv false (240 + ((exampleEnv.FHT8VGetHC2 &&& 7) + 8)) 0
        (false,
          { sched := FHT8VSyncAndTXReset (exampleWorld true true 5 7 2).sched,
            radio := (exampleWorld true true 5 7 2).radio })).2.sched.halfSecondsToNextFHT8VTX ∧
      (pollSlots exampleEnv false (240 + ((exampleEnv.FHT8VGetHC2 &&& 7) + 8)) 0
        (false,
          { sched := FHT8VSyncAndTXReset (exampleWorld true true 5 7 2).sched,
            radio := (exampleWorld true true 5 7 2).radio })).2.sched.halfSecondsToNextFHT8VTX
          ≤ 237 :=
  ⟨pollSlots_reset_synced exampleEnv false false (exampleWorld true true 5 7 2) rfl
      (by decide) (by decide) (by decide),
    by decide,
    (C35_gap_never_zero exampleEnv false false (exampleWorld true true 5 7 2) _
      (pollSlots_reset_synced exampleEnv false false (exampleWorld true true 5 7 2) rfl
        (by decide) (by decide) (by decide))).2.1,
    (C35_gap_never_zero exampleEnv false false (exampleWorld true true 5 7 2) _
      (pollSlots_reset_synced exampleEnv false false (exampleWorld true true 5 7 2) rfl
        (by decide) (by decide) (by decide))).2.2.1⟩

/-- C36.  For every window `[bitStream, lastByte]` and every buffer content,
`FHT8VDecodeBitStream` returns a result, its leading-zero loop ending within
2 * (window length) + 1 calls of `readOneBit`; and the result depends on no byte
outside the window: any buffer with the same bytes at the positions of the window
gives the same result, whatever it holds elsewhere. -/
theorem C36_decoder_stays_in_window (buf : Nat → Nat) (bitStream lastByte : Nat)
    (out : fht8v_msg_t) :
    (∃ r, FHT8VDecodeBitStream buf bitStream lastByte out = some r) ∧
      skipLeadingZeros buf (2 * (lastByte + 1 - bitStream) + 1)
          { bitStream := bitStream, lastByte := lastByte, mask := 0, failed := false }
        ≠ none ∧
      (∀ other : Nat → Nat, agreeOn buf other bitStream lastByte →
        FHT8VDecodeBitStream other bitStream lastByte out
          = FHT8VDecodeBitStream buf bitStream lastByte out) ∧
      (∀ outside : Nat → Nat,
        FHT8VDecodeBitStream
            (fun i => if bitStream ≤ i ∧ i ≤ lastByte then buf i else outside i)
            bitStream lastByte out
          = FHT8VDecodeBitStream buf bitStream lastByte out) := by
  have htot := FHT8VDecodeBitStream_total buf bitStream lastByte out
  refine ⟨htot, ?_, ?_, ?_⟩
  · intro hnone
    obtain ⟨r, hr⟩ := htot
    rw [FHT8VDecodeBitStream_eq] at hr
    have e : decodeFuel bitStream lastByte = 2 * (lastByte + 1 - bitStream) + 1 := rfl
    rw [e, hnone] at hr
    cases hr
  · intro other h
    exact (FHT8VDecodeBitStream_congr buf other bitStream lastByte out h).symm
  · intro outside
    refine (FHT8VDecodeBitStream_congr buf _ bitStream lastByte out ?_).symm
    intro i h1 h2
    simp [h1, h2]

/-- C37.  For any two byte-valued commands that differ in hc1, hc2, command or
extension, the bytes written by `FHT8VCreate200usBitStreamBptr` from the start
pointer up to the terminator differ, whatever the buffers and start pointers. -/
theorem C37_encoder_injective (buf1 buf2 : Nat → Nat) (bptr1 bptr2 : Nat)
    (c1 c2 : fht8v_msg_t) (h1 : c1.IsBytes) (h2 : c2.IsBytes)
    (hne : c1.hc1 ≠ c2.hc1 ∨ c1.hc2 ≠ c2.hc2 ∨ c1.command ≠ c2.command ∨
      c1.extension ≠ c2.extension) :
    bytesBetween (FHT8VCreate200usBitStreamBptr buf1 bptr1 c1).1 bptr1
        (FHT8VCreate200usBitStreamBptr buf1 bptr1 c1).2
      ≠ bytesBetween (FHT8VCreate200usBitStreamBptr buf2 bptr2 c2).1 bptr2
        (FHT8VCreate200usBitStreamBptr buf2 bptr2 c2).2 := by
  intro h
  rw [FHT8VCreate200usBitStreamBptr_eq_packFrame, FHT8VCreate200usBitStreamBptr_eq_packFrame,
    appendedBodyBits_eq_spec c1 h1, appendedBodyBits_eq_spec c2 h2] at h
  have hb := packFrame_injective buf1 buf2 bptr1 bptr2 _ _
    (by rw [spec_bodyBits_length, spec_bodyBits_length]) h
  have hc := spec_bodyBits_injective c1 c2 h1 h2 hb
  rw [hc] at hne
  simp at hne

/-- Witness for C37: two commands that differ only in the extension byte. -/
theorem C37_encoder_injective_witness :
    bytesBetween (FHT8VCreate200usBitStreamBptr zeroBuf 0 ⟨0x12, 0x34, 0x26, 0⟩).1 0
        (FHT8VCreate200usBitStreamBptr zeroBuf 0 ⟨0x12, 0x34, 0x26, 0⟩).2
      ≠ bytesBetween (FHT8VCreate200usBitStreamBptr zeroBuf 0 ⟨0x12, 0x34, 0x26, 1⟩).1 0
        (FHT8VCreate200usBitStreamBptr zeroBuf 0 ⟨0x12, 0x34, 0x26, 1⟩).2 :=
  C37_encoder_injective zeroBuf zeroBuf 0 0 ⟨0x12, 0x34, 0x26, 0⟩ ⟨0x12, 0x34, 0x26, 1⟩
    (by decide) (by decide) (by decide)

/-- C39.  In every state the valve-open belief, and hence `getFHT8V_isValveOpen`,
is the same after `FHT8VDoSafeExtraTXToHub` as before it, whether or not it
transmits. -/
theorem C39_extra_tx_keeps_belief (env : Env) (w : World) :
    (FHT8VDoSafeExtraTXToHub env w).2.sched.FHT8V_isValveOpen = w.sched.FHT8V_isValveOpen ∧
      getFHT8V_isValveOpen (FHT8VDoSafeExtraTXToHub env w).2.sched
        = getFHT8V_isValveOpen w.sched := by
  have h : (FHT8VDoSafeExtraTXToHub env w).2.sched = w.sched := by
    unfold FHT8VDoSafeExtraTXToHub
    split_ifs <;> rfl
  rw [h]
  exact ⟨rfl, rfl⟩

/-- C40 as stated is false: for the raw readings 2 <= 3 the value computed for 3
(43328) is greater than the value computed for 2 (32224), because the 16-bit
product wraps. -/
theorem C40_counterexample :
    (SupplyVoltageMilliVolts.read false 2 ⟨0, 0, false⟩).map Prod.fst = some 32224 ∧
      (SupplyVoltageMilliVolts.read false 3 ⟨0, 0, false⟩).map Prod.fst = some 43328 ∧
      ¬ (43328 ≤ 32224) := by
  decide

/-- C40 amended.  In `SupplyVoltageMilliVolts::read`, for raw readings
17 <= r1 <= r2 <= 1023 the millivolts computed for r2 are no greater than for r1
(for raw below 17 the 16-bit product wraps); `isLow` is set exactly when the
computed value is below `BATTERY_LOW_MV`; and for all 1 <= r1 <= r2 <= 1023, if r1
is reported low then r2 is too. -/
theorem C40_low_battery_monotone_amended (sht21 : Bool) (r1 r2 : Nat)
    (self1 self2 : SupplyVoltageMilliVolts)
    (h1 : 1 ≤ r1) (h12 : r1 ≤ r2) (_h2 : r2 ≤ 1023) :
    ∃ v1 v2 : Nat × SupplyVoltageMilliVolts,
      SupplyVoltageMilliVolts.read sht21 r1 self1 = some v1 ∧
      SupplyVoltageMilliVolts.read sht21 r2 self2 = some v2 ∧
      (17 ≤ r1 → v2.1 ≤ v1.1) ∧
      v1.2.mV = v1.1 ∧ v2.2.mV = v2.1 ∧
      v1.2.isLow = decide (v1.1 < BATTERY_LOW_MV sht21) ∧
      v2.2.isLow = decide (v2.1 < BATTERY_LOW_MV sht21) ∧
      (v1.2.isLow = true → v2.2.isLow = true) := by
  have n1 : ¬ (r1 = 0) := by omega
  have n2 : ¬ (r2 = 0) := by omega
  have e6 : ((1023 <<< 6) % 65536 : Nat) = 65472 := by decide
  have e7 : ((1100 >>> 6) : Nat) = 17 := by decide
  refine ⟨_, _, by simp only [SupplyVoltageMilliVolts.read, if_neg n1]; rfl,
    by simp only [SupplyVoltageMilliVolts.read, if_neg n2]; rfl, ?_, rfl, rfl, rfl, rfl, ?_⟩
  · intro h17
    simp only [e6, e7]
    have q1 : 65472 / r1 ≤ 3851 := by
      calc 65472 / r1 ≤ 65472 / 17 := Nat.div_le_div_left h17 (by decide)
        _ = 3851 := by decide
    have q2 : 65472 / r2 ≤ 65472 / r1 := Nat.div_le_div_left h12 (by omega)
    rw [Nat.mod_eq_of_lt (by omega : 65472 / r1 * 17 < 65536),
      Nat.mod_eq_of_lt (by omega : 65472 / r2 * 17 < 65536)]
    omega
  · simp only [e6, e7, decide_eq_true_eq]
    have hBL : BATTERY_LOW_MV sht21 ≤ 2199 := by
      cases sht21 <;> decide
    intro hlow
    have small : ∀ r, r < 17 → 1 ≤ r → ¬ (65472 / r * 17 % 65536 < 2199) := by decide
    have h17 : 17 ≤ r1 := by
      by_contra hlt
      exact small r1 (by omega) h1 (by omega)
    have q1 : 65472 / r1 ≤ 3851 := by
      calc 65472 / r1 ≤ 65472 / 17 := Nat.div_le_div_left h17 (by decide)
        _ = 3851 := by decide
    have q2 : 65472 / r2 ≤ 65472 / r1 := Nat.div_le_div_left h12 (by omega)
    rw [Nat.mod_eq_of_lt (by omega : 65472 / r1 * 17 < 65536)] at hlow
    rw [Nat.mod_eq_of_lt (by omega : 65472 / r2 * 17 < 65536)]
    omega

/-- Witness for C40 amended: raw readings 511 (about 2.2 V) and 600. -/
theorem C40_low_battery_monotone_amended_witness :
    ∃ v1 v2 : Nat × SupplyVoltageMilliVolts,
      SupplyVoltageMilliVolts.read false 511 ⟨0, 0, false⟩ = some v1 ∧
      SupplyVoltageMilliVolts.read false 600 ⟨0, 0, false⟩ = some v2 ∧
      (17 ≤ 511 → v2.1 ≤ v1.1) ∧
      v1.2.mV = v1.1 ∧ v2.2.mV = v2.1 ∧
      v1.2.isLow = decide (v1.1 < BATTERY_LOW_MV false) ∧
      v2.2.isLow = decide (v2.1 < BATTERY_LOW_MV false) ∧
      (v1.2.isLow = true → v2.2.isLow = true) :=
  C40_low_battery_monotone_amended false 511 600 ⟨0, 0, false⟩ ⟨0, 0, false⟩ (by decide)
    (by decide) (by decide)

end OpenTRV

